import Mathlib

/-!
# jpsreport: occupancy detection and space-time aggregation

A shallow embedding of `src/src/methods/Method_H.cpp`, of
`DifferentVariants::GetTinTout` (`src/src/testing/DifferentVariants.cpp`), and
of the parts of `src/src/Analysis.cpp` and `src/src/general/ArgumentParser.cpp`
that own the measurement areas (`GetBoundingBox`, `InitArgs`, the method H
block of `RunAnalysis`, `GetMeasurementArea`, the `area_B`, `method_A` and
`method_H` loops of `ParseInifile`), and of the control flow of
`RunAnalysis` over its eight method blocks and of `main` (`src/src/main.cpp`).

* C++ `int` values are `Int` (the loops below stay inside the `int` range
  whenever `numFrames` does, so no wrap-around is involved).
* C++ `double` / `float` values are `Dbl`: a rational number, or one of the
  IEEE-754 special values that a division by zero produces.  Rounding,
  overflow to infinity and the sign of zero are not modelled: this is the
  reading of the arithmetic over the rationals.  Coordinates and lengths,
  which are never the result of a division, are plain rationals.
* Code that is not part of these files (Boost.Geometry predicates and
  algorithms, the helper `GetExactDistance`, the constants `CMtoM` and `M2CM`,
  the classes `Method_A` to `Method_G`, `PedData::ReadData`)
  is a parameter (`Extern`, `VariantEnv`, `BoostGeometry`, `MethodBlock`).
* A call of `exit`, the dereference of a null pointer and a loop that has not
  ended are results of their own (`ProcessResult`, `Outcome`, `RunResult`).
-/

namespace JPSReport

/-! ## Floating-point values -/

/-- A C++ floating-point value: a finite number, an infinity, or NaN. -/
inductive Dbl where
  | fin (q : ℚ)
  | pinf
  | ninf
  | nan
  deriving DecidableEq

namespace Dbl

/-- The infinity of the given sign. -/
def signedInf (positive : Bool) : Dbl :=
  if positive then pinf else ninf

/-- Conversion of an `int` to floating point (`n * 1.0`, or the implicit
conversion of an `int` operand). -/
def ofInt (n : Int) : Dbl := fin (n : ℚ)

/-- IEEE addition (`+`, `+=`). -/
def add : Dbl → Dbl → Dbl
  | nan, _ => nan
  | _, nan => nan
  | fin a, fin b => fin (a + b)
  | fin _, pinf => pinf
  | fin _, ninf => ninf
  | pinf, fin _ => pinf
  | ninf, fin _ => ninf
  | pinf, pinf => pinf
  | ninf, ninf => ninf
  | pinf, ninf => nan
  | ninf, pinf => nan

/-- IEEE multiplication (`*`). -/
def mul : Dbl → Dbl → Dbl
  | nan, _ => nan
  | _, nan => nan
  | fin a, fin b => fin (a * b)
  | fin a, pinf => if a = 0 then nan else signedInf (decide (0 < a))
  | fin a, ninf => if a = 0 then nan else signedInf (decide (a < 0))
  | pinf, fin b => if b = 0 then nan else signedInf (decide (0 < b))
  | ninf, fin b => if b = 0 then nan else signedInf (decide (b < 0))
  | pinf, pinf => pinf
  | ninf, ninf => pinf
  | pinf, ninf => ninf
  | ninf, pinf => ninf

/-- IEEE division (`/`).  A finite value divided by zero is NaN when the
numerator is zero and an infinity of the numerator's sign otherwise. -/
def div : Dbl → Dbl → Dbl
  | nan, _ => nan
  | _, nan => nan
  | fin a, fin b =>
      if b = 0 then (if a = 0 then nan else signedInf (decide (0 < a)))
      else fin (a / b)
  | fin _, pinf => fin 0
  | fin _, ninf => fin 0
  | pinf, fin b => signedInf (decide (0 ≤ b))
  | ninf, fin b => signedInf (decide (b < 0))
  | pinf, pinf => nan
  | ninf, ninf => nan
  | pinf, ninf => nan
  | ninf, pinf => nan

/-- The value is an ordinary (finite) number. -/
def isFinite : Dbl → Bool
  | fin _ => true
  | _ => false

end Dbl

/-! ## Data of one `Method_H` object -/

/-- The coordinate matrices `_xCor`, `_yCor`: entry `(ID, frameNr)`. -/
abbrev Table := Nat → Nat → ℚ

/-- What `Method_H.cpp` uses but does not define. -/
structure Extern where
  /-- The unit factor `CMtoM` (centimetres to metres). -/
  CMtoM : ℚ
  /-- The helper `GetExactDistance(ID, frameStart, frameEnd, xCor, yCor)`. -/
  GetExactDistance : Nat → Int → Int → Table → Table → Dbl
  /-- The predicate `within(make<point_2d>(x, y), _areaForMethod_H->_poly)`. -/
  within : Int → Int → Bool
  /-- The predicate `covered_by(make<point_2d>(x, y), _areaForMethod_H->_poly)`. -/
  covered_by : Int → Int → Bool
  /-- The value read from the local `tmpTime` of window start `i` and
  pedestrian `j` when no branch has assigned it. -/
  unassigned : Int → Nat → Dbl

/-- The members of `Method_H` read by `OutputRhoVFlow`. -/
structure MethodH where
  _numPeds : Nat
  _deltaT : Int
  _fps : ℚ
  _dx : ℚ
  _tIn : List Int
  _tOut : List Int
  _xCor : Table
  _yCor : Table

/-! ## `Method_H::GetTinToutEntExt` -/

/-- The conversion `int x = _xCor(ID, frameNr)` of a `double` to `int`:
truncation towards zero. -/
def truncate (q : ℚ) : Int :=
  if 0 ≤ q then Rat.floor q else -Rat.floor (-q)

/-- The vectors filled by `GetTinToutEntExt`, indexed by pedestrian ID. -/
structure Detector where
  IsinMeasurezone : List Bool
  _tIn : List Int
  _tOut : List Int
  _entrancePoint : List (ℚ × ℚ)
  _exitPoint : List (ℚ × ℚ)

/-- The lines 66-73: one entry per pedestrian, pushed onto the empty vectors
of a new `Method_H` object. -/
def Detector.init (numPeds : Nat) : Detector :=
  { IsinMeasurezone := List.replicate numPeds false,
    _tIn := List.replicate numPeds 0,
    _tOut := List.replicate numPeds 0,
    _entrancePoint := List.replicate numPeds (0, 0),
    _exitPoint := List.replicate numPeds (0, 0) }

/-- The body of the inner loop (lines 79-101) for the pedestrian `ID` listed
in frame `frameNr`. -/
def detectStep (E : Extern) (xCor yCor : Table) (frameNr : Nat) (d : Detector) (ID : Nat) :
    Detector :=
  let x := truncate (xCor ID frameNr)
  let y := truncate (yCor ID frameNr)
  if E.within x y && !(d.IsinMeasurezone.getD ID false) then
    { d with
      _tIn := d._tIn.set ID frameNr,
      IsinMeasurezone := d.IsinMeasurezone.set ID true,
      _entrancePoint := d._entrancePoint.set ID (x * E.CMtoM, y * E.CMtoM) }
  else if !E.within x y && E.covered_by x y && !(d.IsinMeasurezone.getD ID false) then
    { d with
      _tIn := d._tIn.set ID frameNr,
      IsinMeasurezone := d.IsinMeasurezone.set ID true,
      _entrancePoint := d._entrancePoint.set ID (x * E.CMtoM, y * E.CMtoM) }
  else if !E.within x y && d.IsinMeasurezone.getD ID false then
    { d with
      _tOut := d._tOut.set ID frameNr,
      _exitPoint := d._exitPoint.set ID (x * E.CMtoM, y * E.CMtoM),
      IsinMeasurezone := d.IsinMeasurezone.set ID false }
  else d

/-- The frame loop body (lines 76-102): every pedestrian listed in the frame. -/
def detectFrame (E : Extern) (peds_t : Nat → List Nat) (xCor yCor : Table) (d : Detector)
    (frameNr : Nat) : Detector :=
  (peds_t frameNr).foldl (detectStep E xCor yCor frameNr) d

/-- The function `Method_H::GetTinToutEntExt(numFrames)`; `peds_t` is the map
`_peds_t` from frame number to the IDs present in that frame. -/
def GetTinToutEntExt (E : Extern) (numPeds : Nat) (peds_t : Nat → List Nat)
    (xCor yCor : Table) (numFrames : Int) : Detector :=
  (List.range numFrames.toNat).foldl (detectFrame E peds_t xCor yCor) (Detector.init numPeds)

/-! ## `Method_H::OutputRhoVFlow` -/

/-- The guard of line 121: the pedestrian is taken into the window that
starts at frame `i`. -/
def overlapTest (tIn tOut i deltaT : Int) : Bool :=
  !((decide (tIn > i + deltaT) && decide (tOut ≥ i + deltaT)) ||
    (decide (tIn ≤ i) && decide (tOut < i)))

/-- The effect of the `if / else if` chain of lines 126-144 for one
pedestrian: the value assigned to `tmpTime` (`none` when no branch assigns
it) and the two frames handed to `GetExactDistance` (`none` when it is not
called). -/
structure Branch where
  tmpTime : Option Dbl
  frames : Option (Int × Int)

/-- The `if / else if` chain of lines 126-144. -/
def branch (fps : ℚ) (tIn tOut i deltaT : Int) : Branch :=
  if (i < tIn ∧ tIn < i + deltaT) ∧ (i < tOut ∧ tOut < i + deltaT) then
    { tmpTime := some ((Dbl.ofInt (tOut - tIn)).div (Dbl.fin fps)),
      frames := some (tIn, tOut) }
  else if tIn ≤ i ∧ tOut ≤ i + deltaT then
    { tmpTime := some ((Dbl.ofInt deltaT).div (Dbl.fin fps)),
      frames := some (i, i + deltaT) }
  else if i < tOut ∧ tOut < i + deltaT then
    { tmpTime := some ((Dbl.ofInt (tOut - i)).div (Dbl.fin fps)),
      frames := some (i, tOut) }
  else if i < tIn ∧ tIn < i + deltaT then
    { tmpTime := some ((Dbl.ofInt (i + deltaT - tIn)).div (Dbl.fin fps)),
      frames := some (tIn, i + deltaT) }
  else
    { tmpTime := none, frames := none }

/-- The accumulators `sumTime`, `sumDistance` of one window. -/
structure WindowSums where
  sumTime : Dbl
  sumDistance : Dbl

/-- The body of the pedestrian loop (lines 118-146) for pedestrian `j` with
entrance frame `tIn` and exit frame `tOut`, in the window starting at `i`. -/
def pedBody (E : Extern) (fps : ℚ) (xCor yCor : Table) (i deltaT : Int) (j : Nat)
    (tIn tOut : Int) (s : WindowSums) : WindowSums :=
  if overlapTest tIn tOut i deltaT then
    let b := branch fps tIn tOut i deltaT
    { sumTime := s.sumTime.add (b.tmpTime.getD (E.unassigned i j)),
      sumDistance :=
        match b.frames with
        | some (a, c) => s.sumDistance.add (E.GetExactDistance j a c xCor yCor)
        | none => s.sumDistance }
  else s

/-- The in-place unit conversion of lines 108-113. -/
def convertTable (E : Extern) (numPeds : Nat) (numFrames : Int) (t : Table) : Table :=
  fun i frameNr =>
    if i < numPeds ∧ (frameNr : Int) < numFrames then t i frameNr * E.CMtoM else t i frameNr

/-- The pedestrian loop of lines 115-147: the sums of the window starting at
frame `i`, over the pedestrians `0 .. _numPeds - 1`. -/
def windowSums (E : Extern) (m : MethodH) (xCor yCor : Table) (i : Int) : WindowSums :=
  (List.range m._numPeds).foldl
    (fun s j => pedBody E m._fps xCor yCor i m._deltaT j (m._tIn.getD j 0) (m._tOut.getD j 0) s)
    { sumTime := Dbl.fin 0, sumDistance := Dbl.fin 0 }

/-- One line of the result file. -/
structure Row where
  flow : Dbl
  density : Dbl
  velocity : Dbl

/-- The lines 148-150: the three values written for a window. -/
def rowOf (dx fps : ℚ) (deltaT : Int) (s : WindowSums) : Row :=
  { flow := s.sumDistance.div ((Dbl.fin dx).mul ((Dbl.ofInt deltaT).div (Dbl.fin fps))),
    density := s.sumTime.div ((Dbl.fin dx).mul ((Dbl.ofInt deltaT).div (Dbl.fin fps))),
    velocity := s.sumDistance.div s.sumTime }

/-- The row written for the window that starts at frame `i`. -/
def windowRow (E : Extern) (m : MethodH) (xCor yCor : Table) (i : Int) : Row :=
  rowOf m._dx m._fps m._deltaT (windowSums E m xCor yCor i)

/-- The window loop of line 114, `for (i = ..; i < numFrames - _deltaT; i += _deltaT)`,
run for at most `fuel` iterations from the current value of `i`: the rows
written, or `none` when the loop has not ended within `fuel` iterations. -/
def windowLoop (E : Extern) (m : MethodH) (xCor yCor : Table) (numFrames : Int) :
    Nat → Int → Option (List Row)
  | 0, i => if i < numFrames - m._deltaT then none else some []
  | fuel + 1, i =>
      if i < numFrames - m._deltaT then
        (windowLoop E m xCor yCor numFrames fuel (i + m._deltaT)).map
          (fun rows => windowRow E m xCor yCor i :: rows)
      else some []

/-- The function `Method_H::OutputRhoVFlow(numFrames, fRhoVFlow)`: the
coordinate tables after the unit conversion and the rows written to the
file, or `none` when the window loop has not ended within `fuel` iterations. -/
def OutputRhoVFlow (E : Extern) (m : MethodH) (numFrames : Int) (fuel : Nat) :
    Option (Table × Table × List Row) :=
  let xCor := convertTable E m._numPeds numFrames m._xCor
  let yCor := convertTable E m._numPeds numFrames m._yCor
  (windowLoop E m xCor yCor numFrames fuel 0).map (fun rows => (xCor, yCor, rows))

/-! ## `Method_H::Process` -/

/-- The getters of `PedData` read by `Method_H::Process`. -/
structure PedData where
  GetNumPeds : Nat
  GetNumFrames : Int
  GetFps : ℚ
  GetPedIDsByFrameNr : Nat → List Nat
  GetXCor : Table
  GetYCor : Table

/-- How a call of `Method_H::Process` ends. -/
inductive ProcessResult where
  /-- The call ended the program with `exit(EXIT_FAILURE)`. -/
  | exitFailure
  /-- The call returned `value` after writing `rows` to the result file. -/
  | returned (value : Bool) (rows : List Row)
  /-- The window loop has not ended within the given number of iterations. -/
  | running

/-- The function `Method_H::Process(peddata, zPos_measureArea)` of an object
whose area has length `_length` and whose interval was set to `deltaT`;
`fileOpens` tells whether the result file could be opened. -/
def Process (E : Extern) (fileOpens : Bool) (_length : ℚ) (deltaT : Int) (peddata : PedData)
    (fuel : Nat) : ProcessResult :=
  if !fileOpens then ProcessResult.exitFailure
  else
    let d := GetTinToutEntExt E peddata.GetNumPeds peddata.GetPedIDsByFrameNr
      peddata.GetXCor peddata.GetYCor peddata.GetNumFrames
    if _length < 0 then ProcessResult.exitFailure
    else
      let m : MethodH :=
        { _numPeds := peddata.GetNumPeds, _deltaT := deltaT, _fps := peddata.GetFps,
          _dx := _length, _tIn := d._tIn, _tOut := d._tOut,
          _xCor := peddata.GetXCor, _yCor := peddata.GetYCor }
      match OutputRhoVFlow E m peddata.GetNumFrames fuel with
      | none => ProcessResult.running
      | some (_, _, rows) => ProcessResult.returned true rows

/-! ## `DifferentVariants::GetTinTout` -/

/-- A `point_2d`. -/
abbrev Point := ℚ × ℚ

/-- A `segment` (two end points). -/
abbrev Segment := Point × Point

/-- The point `make<point_2d>(x, y)` of two `int` coordinates. -/
def point (x y : Int) : Point := ((x : ℚ), (y : ℚ))

/-- What `DifferentVariants::GetTinTout` uses but does not define: the
Boost.Geometry operations on the polygon handed to it, and the values found
in locals that have not been assigned. -/
structure VariantEnv where
  /-- The predicate `within(make<point_2d>(x, y), polygon)`. -/
  within : Int → Int → Bool
  /-- The predicate `covered_by(make<point_2d>(x, y), polygon)`. -/
  covered_by : Int → Int → Bool
  /-- The vertex `polygon.outer()[k]`. -/
  outer : Nat → Point
  /-- The predicate `intersects(edge0, edge1)` on two segments. -/
  intersects : Segment → Segment → Bool
  /-- The value `boost::geometry::distance(point, segment)`. -/
  distance : Point → Segment → ℚ
  /-- The values read from `nextX`, `nextY` at frame `frameNr` for pedestrian
  `ID` when `frameNr + 1 < numFrames` fails and they have not been assigned. -/
  unassignedNext : Nat → Nat → Int × Int
  /-- The value of the default-constructed segments `entrance` and `exit`. -/
  defaultSegment : Segment

/-- The locals of `GetTinTout`: the three vectors indexed by pedestrian ID and
the two segments `entrance`, `exit`, which are declared once, outside both
loops. -/
structure Variants where
  IsinMeasurezone : List Bool
  tIn : List Int
  tOut : List Int
  entrance : Segment
  exit : Segment

/-- The lines 107-112: the initial values of the locals. -/
def Variants.init (G : VariantEnv) (numPeds : Nat) : Variants :=
  { IsinMeasurezone := List.replicate numPeds false,
    tIn := List.replicate numPeds 0,
    tOut := List.replicate numPeds 0,
    entrance := G.defaultSegment,
    exit := G.defaultSegment }

/-- The two assignments `tIn[ID] = t; IsinMeasurezone[ID] = true;`. -/
def Variants.enter (s : Variants) (ID : Nat) (t : Int) : Variants :=
  { s with tIn := s.tIn.set ID t, IsinMeasurezone := s.IsinMeasurezone.set ID true }

/-- The two assignments `tOut[ID] = t; IsinMeasurezone[ID] = false;`. -/
def Variants.leave (s : Variants) (ID : Nat) (t : Int) : Variants :=
  { s with tOut := s.tOut.set ID t, IsinMeasurezone := s.IsinMeasurezone.set ID false }

/-- The edge `segment(polygon.outer()[p], polygon.outer()[p + 1])`. -/
def edge (G : VariantEnv) (p : Nat) : Segment := (G.outer p, G.outer (p + 1))

/-- The body of the loop `for (p = 0; p < 4; p++)` of lines 211-228 (and
261-279): when edge `p` intersects the connecting segment `edge1`, it becomes
the entrance and the exit is set from it. -/
def edgeBody (G : VariantEnv) (edge1 : Segment) (se : Segment × Segment) (p : Nat) :
    Segment × Segment :=
  if G.intersects (edge G p) edge1 then
    if p < 2 then (edge G p, (G.outer (p + 2), G.outer (p + 3)))
    else if p = 2 then (edge G p, (G.outer 4, G.outer 1))
    else if p = 3 then (edge G p, (G.outer 1, G.outer 2))
    else (edge G p, se.2)
  else se

/-- The loop `for (p = 0; p < 4; p++)`: the pair `(entrance, exit)` after it. -/
def edgeLoop (G : VariantEnv) (edge1 : Segment) (se : Segment × Segment) : Segment × Segment :=
  (List.range 4).foldl (edgeBody G edge1) se

/-- The `switch (variant)` of lines 125-306 for pedestrian `ID` in frame
`frameNr`, with the samples `(x, y)` of this frame and `(nextX, nextY)` of the
next one.  The geometric variants 7 and 8 differ in the comparison of the two
distances only: `<` in variant 7, `<=` in variant 8. -/
def variantSwitch (G : VariantEnv) (numFrames : Int) (variant : Nat) (frameNr : Nat)
    (s : Variants) (ID : Nat) (x y nextX nextY : Int) : Variants :=
  let inside := s.IsinMeasurezone.getD ID false
  let hasNext : Bool := decide ((frameNr : Int) + 1 < numFrames)
  let nextIsZero : Bool := decide (nextX = 0) && decide (nextY = 0)
  match variant with
  | 1 =>
      if hasNext && !nextIsZero then
        if G.covered_by nextX nextY && !inside then s.enter ID frameNr
        else if !G.within nextX nextY && inside then s.leave ID frameNr
        else s
      else s
  | 2 =>
      if hasNext && !nextIsZero then
        if G.within nextX nextY && !inside then s.enter ID frameNr
        else if !G.covered_by nextX nextY && inside then s.leave ID frameNr
        else s
      else s
  | 3 =>
      if G.within x y && !inside && !nextIsZero then s.enter ID frameNr
      else if !G.covered_by x y && inside then s.leave ID frameNr
      else s
  | 4 =>
      if G.covered_by x y && !inside && !nextIsZero then s.enter ID frameNr
      else if !G.within x y && inside then s.leave ID frameNr
      else s
  | 5 =>
      if hasNext && !nextIsZero then
        if G.within x y && !inside then s.enter ID frameNr
        else if !G.within nextX nextY && inside then s.leave ID frameNr
        else s
      else s
  | 6 =>
      if hasNext && !nextIsZero then
        if G.covered_by x y && !inside then s.enter ID frameNr
        else if !G.covered_by nextX nextY && inside then s.leave ID frameNr
        else s
      else s
  | 7 =>
      if hasNext then
        if !G.covered_by x y && !inside && G.covered_by nextX nextY && !nextIsZero then
          let se := edgeLoop G (point x y, point nextX nextY) (s.entrance, s.exit)
          let dist1 := G.distance (point x y) se.1
          let dist2 := G.distance (point nextX nextY) se.1
          { (s.enter ID (if dist1 < dist2 then (frameNr : Int) else (frameNr : Int) + 1)) with
            entrance := se.1, exit := se.2 }
        else if G.covered_by x y && inside && !G.covered_by nextX nextY then
          let dist1 := G.distance (point x y) s.exit
          let dist2 := G.distance (point nextX nextY) s.exit
          s.leave ID (if dist1 < dist2 then (frameNr : Int) else (frameNr : Int) + 1)
        else s
      else s
  | 8 =>
      if hasNext then
        if !G.covered_by x y && !inside && G.covered_by nextX nextY && !nextIsZero then
          let se := edgeLoop G (point x y, point nextX nextY) (s.entrance, s.exit)
          let dist1 := G.distance (point x y) se.1
          let dist2 := G.distance (point nextX nextY) se.1
          { (s.enter ID (if dist1 ≤ dist2 then (frameNr : Int) else (frameNr : Int) + 1)) with
            entrance := se.1, exit := se.2 }
        else if G.covered_by x y && inside && !G.covered_by nextX nextY then
          let dist1 := G.distance (point x y) s.exit
          let dist2 := G.distance (point nextX nextY) s.exit
          s.leave ID (if dist1 ≤ dist2 then (frameNr : Int) else (frameNr : Int) + 1)
        else s
      else s
  | _ => s

/-- The body of the loop `for (int ID : ids)` (lines 116-306): the samples
are read (and truncated to `int`), then the `switch` is run. -/
def variantStep (G : VariantEnv) (xCor yCor : Table) (numFrames : Int) (variant : Nat)
    (frameNr : Nat) (s : Variants) (ID : Nat) : Variants :=
  let x := truncate (xCor ID frameNr)
  let y := truncate (yCor ID frameNr)
  let next : Int × Int :=
    if (frameNr : Int) + 1 < numFrames then
      (truncate (xCor ID (frameNr + 1)), truncate (yCor ID (frameNr + 1)))
    else G.unassignedNext frameNr ID
  variantSwitch G numFrames variant frameNr s ID x y next.1 next.2

/-- The frame loop body (lines 114-307). -/
def variantFrame (G : VariantEnv) (peds_t : Nat → List Nat) (xCor yCor : Table)
    (numFrames : Int) (variant : Nat) (s : Variants) (frameNr : Nat) : Variants :=
  (peds_t frameNr).foldl (variantStep G xCor yCor numFrames variant frameNr) s

/-- The locals of `GetTinTout` when the frame loop has ended. -/
def runVariant (G : VariantEnv) (peds_t : Nat → List Nat) (xCor yCor : Table)
    (numFrames : Int) (numPeds variant : Nat) : Variants :=
  (List.range numFrames.toNat).foldl (variantFrame G peds_t xCor yCor numFrames variant)
    (Variants.init G numPeds)

/-- The function `DifferentVariants::GetTinTout(numFrames, polygon, numPeds,
variant)`: the vectors `tIn` and `tOut`. -/
def GetTinTout (G : VariantEnv) (peds_t : Nat → List Nat) (xCor yCor : Table)
    (numFrames : Int) (numPeds variant : Nat) : List Int × List Int :=
  ((runVariant G peds_t xCor yCor numFrames numPeds variant).tIn,
    (runVariant G peds_t xCor yCor numFrames numPeds variant).tOut)

/-! ## `Analysis::GetBoundingBox` -/

/-- A `polygon_2d`, given by the points of its outer ring. -/
abbrev Polygon := List Point

/-- A `boost::geometry::model::box<point_2d>`. -/
structure Box where
  min_corner : Point
  max_corner : Point

/-- The point lies in the box (border included). -/
def Box.contains (b : Box) (p : Point) : Prop :=
  b.min_corner.1 ≤ p.1 ∧ p.1 ≤ b.max_corner.1 ∧ b.min_corner.2 ≤ p.2 ∧ p.2 ≤ b.max_corner.2

/-- What `Analysis.cpp` and `ArgumentParser.cpp` use but do not define: three
Boost.Geometry algorithms and the unit factor `M2CM`. -/
structure BoostGeometry where
  /-- The multi-polygon that `union_(border, poly, tmp)` writes to `tmp`. -/
  union_ : List Polygon → Polygon → List Polygon
  /-- The box that `envelope(border, box)` writes to `box`. -/
  envelope : List Polygon → Box
  /-- The polygon after `correct(poly)`. -/
  correct : Polygon → Polygon
  /-- The unit factor `M2CM` (metres to centimetres). -/
  M2CM : ℚ

/-- The loop of lines 285-291 of `GetBoundingBox`: the union of the polygons. -/
def unionAll (B : BoostGeometry) (polygons : List Polygon) : List Polygon :=
  polygons.foldl (fun border poly => B.union_ border poly) []

/-- The function `Analysis::GetBoundingBox(polygons, extension)`. -/
def GetBoundingBox (B : BoostGeometry) (polygons : List Polygon) (extension : ℚ) : Box :=
  let box := B.envelope (unionAll B polygons)
  { max_corner := (box.max_corner.1 + extension * B.M2CM, box.max_corner.2 + extension * B.M2CM),
    min_corner := (box.min_corner.1 - extension * B.M2CM, box.min_corner.2 - extension * B.M2CM) }

/-- The points of a multi-polygon, which is a vector of polygons: `region poly p`
says that the point `p` lies in the polygon `poly` or on its boundary. -/
def multiRegion (region : Polygon → Point → Prop) (border : List Polygon) (p : Point) : Prop :=
  ∃ poly ∈ border, region poly p

/-- What Boost.Geometry guarantees about `union_` and `envelope` on the
polygons handed to `GetBoundingBox`: the vertices of a polygon lie in it, the
result of `union_(border, poly, tmp)` has the points of `border` and those of
`poly` and no others, and the box of `envelope` holds every point of the
multi-polygon. -/
structure BoostContract (B : BoostGeometry) (region : Polygon → Point → Prop)
    (polygons : List Polygon) : Prop where
  vertex : ∀ poly ∈ polygons, ∀ v ∈ poly, region poly v
  union_points : ∀ (border : List Polygon), ∀ poly ∈ polygons, ∀ p : Point,
    multiRegion region (B.union_ border poly) p ↔ multiRegion region border p ∨ region poly p
  envelope_holds : ∀ (border : List Polygon) (p : Point),
    multiRegion region border p → (B.envelope border).contains p

/-! ## The registry of measurement areas (`ArgumentParser`) -/

/-- The class of a measurement area object: `MeasurementArea_B` or
`MeasurementArea_L`. -/
inductive AreaClass where
  | B
  | L
  deriving DecidableEq

/-- A measurement area object with the members the code below reads. -/
structure MeasurementArea where
  cls : AreaClass
  _id : Int
  _type : String
  _poly : Polygon
  _length : ℚ

/-- The map `_measurementAreasByIDs`: the area registered under an id, if any. -/
abbrev Registry := Int → Option MeasurementArea

/-- The assignment `_measurementAreasByIDs[area->_id] = area`. -/
def Registry.insert (reg : Registry) (area : MeasurementArea) : Registry :=
  fun id => if id = area._id then some area else reg id

/-- How a piece of code ends: with a value, with `exit(EXIT_FAILURE)` after an
error has been logged, or in undefined behaviour (a null pointer is
dereferenced or a vector is read out of range; nothing is reported). -/
inductive Outcome (α : Type) where
  | value (a : α)
  | exitFailure
  | undefinedBehaviour
  deriving DecidableEq

/-- The function `ArgumentParser::GetMeasurementArea(id)`. -/
def GetMeasurementArea (reg : Registry) (id : Int) : Outcome MeasurementArea :=
  match reg id with
  | none => Outcome.exitFailure
  | some area => Outcome.value area

/-- The expression `_measurementAreasByIDs[id]->_type` of `ParseInifile`: for
an id that is not registered `operator[]` inserts a null pointer, which is
dereferenced. -/
def registeredType (reg : Registry) (id : Int) : Outcome String :=
  match reg id with
  | none => Outcome.undefinedBehaviour
  | some area => Outcome.value area._type

/-- The attribute `frame_interval` of a `measurement_area` element: missing,
the text `None`, or a text that `xmltoi` turns into the number `n`. -/
inductive FrameInterval where
  | absent
  | noneText
  | number (n : Int)

/-- The value pushed for a `frame_interval` attribute (lines 807-819; lines
538-551 for method A), `dflt` being pushed when it is missing or `None`. -/
def FrameInterval.value (dflt : Int) : FrameInterval → Int
  | absent => dflt
  | noneText => dflt
  | number n => n

/-- A `measurement_area` element of a method. -/
structure MethodAreaElement where
  id : Int
  frame_interval : FrameInterval

/-- The vectors of area ids and of time intervals that `ParseInifile` fills
for one method. -/
structure MethodAreas where
  areaIDs : List Int
  timeIntervals : List Int

/-- The loop of lines 798-828 (method H) over the `measurement_area` elements. -/
def parseMethodH (reg : Registry) : List MethodAreaElement → MethodAreas → Outcome MethodAreas
  | [], acc => Outcome.value acc
  | el :: rest, acc =>
      match registeredType reg el.id with
      | Outcome.value t =>
          if t = "BoundingBox" then
            parseMethodH reg rest
              { areaIDs := acc.areaIDs ++ [el.id],
                timeIntervals := acc.timeIntervals ++ [el.frame_interval.value (-1)] }
          else parseMethodH reg rest acc
      | Outcome.exitFailure => Outcome.exitFailure
      | Outcome.undefinedBehaviour => Outcome.undefinedBehaviour

/-- The loop of lines 521-551 (method A) over the `measurement_area` elements:
the time interval is pushed whether or not the id has been accepted. -/
def parseMethodA (reg : Registry) : List MethodAreaElement → MethodAreas → Outcome MethodAreas
  | [], acc => Outcome.value acc
  | el :: rest, acc =>
      match registeredType reg el.id with
      | Outcome.value t =>
          parseMethodA reg rest
            { areaIDs := if t = "Line" then acc.areaIDs ++ [el.id] else acc.areaIDs,
              timeIntervals := acc.timeIntervals ++ [el.frame_interval.value 100] }
      | Outcome.exitFailure => Outcome.exitFailure
      | Outcome.undefinedBehaviour => Outcome.undefinedBehaviour

/-- An `area_B` element of the ini file: the vertices are the parsed attribute
pairs, `none` standing for a `vertex` element without a valid pair; `length`
is the `distance` of `length_in_movement_direction`, when that element exists. -/
structure AreaBElement where
  id : Int
  type : String
  vertices : List (Option Point)
  length : Option ℚ

/-- The body of the loop of lines 320-392 over the `area_B` elements: the area
object that is registered, and whether the warning "Less than 3 measure area
points given" is logged.  `defaultLength` is the value the constructor of
`MeasurementArea_B` gives `_length`. -/
def parseAreaB (B : BoostGeometry) (defaultLength : ℚ) (el : AreaBElement) :
    MeasurementArea × Bool :=
  let poly : Polygon :=
    el.vertices.filterMap (fun v => v.map (fun p => (p.1 * B.M2CM, p.2 * B.M2CM)))
  let num_verteces := poly.length
  ({ cls := AreaClass.B, _id := el.id, _type := el.type, _poly := B.correct poly,
     _length := el.length.getD defaultLength },
    decide (num_verteces < 3 ∧ num_verteces > 0))

/-! ## `Analysis::InitArgs` and `Analysis::RunAnalysis` -/

/-- The result of `dynamic_cast<MeasurementArea_B *>`: a null pointer for an
object of another class. -/
def castB (area : MeasurementArea) : Option MeasurementArea :=
  if area.cls = AreaClass.B then some area else none

/-- The loop of lines 138-146 of `InitArgs` (method B): `acc` is
`_areasForMethodB` so far. -/
def InitArgs_methodB (reg : Registry) :
    List Int → List MeasurementArea → Outcome (List MeasurementArea)
  | [], acc => Outcome.value acc
  | id :: rest, acc =>
      match GetMeasurementArea reg id with
      | Outcome.value a =>
          match castB a with
          | some area =>
              if area._poly.isEmpty then InitArgs_methodB reg rest acc
              else InitArgs_methodB reg rest (acc ++ [area])
          | none => Outcome.undefinedBehaviour
      | Outcome.exitFailure => Outcome.exitFailure
      | Outcome.undefinedBehaviour => Outcome.undefinedBehaviour

/-- The loop of lines 152-160 of `InitArgs` (method C), which repeats the one
of method B. -/
def InitArgs_methodC (reg : Registry) (ids : List Int) (acc : List MeasurementArea) :
    Outcome (List MeasurementArea) :=
  InitArgs_methodB reg ids acc

/-- The loop of lines 221-224 of `InitArgs` (method H): `acc` is
`_areasForMethodH` so far, a vector of pointers that may be null. -/
def InitArgs_methodH (reg : Registry) :
    List Int → List (Option MeasurementArea) → Outcome (List (Option MeasurementArea))
  | [], acc => Outcome.value acc
  | id :: rest, acc =>
      match GetMeasurementArea reg id with
      | Outcome.value a => InitArgs_methodH reg rest (acc ++ [castB a])
      | Outcome.exitFailure => Outcome.exitFailure
      | Outcome.undefinedBehaviour => Outcome.undefinedBehaviour

/-- What `RunAnalysis` has logged for one area: its id, the value returned by
`Process` and the rows written. -/
structure AreaResult where
  id : Int
  result : Bool
  rows : List Row

/-- How the method H block of `RunAnalysis` ends, with the results of the
areas processed so far. -/
inductive RunResult where
  /-- The program was ended by `exit(EXIT_FAILURE)`. -/
  | exitFailure (done : List AreaResult)
  /-- The block was left normally. -/
  | completed (done : List AreaResult)
  /-- A window loop has not ended within the given number of iterations. -/
  | running (done : List AreaResult)
  /-- A null pointer was dereferenced or a vector read out of range. -/
  | undefinedBehaviour (done : List AreaResult)

/-- The loop of lines 535-549 of `RunAnalysis` from index `i` on: `areas` are
the entries `_areasForMethodH[i], ...` still to be processed, `env` gives the
Boost predicates of an area's polygon and `fileOpens` tells whether the result
file of an area can be opened. -/
def methodHLoop (env : MeasurementArea → Extern) (fileOpens : Int → Bool)
    (_deltaTMethodH : List Int) (data : PedData) (fuel : Nat) :
    Nat → List (Option MeasurementArea) → List AreaResult → RunResult
  | _, [], done => RunResult.completed done
  | _, none :: _, done => RunResult.undefinedBehaviour done
  | i, some area :: rest, done =>
      match _deltaTMethodH[i]? with
      | none => RunResult.undefinedBehaviour done
      | some deltaT =>
          match Process (env area) (fileOpens area._id) area._length deltaT data fuel with
          | ProcessResult.exitFailure => RunResult.exitFailure done
          | ProcessResult.running => RunResult.running done
          | ProcessResult.returned result rows =>
              methodHLoop env fileOpens _deltaTMethodH data fuel (i + 1) rest
                (done ++ [{ id := area._id, result := result, rows := rows }])

/-- The method H block of `Analysis::RunAnalysis` (lines 529-550). -/
def RunAnalysis_methodH (env : MeasurementArea → Extern) (fileOpens : Int → Bool)
    (_DoesUseMethodH : Bool) (_areasForMethodH : List (Option MeasurementArea))
    (_deltaTMethodH : List Int) (data : PedData) (fuel : Nat) : RunResult :=
  if _DoesUseMethodH then
    if _areasForMethodH.isEmpty then RunResult.exitFailure []
    else methodHLoop env fileOpens _deltaTMethodH data fuel 0 _areasForMethodH []
  else RunResult.completed []

/-! ## `Analysis::RunAnalysis` over all methods, and `main` -/

/-- The two exit statuses of the program (`return 0` is `EXIT_SUCCESS`). -/
inductive ExitStatus where
  | EXIT_SUCCESS
  | EXIT_FAILURE
  deriving DecidableEq

/-- The lines that `RunAnalysis` logs about a method: the method is named by
its letter, an area by its index `i` in `_areasForMethodX`. -/
inductive LogLine where
  /-- The line "Could not parse the file ..." -/
  | couldNotParse
  /-- The line "Method X selected with no measurement area!" -/
  | noMeasurementArea (method : String)
  /-- The line "Success with Method X using measurement area id ..." -/
  | success (method : String) (i : Nat)
  /-- The line "Failed with Method X using measurement area id ..." -/
  | failed (method : String) (i : Nat)
  deriving DecidableEq

/-- What one of the eight blocks `if(_DoesUseMethodX) { ... }` of
`RunAnalysis` reads: the flag, the number of entries of `_areasForMethodX`,
and how the call `method_X.Process(...)` for the entry `i` ends (the classes
`Method_A` to `Method_G` are not part of these files). -/
structure MethodBlock where
  method : String
  _DoesUseMethod : Bool
  areas : Nat
  Process : Nat → ProcessResult

/-- How `RunAnalysis` ends, with the lines logged. -/
inductive RunEnd where
  /-- The function returned `status`. -/
  | returned (status : ExitStatus) (log : List LogLine)
  /-- The program was ended by `exit(EXIT_FAILURE)`. -/
  | exited (log : List LogLine)
  /-- A loop inside `Process` has not ended. -/
  | running (log : List LogLine)
  deriving DecidableEq

/-- The loop `for (i = 0; i < int(_areasForMethodX.size()); i++)` of a block,
over the indices still to be processed: the log when the loop is left, or
the end of the run.  (The `omp parallel for` of the blocks A to D is run in
index order.) -/
def methodLoop (b : MethodBlock) : List Nat → List LogLine → Except RunEnd (List LogLine)
  | [], log => Except.ok log
  | i :: rest, log =>
      match b.Process i with
      | ProcessResult.exitFailure => Except.error (RunEnd.exited log)
      | ProcessResult.running => Except.error (RunEnd.running log)
      | ProcessResult.returned result _ =>
          methodLoop b rest
            (log ++ [if result then LogLine.success b.method i else LogLine.failed b.method i])

/-- One block `if(_DoesUseMethodX) { ... }` of `RunAnalysis` (lines 348-370
for method A, 529-550 for method H). -/
def methodBlock (b : MethodBlock) (log : List LogLine) : Except RunEnd (List LogLine) :=
  if b._DoesUseMethod then
    if b.areas = 0 then Except.error (RunEnd.exited (log ++ [LogLine.noMeasurementArea b.method]))
    else methodLoop b (List.range b.areas) log
  else Except.ok log

/-- The blocks of `RunAnalysis` one after the other, then `return 0`. -/
def runBlocks : List MethodBlock → List LogLine → RunEnd
  | [], log => RunEnd.returned ExitStatus.EXIT_SUCCESS log
  | b :: rest, log =>
      match methodBlock b log with
      | Except.ok log2 => runBlocks rest log2
      | Except.error e => e

/-- The function `Analysis::RunAnalysis(filename, path)`: `readData` is the
value of `data.ReadData(...)`, `blocks` are the blocks of the methods A to H
in this order.  (The warnings about pedestrians outside the geometry are not
part of the log kept here.) -/
def RunAnalysis (readData : Bool) (blocks : List MethodBlock) : RunEnd :=
  if readData = false then RunEnd.returned ExitStatus.EXIT_FAILURE [LogLine.couldNotParse]
  else runBlocks blocks []

/-- How the call `analysis.InitArgs(args)` ends. -/
inductive InitEnd where
  | returns
  /-- A `std::exception` is thrown. -/
  | throws
  /-- The program is ended by `exit(EXIT_FAILURE)` (as in `GetMeasurementArea`). -/
  | exits
  deriving DecidableEq

/-- What `main` does with one trajectory file: the end of `InitArgs`, and the
arguments of the model of `RunAnalysis`. -/
structure FileRun where
  InitArgs : InitEnd
  readData : Bool
  blocks : List MethodBlock

/-- How the program ends. -/
inductive MainEnd where
  /-- The function `main` returned `status`. -/
  | returned (status : ExitStatus)
  /-- The program was ended by `exit(EXIT_FAILURE)`. -/
  | exited
  /-- A loop inside `Process` has not ended. -/
  | running
  deriving DecidableEq

/-- The loop of `main` over the trajectory files (lines 49-65): the value of
`analysis.RunAnalysis(File, Path)` is not used. -/
def mainLoop : List FileRun → MainEnd
  | [] => MainEnd.returned ExitStatus.EXIT_SUCCESS
  | f :: rest =>
      match f.InitArgs with
      | InitEnd.throws => MainEnd.returned ExitStatus.EXIT_FAILURE
      | InitEnd.exits => MainEnd.exited
      | InitEnd.returns =>
          match RunAnalysis f.readData f.blocks with
          | RunEnd.returned _ _ => mainLoop rest
          | RunEnd.exited _ => MainEnd.exited
          | RunEnd.running _ => MainEnd.running

/-- The function `main(argc, argv)`: `ParseArgs` is the value returned by
`args->ParseArgs(argc, argv)`, `files` are the trajectory files. -/
def main (ParseArgs : Bool) (files : List FileRun) : MainEnd :=
  if ParseArgs then mainLoop files else MainEnd.returned ExitStatus.EXIT_SUCCESS

/-! ## The record of one pedestrian -/

/-- The entries of one pedestrian in the three vectors of a detector. -/
structure PedRecord where
  tIn : Int
  tOut : Int
  inside : Bool
  deriving DecidableEq

/-- The entries of pedestrian `ID` in the vectors of `GetTinToutEntExt`. -/
def Detector.record (d : Detector) (ID : Nat) : PedRecord :=
  { tIn := d._tIn.getD ID 0, tOut := d._tOut.getD ID 0,
    inside := d.IsinMeasurezone.getD ID false }

/-- The entries of pedestrian `ID` in the vectors of `GetTinTout`. -/
def Variants.record (s : Variants) (ID : Nat) : PedRecord :=
  { tIn := s.tIn.getD ID 0, tOut := s.tOut.getD ID 0,
    inside := s.IsinMeasurezone.getD ID false }

/-- The lines 82-101 of `GetTinToutEntExt` as seen by one pedestrian: the new
record when the sample of frame `frameNr` has `within = w`, `covered_by = c`. -/
def recordStep (w c : Bool) (frameNr : Nat) (r : PedRecord) : PedRecord :=
  if w && !r.inside then { r with tIn := frameNr, inside := true }
  else if !w && c && !r.inside then { r with tIn := frameNr, inside := true }
  else if !w && r.inside then { r with tOut := frameNr, inside := false }
  else r

/-- The three vectors of a detector have one entry for each of `n` pedestrians. -/
def Detector.sized (d : Detector) (n : Nat) : Prop :=
  d.IsinMeasurezone.length = n ∧ d._tIn.length = n ∧ d._tOut.length = n

/-- The three vectors of `GetTinTout` have one entry for each of `n` pedestrians. -/
def Variants.sized (s : Variants) (n : Nat) : Prop :=
  s.IsinMeasurezone.length = n ∧ s.tIn.length = n ∧ s.tOut.length = n

/-- The detector of `GetTinToutEntExt` after the frames `0 .. n - 1`. -/
def detectorAfter (E : Extern) (numPeds : Nat) (peds_t : Nat → List Nat)
    (xCor yCor : Table) (n : Nat) : Detector :=
  (List.range n).foldl (detectFrame E peds_t xCor yCor) (Detector.init numPeds)

/-- A sequence of loop iterations `(frameNr, ID)` of `GetTinToutEntExt`, run
from detector `d`. -/
def detectSteps (E : Extern) (xCor yCor : Table) (d : Detector) (steps : List (Nat × Nat)) :
    Detector :=
  steps.foldl (fun d st => detectStep E xCor yCor st.1 d st.2) d

/-- A sequence of loop iterations `(frameNr, ID)` of `GetTinTout`, run from
the locals `s`. -/
def variantSteps (G : VariantEnv) (xCor yCor : Table) (numFrames : Int) (variant : Nat)
    (s : Variants) (steps : List (Nat × Nat)) : Variants :=
  steps.foldl (fun s st => variantStep G xCor yCor numFrames variant st.1 s st.2) s

/-- The loop iterations `(frameNr, ID)` of a run over `numFrames` frames, in
the order in which both detectors make them. -/
def frameSteps (peds_t : Nat → List Nat) (numFrames : Int) : List (Nat × Nat) :=
  (List.range numFrames.toNat).flatMap (fun frameNr => (peds_t frameNr).map (fun ID => (frameNr, ID)))

/-- The cases 1 to 6 of the `switch` of `GetTinTout` as seen by one
pedestrian: the new record when the frame has a successor (`hasNext`), the
successor sample is `(0, 0)` (`nz`), the sample of the frame has
`within = w`, `covered_by = c` and the successor sample has `within = w2`,
`covered_by = c2`. -/
def variantRecordStep (variant : Nat) (hasNext nz w c w2 c2 : Bool) (frameNr : Nat)
    (r : PedRecord) : PedRecord :=
  match variant with
  | 1 =>
      if hasNext && !nz then
        if c2 && !r.inside then { r with tIn := frameNr, inside := true }
        else if !w2 && r.inside then { r with tOut := frameNr, inside := false }
        else r
      else r
  | 2 =>
      if hasNext && !nz then
        if w2 && !r.inside then { r with tIn := frameNr, inside := true }
        else if !c2 && r.inside then { r with tOut := frameNr, inside := false }
        else r
      else r
  | 3 =>
      if w && !r.inside && !nz then { r with tIn := frameNr, inside := true }
      else if !c && r.inside then { r with tOut := frameNr, inside := false }
      else r
  | 4 =>
      if c && !r.inside && !nz then { r with tIn := frameNr, inside := true }
      else if !w && r.inside then { r with tOut := frameNr, inside := false }
      else r
  | 5 =>
      if hasNext && !nz then
        if w && !r.inside then { r with tIn := frameNr, inside := true }
        else if !w2 && r.inside then { r with tOut := frameNr, inside := false }
        else r
      else r
  | 6 =>
      if hasNext && !nz then
        if c && !r.inside then { r with tIn := frameNr, inside := true }
        else if !c2 && r.inside then { r with tOut := frameNr, inside := false }
        else r
      else r
  | _ => r

/-- The samples that an iteration of `GetTinTout` reads for pedestrian `ID`
in frame `frameNr`: `(x, y)` and `(nextX, nextY)`. -/
def samplesAt (G : VariantEnv) (xCor yCor : Table) (numFrames : Int) (frameNr ID : Nat) :
    (Int × Int) × (Int × Int) :=
  ((truncate (xCor ID frameNr), truncate (yCor ID frameNr)),
    if (frameNr : Int) + 1 < numFrames then
      (truncate (xCor ID (frameNr + 1)), truncate (yCor ID (frameNr + 1)))
    else G.unassignedNext frameNr ID)

/-- One iteration of a variant 1 to 6 for pedestrian `ID` in frame `frameNr`,
on the record of that pedestrian. -/
def ownStep (G : VariantEnv) (xCor yCor : Table) (numFrames : Int) (variant ID frameNr : Nat)
    (r : PedRecord) : PedRecord :=
  let p := samplesAt G xCor yCor numFrames frameNr ID
  variantRecordStep variant (decide ((frameNr : Int) + 1 < numFrames))
    (decide (p.2.1 = 0) && decide (p.2.2 = 0))
    (G.within p.1.1 p.1.2) (G.covered_by p.1.1 p.1.2)
    (G.within p.2.1 p.2.2) (G.covered_by p.2.1 p.2.2) frameNr r

/-- The record of pedestrian `ID` after the frames `0 .. n - 1` of a variant
1 to 6, when the pedestrian is listed `count frameNr` times in frame
`frameNr`: only its own samples are read. -/
def ownRun (G : VariantEnv) (xCor yCor : Table) (numFrames : Int) (variant ID : Nat)
    (count : Nat → Nat) (n : Nat) : PedRecord :=
  (List.range n).foldl
    (fun r frameNr => (ownStep G xCor yCor numFrames variant ID frameNr)^[count frameNr] r)
    { tIn := 0, tOut := 0, inside := false }

/-! ## Auxiliary definitions and example data -/

/-- The number of windows written from loop value `i` on: the number of `k`
with `i + (k + 1) * deltaT < numFrames` (for `deltaT ≥ 1`). -/
def windowCount (numFrames deltaT i : Int) : Nat :=
  ((numFrames - 1 - i) / deltaT).toNat

/-- The detector's record of pedestrian `ID` is still the initial one:
`tIn = 0`, `tOut = 0`, not inside. -/
def untouched (d : Detector) (ID : Nat) : Prop :=
  d._tIn.getD ID 0 = 0 ∧ d._tOut.getD ID 0 = 0 ∧ d.IsinMeasurezone.getD ID false = false

instance (d : Detector) (ID : Nat) : Decidable (untouched d ID) := by
  unfold untouched
  infer_instance

/-- An environment for the examples: `CMtoM = 1/100`, a pedestrian walking
one metre per eight frames, an area that contains no sample, and zero as the
value found in an unassigned `tmpTime`. -/
def exampleExtern : Extern :=
  { CMtoM := 1 / 100,
    GetExactDistance := fun _ a b _ _ => Dbl.fin (((b - a : Int) : ℚ) / 8),
    within := fun _ _ => false,
    covered_by := fun _ _ => false,
    unassigned := fun _ _ => Dbl.fin 0 }

/-- The scenario of the specification: one region of length 2 m, 16 frames
per second, windows of 16 frames, one pedestrian with entrance frame 0 and
exit frame 16, walking 12.5 cm per frame along the x axis. -/
def exampleMethodH : MethodH :=
  { _numPeds := 1, _deltaT := 16, _fps := 16, _dx := 2, _tIn := [0], _tOut := [16],
    _xCor := fun _ frameNr => 25 * (frameNr : ℚ) / 2, _yCor := fun _ _ => 0 }

/-- The same scenario for an area whose configured length is 0. -/
def zeroLengthMethodH : MethodH :=
  { exampleMethodH with _dx := 0 }

/-- A region that no pedestrian has entered: no pedestrians at all. -/
def emptyMethodH : MethodH :=
  { exampleMethodH with _numPeds := 0, _tIn := [], _tOut := [] }

/-- A trajectory of three frames with one pedestrian, listed in every frame,
walking 12.5 cm per frame along the x axis from x = 10 m on. -/
def examplePedData : PedData :=
  { GetNumPeds := 1, GetNumFrames := 3, GetFps := 16,
    GetPedIDsByFrameNr := fun _ => [0],
    GetXCor := fun _ frameNr => 1000 + 25 * (frameNr : ℚ) / 2, GetYCor := fun _ _ => 0 }

/-- Example geometry: the orientation of the triple `a`, `b`, `c` (twice the
signed area of the triangle). -/
def orient (a b c : Point) : ℚ :=
  (b.1 - a.1) * (c.2 - a.2) - (b.2 - a.2) * (c.1 - a.1)

/-- Example geometry: `c` lies in the bounding box of `a` and `b`. -/
def inBox (a b c : Point) : Bool :=
  decide (min a.1 b.1 ≤ c.1 ∧ c.1 ≤ max a.1 b.1 ∧ min a.2 b.2 ≤ c.2 ∧ c.2 ≤ max a.2 b.2)

/-- Example geometry: two closed segments have a point in common (they cross
or touch), the meaning of `intersects` on two segments. -/
def segmentsIntersect (s t : Segment) : Bool :=
  decide
    ((((0 < orient t.1 t.2 s.1 ∧ orient t.1 t.2 s.2 < 0) ∨
        (orient t.1 t.2 s.1 < 0 ∧ 0 < orient t.1 t.2 s.2)) ∧
      ((0 < orient s.1 s.2 t.1 ∧ orient s.1 s.2 t.2 < 0) ∨
        (orient s.1 s.2 t.1 < 0 ∧ 0 < orient s.1 s.2 t.2))) ∨
    (orient t.1 t.2 s.1 = 0 ∧ inBox t.1 t.2 s.1 = true) ∨
    (orient t.1 t.2 s.2 = 0 ∧ inBox t.1 t.2 s.2 = true) ∨
    (orient s.1 s.2 t.1 = 0 ∧ inBox s.1 s.2 t.1 = true) ∨
    (orient s.1 s.2 t.2 = 0 ∧ inBox s.1 s.2 t.2 = true))

/-- Example geometry: the distance of a point from a segment that is parallel
to an axis, when the foot of the perpendicular lies on the segment.  These are
the only distances the examples ask for; any other case gives 0 here. -/
def axisDistance (p : Point) (s : Segment) : ℚ :=
  if s.1.1 = s.2.1 ∧ min s.1.2 s.2.2 ≤ p.2 ∧ p.2 ≤ max s.1.2 s.2.2 then |p.1 - s.1.1|
  else if s.1.2 = s.2.2 ∧ min s.1.1 s.2.1 ≤ p.1 ∧ p.1 ≤ max s.1.1 s.2.1 then |p.2 - s.1.2|
  else 0

/-- The unit square (1 m = 100 cm): the closed outer ring that starts at the
origin and runs clockwise, so that edge 0 is the left edge, edge 1 the top
edge, edge 2 the right edge and edge 3 the bottom edge. -/
def squareRing : List Point :=
  [(0, 0), (0, 100), (100, 100), (100, 0), (0, 0)]

/-- The same unit square with the ring started at the corner `(100, 100)`:
edge 0 is the right edge, edge 1 the bottom edge, edge 2 the left edge and
edge 3 the top edge. -/
def squareRingFromTopRight : List Point :=
  [(100, 100), (100, 0), (0, 0), (0, 100), (100, 100)]

/-- The environment of `GetTinTout` for the unit square with outer ring `ring`. -/
def squareGeometry (ring : List Point) : VariantEnv :=
  { within := fun x y => decide (0 < x ∧ x < 100 ∧ 0 < y ∧ y < 100),
    covered_by := fun x y => decide (0 ≤ x ∧ x ≤ 100 ∧ 0 ≤ y ∧ y ≤ 100),
    outer := fun k => ring.getD k (0, 0),
    intersects := segmentsIntersect,
    distance := axisDistance,
    unassignedNext := fun _ _ => (0, 0),
    defaultSegment := ((0, 0), (0, 0)) }

/-- The environment of `Method_H` for the unit square. -/
def squareExtern : Extern :=
  { exampleExtern with
    within := fun x y => decide (0 < x ∧ x < 100 ∧ 0 < y ∧ y < 100),
    covered_by := fun x y => decide (0 ≤ x ∧ x ≤ 100 ∧ 0 ≤ y ∧ y ≤ 100) }

/-- A coordinate table in which every pedestrian has the whole-centimetre
coordinate `c frameNr` in frame `frameNr`. -/
def tableOf (c : Nat → Int) : Table := fun _ frameNr => ((c frameNr : Int) : ℚ)

/-- A walk along the line y = 50 through the unit square, 50 cm per frame:
x = -75, -25, 25, 75, 125, 175, ... -/
def walkX (frameNr : Nat) : Int := 50 * (frameNr : Int) - 75

/-- The walk of the specification's scenario: x = -100 in frame 10 and
x = 100 in frame 11 (2 m per frame). -/
def crossX (frameNr : Nat) : Int := 200 * (frameNr : Int) - 2100

/-- A walk with x = -50 in frame 10 and x = 50 in frame 11 (1 m per frame). -/
def shortCrossX (frameNr : Nat) : Int := 100 * (frameNr : Int) - 1050

/-- The constant y = 50. -/
def midY (_ : Nat) : Int := 50

/-- Example geometry: the smallest box that holds all the points (the box
from the origin to the origin for no points). -/
def boxOfPoints : List Point → Box
  | [] => { min_corner := (0, 0), max_corner := (0, 0) }
  | p :: rest =>
      rest.foldl
        (fun b q =>
          { min_corner := (min b.min_corner.1 q.1, min b.min_corner.2 q.2),
            max_corner := (max b.max_corner.1 q.1, max b.max_corner.2 q.2) })
        { min_corner := p, max_corner := p }

/-- Example geometry: a ring of more than two points is closed by repeating
its first point when it is open. -/
def closeRing (ring : Polygon) : Polygon :=
  if 2 < ring.length ∧ ring.head? ≠ ring.getLast? then ring ++ ring.take 1 else ring

/-- Example instance of the Boost algorithms: the union keeps the polygons
side by side, the envelope is the smallest box around all their points, and
`M2CM` is 100. -/
def exampleBoost : BoostGeometry :=
  { union_ := fun border poly => border ++ [poly],
    envelope := fun border => boxOfPoints border.flatten,
    correct := closeRing,
    M2CM := 100 }

/-- An `area_B` element with two vertices, (0, 0) and (1, 0). -/
def twoVertexElement : AreaBElement :=
  { id := 1, type := "BoundingBox", vertices := [some (0, 0), some (1, 0)], length := some 2 }

/-- An `area_B` element without vertices. -/
def noVertexElement : AreaBElement :=
  { id := 2, type := "BoundingBox", vertices := [], length := some 2 }

/-- The registry after the two elements above have been parsed. -/
def exampleRegistry : Registry :=
  (Registry.insert (fun _ => none) (parseAreaB exampleBoost (-1) twoVertexElement).1).insert
    (parseAreaB exampleBoost (-1) noVertexElement).1

/-- The unit square as a measurement area with id `id` and length `length`. -/
def squareArea (id : Int) (length : ℚ) : MeasurementArea :=
  { cls := AreaClass.B, _id := id, _type := "BoundingBox", _poly := squareRing,
    _length := length }

/-- A block of an enabled method without any measurement area. -/
def emptyBlock (method : String) : MethodBlock :=
  { method := method, _DoesUseMethod := true, areas := 0,
    Process := fun _ => ProcessResult.returned true [] }

/-- A block of method B with one area, for which `Process` returns `false`. -/
def failingBlockB : MethodBlock :=
  { method := "B", _DoesUseMethod := true, areas := 1,
    Process := fun _ => ProcessResult.returned false [] }

/-- The block of method H with one area of length 8 m and frame interval 2,
run on the example trajectory. -/
def exampleBlockH : MethodBlock :=
  { method := "H", _DoesUseMethod := true, areas := 1,
    Process := fun _ => Process exampleExtern true 8 2 examplePedData 1 }

/-- A walk along the line y = 50 that touches the boundary of the unit
square: x = -50 (outside), 0 (on the left edge), 50 (interior), 100 (on the
right edge), 50 (interior), then 150 (outside). -/
def boundaryX (frameNr : Nat) : Int := [-50, 0, 50, 100, 50].getD frameNr 150

/-- The vectors of `GetTinToutEntExt` for one pedestrian who has entered the
area in frame 1 and is flagged as inside. -/
def flaggedDetector : Detector :=
  { Detector.init 1 with IsinMeasurezone := [true], _tIn := [1] }

/-- The locals of `GetTinTout` on the unit square for one pedestrian who has
entered the area in frame 1 and is flagged as inside. -/
def flaggedVariants : Variants :=
  (Variants.init (squareGeometry squareRing) 1).enter 0 1

/-- The unit square moved 1 m along the x axis, so that the origin lies
outside it: the closed outer ring, clockwise from `(100, 0)`. -/
def farRing : List Point :=
  [(100, 0), (100, 100), (200, 100), (200, 0), (100, 0)]

/-- A stay of one frame in the unit square: x = 50 in frame 1, x = -50 in
every other frame. -/
def singleFrameX (frameNr : Nat) : Int := if frameNr = 1 then 50 else -50

/-- A measurement area of type `Line` (an object of class `MeasurementArea_L`,
which has no polygon and no length) with id `id`. -/
def lineArea (id : Int) : MeasurementArea :=
  { cls := AreaClass.L, _id := id, _type := "Line", _poly := [], _length := 0 }

/-- A registry with the bounding box 1 and the line 2. -/
def mixedRegistry : Registry :=
  (Registry.insert (fun _ => none) (squareArea 1 2)).insert (lineArea 2)

/-- The `measurement_area` elements of a method: the area 1 with
`frame_interval="50"`, then the area 2 with `frame_interval="200"`. -/
def mixedElements : List MethodAreaElement :=
  [{ id := 1, frame_interval := FrameInterval.number 50 },
   { id := 2, frame_interval := FrameInterval.number 200 }]

/-- A walk that enters the unit square twice: x = 50 (inside) on the frames 2
and 3 and from frame 7 on, x = -50 (outside) on the other frames. -/
def reentryX (frameNr : Nat) : Int :=
  if (2 ≤ frameNr ∧ frameNr ≤ 3) ∨ 7 ≤ frameNr then 50 else -50

/-- A trajectory of twelve frames at 16 frames per second with one
pedestrian, listed in every frame, on the walk `reentryX` along y = 50. -/
def reentryPedData : PedData :=
  { GetNumPeds := 1, GetNumFrames := 12, GetFps := 16,
    GetPedIDsByFrameNr := fun _ => [0],
    GetXCor := tableOf reentryX, GetYCor := tableOf midY }

/-- The x coordinates of two pedestrians: pedestrian 0 walks from left to
right through the unit square (x = -90, -40, 10, 60, 110, 160, ...),
pedestrian 1 stands at x = 150 up to frame 2 and at x = 50 from frame 3 on. -/
def pairCoord (ID frameNr : Nat) : Int :=
  if ID = 0 then 50 * (frameNr : Int) - 90 else if frameNr ≤ 2 then 150 else 50

/-- The table of the x coordinates `pairCoord`. -/
def pairX : Table := fun ID frameNr => ((pairCoord ID frameNr : Int) : ℚ)

/-- The frame in which the variants 1 to 6 record the entrance of a stay on
the frames `f0 .. f1`: the last frame before it for the variants 1 and 2, its
first frame for the others. -/
def enterAt (variant f0 : Nat) : Nat :=
  if variant ≤ 2 then f0 - 1 else f0

/-- The frame in which the variants 1 to 6 record the exit of a stay on the
frames `f0 .. f1`: its last frame for the variants 1 and 2, the frame after it
for the variants 3 and 4; for the variants 5 and 6 its last frame when the
stay has more than one frame, and the frame after it otherwise. -/
def exitAt (variant f0 f1 : Nat) : Nat :=
  if variant ≤ 2 then f1 else if variant ≤ 4 then f1 + 1 else if f0 < f1 then f1 else f1 + 1

/-- The record of the pedestrian of a single stay after the frames
`0 .. n - 1`. -/
def stayRecord (variant f0 f1 n : Nat) : PedRecord :=
  if n ≤ enterAt variant f0 then { tIn := 0, tOut := 0, inside := false }
  else if n ≤ exitAt variant f0 f1 then { tIn := enterAt variant f0, tOut := 0, inside := true }
  else { tIn := enterAt variant f0, tOut := exitAt variant f0 f1, inside := false }

/-- Samples with half centimetres: x = 0.5 in frame 2, x = 1.5 in frame 3,
x = 2.5 in frame 4 (in general x = frameNr - 1.5). -/
def halfX : Table := fun _ frameNr => (frameNr : ℚ) - 3 / 2

/-- A stay of 22 frames in the unit square: x = 50 (inside) on the frames 3
to 24, x = -50 (outside) on every other frame. -/
def longStayX (frameNr : Nat) : Int := if 3 ≤ frameNr ∧ frameNr ≤ 24 then 50 else -50

/-- A trajectory of 31 frames at 16 frames per second with one pedestrian,
listed in every frame, on the walk `longStayX` along y = 50. -/
def longStayPedData : PedData :=
  { GetNumPeds := 1, GetNumFrames := 31, GetFps := 16,
    GetPedIDsByFrameNr := fun _ => [0],
    GetXCor := tableOf longStayX, GetYCor := tableOf midY }

/-- The environment of `Method_H` for the unit square in which the
unassigned `tmpTime` of window `i` and pedestrian `j` holds the value `u i j`. -/
def squareExternWith (u : Int → Nat → Dbl) : Extern :=
  { squareExtern with unassigned := u }

/-! # Theorems -/

/-! ## The window loop -/

theorem windowCount_of_not_lt (numFrames deltaT i : Int) (hd : 1 ≤ deltaT)
    (h : ¬ i < numFrames - deltaT) : windowCount numFrames deltaT i = 0 := by
  unfold windowCount
  have hlt : (numFrames - 1 - i) / deltaT < 1 := by
    apply (Int.ediv_lt_iff_lt_mul (by omega)).2
    omega
  omega

theorem windowCount_of_lt (numFrames deltaT i : Int) (hd : 1 ≤ deltaT)
    (h : i < numFrames - deltaT) :
    windowCount numFrames deltaT i = windowCount numFrames deltaT (i + deltaT) + 1 := by
  unfold windowCount
  have hne : deltaT ≠ 0 := by omega
  have h1 : numFrames - 1 - i = (numFrames - 1 - (i + deltaT)) + 1 * deltaT := by ring
  have h2 : (numFrames - 1 - i) / deltaT = (numFrames - 1 - (i + deltaT)) / deltaT + 1 := by
    rw [h1, Int.add_mul_ediv_right _ _ hne]
  have h3 : 0 ≤ (numFrames - 1 - (i + deltaT)) / deltaT :=
    Int.ediv_nonneg (by omega) (by omega)
  rw [h2]
  omega

/-- A window index `k` is below the count exactly when the end frame
`(k + 1) * deltaT` of that window is a frame of the trajectory. -/
theorem lt_windowCount_iff (numFrames deltaT : Int) (hd : 1 ≤ deltaT) (k : Nat) :
    k < windowCount numFrames deltaT 0 ↔ ((k : Int) + 1) * deltaT < numFrames := by
  unfold windowCount
  have hpos : 0 < deltaT := by omega
  constructor
  · intro h
    have h1 : (k : Int) + 1 ≤ (numFrames - 1 - 0) / deltaT := by omega
    have h2 := (Int.le_ediv_iff_mul_le hpos).1 h1
    omega
  · intro h
    have h1 : (k : Int) + 1 ≤ (numFrames - 1 - 0) / deltaT :=
      (Int.le_ediv_iff_mul_le hpos).2 (by omega)
    omega

/-- With `deltaT ≥ 1` and enough iterations the window loop ends, and it
writes the rows of the windows starting at `i`, `i + deltaT`, ... in order. -/
theorem windowLoop_eq (E : Extern) (m : MethodH) (xCor yCor : Table) (numFrames : Int)
    (hd : 1 ≤ m._deltaT) (fuel : Nat) :
    ∀ i : Int, windowCount numFrames m._deltaT i ≤ fuel →
      windowLoop E m xCor yCor numFrames fuel i =
        some ((List.range (windowCount numFrames m._deltaT i)).map
          (fun k : Nat => windowRow E m xCor yCor (i + (k : Int) * m._deltaT))) := by
  induction fuel with
  | zero =>
      intro i hc
      by_cases h : i < numFrames - m._deltaT
      · rw [windowCount_of_lt _ _ _ hd h] at hc
        omega
      · simp [windowLoop, h, windowCount_of_not_lt _ _ _ hd h]
  | succ fuel ih =>
      intro i hc
      by_cases h : i < numFrames - m._deltaT
      · rw [windowCount_of_lt _ _ _ hd h] at hc ⊢
        have hc2 : windowCount numFrames m._deltaT (i + m._deltaT) ≤ fuel := by omega
        simp only [windowLoop, h, if_true, ih _ hc2, Option.map_some', List.range_succ_eq_map,
          List.map_cons, List.map_map]
        congr 2
        · simp
        · apply List.map_congr_left
          intro k _
          simp only [Function.comp]
          congr 1
          push_cast
          ring
      · simp [windowLoop, h, windowCount_of_not_lt _ _ _ hd h]

/-- The whole of `OutputRhoVFlow` for `deltaT ≥ 1`. -/
theorem OutputRhoVFlow_eq (E : Extern) (m : MethodH) (numFrames : Int) (fuel : Nat)
    (hd : 1 ≤ m._deltaT) (hf : windowCount numFrames m._deltaT 0 ≤ fuel) :
    OutputRhoVFlow E m numFrames fuel =
      some (convertTable E m._numPeds numFrames m._xCor,
        convertTable E m._numPeds numFrames m._yCor,
        (List.range (windowCount numFrames m._deltaT 0)).map
          (fun k : Nat => windowRow E m (convertTable E m._numPeds numFrames m._xCor)
            (convertTable E m._numPeds numFrames m._yCor) ((k : Int) * m._deltaT))) := by
  unfold OutputRhoVFlow
  simp only [windowLoop_eq E m _ _ numFrames hd fuel 0 hf, Option.map_some', zero_add]

/-! ## Division over the rationals -/

theorem Dbl.div_fin (a b : ℚ) (hb : b ≠ 0) : (Dbl.fin a).div (Dbl.fin b) = Dbl.fin (a / b) := by
  simp [Dbl.div, hb]

theorem Dbl.mul_fin (a b : ℚ) : (Dbl.fin a).mul (Dbl.fin b) = Dbl.fin (a * b) := by
  simp [Dbl.mul]

/-! ## C1: the rows written -/

/-- C1 (as stated, refuted): with `numFrames = 32` and `deltaT = 16` the
function writes one row, not `floor(32 / 16) = 2` rows. -/
theorem C1_rows_not_floor :
    (OutputRhoVFlow exampleExtern exampleMethodH 32 32).map (fun out => out.2.2.length)
        = some 1 ∧
      (32 : Int) / exampleMethodH._deltaT = 2 := by
  decide

/-- C1 (amended): for every `numFrames` (in particular every
`numFrames ≥ 0`) and every `deltaT ≥ 1`, `OutputRhoVFlow` ends
and writes exactly `floor((numFrames - 1) / deltaT)` rows (none for
`numFrames = 0`), one for every `k` whose window end `(k + 1) * deltaT` is
below `numFrames`; the `k`-th row is the one computed for the window that
starts at frame `k * deltaT`. -/
theorem C1_rows_written (E : Extern) (m : MethodH) (numFrames : Int) (fuel : Nat)
    (hd : 1 ≤ m._deltaT) (hf : ((numFrames - 1) / m._deltaT).toNat ≤ fuel) :
    ∃ xCor yCor rows,
      OutputRhoVFlow E m numFrames fuel = some (xCor, yCor, rows) ∧
      rows.length = ((numFrames - 1) / m._deltaT).toNat ∧
      (numFrames = 0 → rows.length = 0) ∧
      (∀ k : Nat, k < rows.length ↔ ((k : Int) + 1) * m._deltaT < numFrames) ∧
      ∀ k : Nat, k < rows.length →
        rows[k]? = some (windowRow E m xCor yCor ((k : Int) * m._deltaT)) := by
  have hc : windowCount numFrames m._deltaT 0 = ((numFrames - 1) / m._deltaT).toNat := by
    simp [windowCount]
  refine ⟨_, _, _, OutputRhoVFlow_eq E m numFrames fuel hd (by omega), ?_, ?_, ?_, ?_⟩
  · simp [hc]
  · intro hz
    have := (lt_windowCount_iff numFrames m._deltaT hd 0)
    simp only [List.length_map, List.length_range]
    by_contra hne
    have h1 : 0 < windowCount numFrames m._deltaT 0 := by omega
    have h2 := this.1 h1
    simp at h2
    omega
  · intro k
    simp only [List.length_map, List.length_range]
    exact lt_windowCount_iff numFrames m._deltaT hd k
  · intro k hk
    simp only [List.length_map, List.length_range] at hk
    simp [hk]

/-- C1 (amended), instance: 33 frames and windows of 16 frames. -/
theorem C1_rows_written_witness :
    1 ≤ exampleMethodH._deltaT ∧ (((33 : Int) - 1) / exampleMethodH._deltaT).toNat ≤ 2 ∧
    ∃ xCor yCor rows,
      OutputRhoVFlow exampleExtern exampleMethodH 33 2 = some (xCor, yCor, rows) ∧
      rows.length = (((33 : Int) - 1) / exampleMethodH._deltaT).toNat ∧
      ((33 : Int) = 0 → rows.length = 0) ∧
      (∀ k : Nat, k < rows.length ↔ ((k : Int) + 1) * exampleMethodH._deltaT < 33) ∧
      ∀ k : Nat, k < rows.length →
        rows[k]? = some (windowRow exampleExtern exampleMethodH xCor yCor
          ((k : Int) * exampleMethodH._deltaT)) :=
  ⟨by decide, by decide,
    C1_rows_written exampleExtern exampleMethodH 33 2 (by decide) (by decide)⟩

/-! ## C2, C3, C10: the values of a row -/

/-- The row formulas read over the rationals: with finite sums and non-zero
`fps`, `dx`, `deltaT` and `sumTime` the three values are the quotients. -/
theorem rowOf_fin (dx fps : ℚ) (deltaT : Int) (sumTime sumDistance : ℚ)
    (hdx : dx ≠ 0) (hfps : fps ≠ 0) (hd : deltaT ≠ 0) (ht : sumTime ≠ 0) :
    rowOf dx fps deltaT { sumTime := Dbl.fin sumTime, sumDistance := Dbl.fin sumDistance } =
      { flow := Dbl.fin (sumDistance / (dx * ((deltaT : ℚ) / fps))),
        density := Dbl.fin (sumTime / (dx * ((deltaT : ℚ) / fps))),
        velocity := Dbl.fin (sumDistance / sumTime) } := by
  have hq : (deltaT : ℚ) ≠ 0 := by exact_mod_cast hd
  have hx : dx * ((deltaT : ℚ) / fps) ≠ 0 := mul_ne_zero hdx (div_ne_zero hq hfps)
  simp only [rowOf, Dbl.ofInt, Dbl.div_fin _ _ hfps, Dbl.mul_fin, Dbl.div_fin _ _ hx,
    Dbl.div_fin _ _ ht]

/-- The sums of the single window of the specification's scenario. -/
theorem exampleMethodH_sums (xCor yCor : Table) :
    windowSums exampleExtern exampleMethodH xCor yCor 0 =
      { sumTime := Dbl.fin 1, sumDistance := Dbl.fin 2 } := by
  simp [windowSums, exampleMethodH, exampleExtern, pedBody, overlapTest, branch, List.range,
    List.range.loop, Dbl.add, Dbl.div, Dbl.ofInt]
  norm_num

/-- C2: every row written by `OutputRhoVFlow` (window `k`, `deltaT ≥ 1`) holds
`flow = sumDistance / (dx * (deltaT / fps))`,
`density = sumTime / (dx * (deltaT / fps))` and
`velocity = sumDistance / sumTime`, where the sums are those of the pedestrian
loop of that window; and `sumTime = 1`, `sumDistance = 2`, `dx = 2`,
`deltaT = 16`, `fps = 16` give flow 1, density 1/2 and velocity 2. -/
theorem C2_row_values (E : Extern) (m : MethodH) (numFrames : Int) (fuel k : Nat)
    (hd : 1 ≤ m._deltaT) (hf : ((numFrames - 1) / m._deltaT).toNat ≤ fuel)
    (hk : ((k : Int) + 1) * m._deltaT < numFrames) :
    (∃ xCor yCor rows row,
      OutputRhoVFlow E m numFrames fuel = some (xCor, yCor, rows) ∧
      rows[k]? = some row ∧
      row.flow = (windowSums E m xCor yCor ((k : Int) * m._deltaT)).sumDistance.div
        ((Dbl.fin m._dx).mul ((Dbl.ofInt m._deltaT).div (Dbl.fin m._fps))) ∧
      row.density = (windowSums E m xCor yCor ((k : Int) * m._deltaT)).sumTime.div
        ((Dbl.fin m._dx).mul ((Dbl.ofInt m._deltaT).div (Dbl.fin m._fps))) ∧
      row.velocity = (windowSums E m xCor yCor ((k : Int) * m._deltaT)).sumDistance.div
        (windowSums E m xCor yCor ((k : Int) * m._deltaT)).sumTime) ∧
    rowOf 2 16 16 { sumTime := Dbl.fin 1, sumDistance := Dbl.fin 2 } =
      { flow := Dbl.fin 1, density := Dbl.fin (1 / 2), velocity := Dbl.fin 2 } := by
  have hc : windowCount numFrames m._deltaT 0 = ((numFrames - 1) / m._deltaT).toNat := by
    simp [windowCount]
  have hlt : k < windowCount numFrames m._deltaT 0 :=
    (lt_windowCount_iff numFrames m._deltaT hd k).2 hk
  constructor
  · refine ⟨_, _, _, windowRow E m _ _ ((k : Int) * m._deltaT),
      OutputRhoVFlow_eq E m numFrames fuel hd (by omega), ?_, rfl, rfl, rfl⟩
    simp [hlt]
  · rw [rowOf_fin 2 16 16 1 2 (by norm_num) (by norm_num) (by norm_num) (by norm_num)]
    norm_num

/-- C2, instance: the scenario of the specification (17 frames, window 0). -/
theorem C2_row_values_witness :
    1 ≤ exampleMethodH._deltaT ∧
    (((17 : Int) - 1) / exampleMethodH._deltaT).toNat ≤ 1 ∧
    (((0 : Nat) : Int) + 1) * exampleMethodH._deltaT < 17 ∧
    ((∃ xCor yCor rows row,
      OutputRhoVFlow exampleExtern exampleMethodH 17 1 = some (xCor, yCor, rows) ∧
      rows[0]? = some row ∧
      row.flow = (windowSums exampleExtern exampleMethodH xCor yCor
          (((0 : Nat) : Int) * exampleMethodH._deltaT)).sumDistance.div
        ((Dbl.fin exampleMethodH._dx).mul
          ((Dbl.ofInt exampleMethodH._deltaT).div (Dbl.fin exampleMethodH._fps))) ∧
      row.density = (windowSums exampleExtern exampleMethodH xCor yCor
          (((0 : Nat) : Int) * exampleMethodH._deltaT)).sumTime.div
        ((Dbl.fin exampleMethodH._dx).mul
          ((Dbl.ofInt exampleMethodH._deltaT).div (Dbl.fin exampleMethodH._fps))) ∧
      row.velocity = (windowSums exampleExtern exampleMethodH xCor yCor
          (((0 : Nat) : Int) * exampleMethodH._deltaT)).sumDistance.div
        (windowSums exampleExtern exampleMethodH xCor yCor
          (((0 : Nat) : Int) * exampleMethodH._deltaT)).sumTime) ∧
    rowOf 2 16 16 { sumTime := Dbl.fin 1, sumDistance := Dbl.fin 2 } =
      { flow := Dbl.fin 1, density := Dbl.fin (1 / 2), velocity := Dbl.fin 2 }) :=
  ⟨by decide, by decide, by decide,
    C2_row_values exampleExtern exampleMethodH 17 1 0 (by decide) (by decide) (by decide)⟩

/-- C3 (as stated, refuted): an area whose configured length is 0 passes the
check `_length < 0` of `Process`; its window has `sumTime = 1`, yet flow and
density are both infinite, `flow / density` is NaN and the velocity is 2. -/
theorem C3_zero_length_counterexample :
    (windowSums exampleExtern zeroLengthMethodH zeroLengthMethodH._xCor
        zeroLengthMethodH._yCor 0).sumTime = Dbl.fin 1 ∧
      (windowRow exampleExtern zeroLengthMethodH zeroLengthMethodH._xCor
        zeroLengthMethodH._yCor 0).velocity = Dbl.fin 2 ∧
      (windowRow exampleExtern zeroLengthMethodH zeroLengthMethodH._xCor
        zeroLengthMethodH._yCor 0).flow.div
        (windowRow exampleExtern zeroLengthMethodH zeroLengthMethodH._xCor
          zeroLengthMethodH._yCor 0).density = Dbl.nan ∧
      (windowRow exampleExtern zeroLengthMethodH zeroLengthMethodH._xCor
        zeroLengthMethodH._yCor 0).velocity ≠
        (windowRow exampleExtern zeroLengthMethodH zeroLengthMethodH._xCor
          zeroLengthMethodH._yCor 0).flow.div
        (windowRow exampleExtern zeroLengthMethodH zeroLengthMethodH._xCor
          zeroLengthMethodH._yCor 0).density := by
  have hs : windowSums exampleExtern zeroLengthMethodH zeroLengthMethodH._xCor
      zeroLengthMethodH._yCor 0 = { sumTime := Dbl.fin 1, sumDistance := Dbl.fin 2 } :=
    exampleMethodH_sums _ _
  simp only [windowRow, hs]
  simp [rowOf, zeroLengthMethodH, exampleMethodH, Dbl.div, Dbl.mul, Dbl.ofInt, Dbl.signedInf]

/-- C3 (amended): for every region whose length `dx`, interval `deltaT` and
frame rate `fps` are non-zero, and every window whose sums are numbers with
`sumTime ≠ 0`, the written values satisfy `velocity = flow / density`. -/
theorem C3_velocity_eq_flow_div_density (E : Extern) (m : MethodH) (xCor yCor : Table)
    (i : Int) (sumTime sumDistance : ℚ)
    (hdx : m._dx ≠ 0) (hfps : m._fps ≠ 0) (hd : m._deltaT ≠ 0)
    (hT : (windowSums E m xCor yCor i).sumTime = Dbl.fin sumTime)
    (hD : (windowSums E m xCor yCor i).sumDistance = Dbl.fin sumDistance)
    (ht : sumTime ≠ 0) :
    (windowRow E m xCor yCor i).velocity =
      (windowRow E m xCor yCor i).flow.div (windowRow E m xCor yCor i).density := by
  have hs : windowSums E m xCor yCor i =
      { sumTime := Dbl.fin sumTime, sumDistance := Dbl.fin sumDistance } := by
    cases h : windowSums E m xCor yCor i
    rw [h] at hT hD
    simp only at hT hD
    rw [hT, hD]
  have hq : (m._deltaT : ℚ) ≠ 0 := by exact_mod_cast hd
  have hx : m._dx * ((m._deltaT : ℚ) / m._fps) ≠ 0 := mul_ne_zero hdx (div_ne_zero hq hfps)
  have hden : sumTime / (m._dx * ((m._deltaT : ℚ) / m._fps)) ≠ 0 := div_ne_zero ht hx
  rw [windowRow, hs, rowOf_fin _ _ _ _ _ hdx hfps hd ht]
  simp only [Dbl.div_fin _ _ hden]
  congr 1
  field_simp
  ring

/-- C3 (amended), instance: the scenario of the specification. -/
theorem C3_velocity_eq_flow_div_density_witness :
    exampleMethodH._dx ≠ 0 ∧ exampleMethodH._fps ≠ 0 ∧ exampleMethodH._deltaT ≠ 0 ∧
    (windowSums exampleExtern exampleMethodH exampleMethodH._xCor exampleMethodH._yCor 0).sumTime
      = Dbl.fin 1 ∧
    (windowRow exampleExtern exampleMethodH exampleMethodH._xCor exampleMethodH._yCor 0).velocity =
      (windowRow exampleExtern exampleMethodH exampleMethodH._xCor exampleMethodH._yCor 0).flow.div
        (windowRow exampleExtern exampleMethodH exampleMethodH._xCor
          exampleMethodH._yCor 0).density :=
  ⟨by simp [exampleMethodH], by simp [exampleMethodH], by simp [exampleMethodH],
    by rw [exampleMethodH_sums],
    C3_velocity_eq_flow_div_density exampleExtern exampleMethodH _ _ 0 1 2
      (by simp [exampleMethodH]) (by simp [exampleMethodH]) (by simp [exampleMethodH])
      (by rw [exampleMethodH_sums]) (by rw [exampleMethodH_sums]) (by norm_num)⟩

/-- C10 (as stated, refuted): in a window without any pedestrian `sumTime` is
0 and the velocity written is the quotient `sumDistance / 0` itself, which is
NaN; the row has no other marker. -/
theorem C10_velocity_division_by_zero :
    (windowSums exampleExtern emptyMethodH emptyMethodH._xCor emptyMethodH._yCor 0).sumTime
        = Dbl.fin 0 ∧
      (windowRow exampleExtern emptyMethodH emptyMethodH._xCor emptyMethodH._yCor 0).velocity =
        (windowSums exampleExtern emptyMethodH emptyMethodH._xCor
          emptyMethodH._yCor 0).sumDistance.div (Dbl.fin 0) ∧
      (windowRow exampleExtern emptyMethodH emptyMethodH._xCor emptyMethodH._yCor 0).velocity =
        Dbl.nan ∧
      (OutputRhoVFlow exampleExtern emptyMethodH 17 1).map (fun out => out.2.2.map Row.velocity)
        = some [Dbl.nan] := by
  have hs : ∀ xCor yCor, windowSums exampleExtern emptyMethodH xCor yCor 0 =
      { sumTime := Dbl.fin 0, sumDistance := Dbl.fin 0 } := by
    intro xCor yCor
    simp [windowSums, emptyMethodH]
  refine ⟨by rw [hs], by rw [hs]; simp [windowRow, rowOf, hs], ?_, ?_⟩
  · simp [windowRow, rowOf, hs, Dbl.div]
  · have hd : emptyMethodH._deltaT = 16 := rfl
    simp only [OutputRhoVFlow, windowLoop, windowRow, hs, hd]
    simp [rowOf, Dbl.div]

/-- C10 (amended): for every window the velocity written is the floating-point
quotient `sumDistance / sumTime`, also when `sumTime = 0`: the value is then
the result of the division by zero, which is not a number of the result
series (NaN for `sumDistance = 0`, an infinity otherwise). -/
theorem C10_velocity_is_quotient (E : Extern) (m : MethodH) (xCor yCor : Table) (i : Int)
    (h : (windowSums E m xCor yCor i).sumTime = Dbl.fin 0) :
    (windowRow E m xCor yCor i).velocity =
        (windowSums E m xCor yCor i).sumDistance.div (Dbl.fin 0) ∧
      (windowRow E m xCor yCor i).velocity.isFinite = false ∧
      ((windowSums E m xCor yCor i).sumDistance = Dbl.fin 0 →
        (windowRow E m xCor yCor i).velocity = Dbl.nan) := by
  have hv : (windowRow E m xCor yCor i).velocity =
      (windowSums E m xCor yCor i).sumDistance.div (Dbl.fin 0) := by
    simp [windowRow, rowOf, h]
  refine ⟨hv, ?_, ?_⟩
  · rw [hv]
    cases (windowSums E m xCor yCor i).sumDistance with
    | fin q =>
        by_cases hq : q = 0
        · simp [Dbl.div, hq, Dbl.isFinite]
        · by_cases hp : 0 < q <;> simp [Dbl.div, hq, hp, Dbl.signedInf, Dbl.isFinite]
    | pinf => simp [Dbl.div, Dbl.signedInf, Dbl.isFinite]
    | ninf => simp [Dbl.div, Dbl.signedInf, Dbl.isFinite]
    | nan => simp [Dbl.div, Dbl.isFinite]
  · intro hz
    rw [hv, hz]
    simp [Dbl.div]

/-- C10 (amended), instance: a window without any pedestrian. -/
theorem C10_velocity_is_quotient_witness :
    (windowSums exampleExtern emptyMethodH emptyMethodH._xCor emptyMethodH._yCor 0).sumTime
        = Dbl.fin 0 ∧
      (windowRow exampleExtern emptyMethodH emptyMethodH._xCor emptyMethodH._yCor 0).velocity.isFinite
        = false :=
  ⟨by simp [windowSums, emptyMethodH],
    (C10_velocity_is_quotient exampleExtern emptyMethodH _ _ 0
      (by simp [windowSums, emptyMethodH])).2.1⟩

/-! ## C4 - C8: the contribution of one pedestrian to one window -/

/-- Whenever the entrance is not after the window start and the exit lies in
`[i, i + deltaT]`, the second branch (line 131) is taken: the pedestrian is
counted for the whole window. -/
theorem pedBody_second_branch (E : Extern) (fps : ℚ) (xCor yCor : Table) (i deltaT : Int)
    (j : Nat) (tIn tOut : Int) (s : WindowSums)
    (hIn : tIn ≤ i) (hOut1 : i ≤ tOut) (hOut2 : tOut ≤ i + deltaT) :
    pedBody E fps xCor yCor i deltaT j tIn tOut s =
      { sumTime := s.sumTime.add ((Dbl.ofInt deltaT).div (Dbl.fin fps)),
        sumDistance := s.sumDistance.add (E.GetExactDistance j i (i + deltaT) xCor yCor) } := by
  have h1 : ¬ i < tIn := by omega
  have h2 : ¬ tOut < i := by omega
  have h3 : ¬ tIn > i + deltaT := by omega
  simp [pedBody, overlapTest, branch, h1, h2, h3, hIn, hOut2]

/-- Whenever the entrance is not after the window start and the exit is after
the window end, the guard of line 121 lets the pedestrian in and no branch
assigns `tmpTime`. -/
theorem pedBody_exit_after_window (E : Extern) (fps : ℚ) (xCor yCor : Table) (i deltaT : Int)
    (j : Nat) (tIn tOut : Int) (s : WindowSums)
    (hd : 0 ≤ deltaT) (hIn : tIn ≤ i) (hOut : i + deltaT < tOut) :
    pedBody E fps xCor yCor i deltaT j tIn tOut s =
      { sumTime := s.sumTime.add (E.unassigned i j), sumDistance := s.sumDistance } := by
  have h1 : ¬ i < tIn := by omega
  have h2 : ¬ tOut < i := by omega
  have h3 : ¬ tIn > i + deltaT := by omega
  have h4 : ¬ tOut ≤ i + deltaT := by omega
  have h5 : ¬ tOut < i + deltaT := by omega
  simp [pedBody, overlapTest, branch, h1, h2, h3, h4, h5]

/-- An interval that lies before the window start fails the guard. -/
theorem pedBody_interval_before (E : Extern) (fps : ℚ) (xCor yCor : Table) (i deltaT : Int)
    (j : Nat) (tIn tOut : Int) (s : WindowSums) (hIn : tIn ≤ i) (hOut : tOut < i) :
    pedBody E fps xCor yCor i deltaT j tIn tOut s = s := by
  simp [pedBody, overlapTest, hIn, hOut]

/-- An interval that starts strictly after the window end fails the guard. -/
theorem pedBody_interval_after (E : Extern) (fps : ℚ) (xCor yCor : Table) (i deltaT : Int)
    (j : Nat) (tIn tOut : Int) (s : WindowSums) (hIn : i + deltaT < tIn) (hOut : tIn ≤ tOut) :
    pedBody E fps xCor yCor i deltaT j tIn tOut s = s := by
  have h1 : tIn > i + deltaT := by omega
  have h2 : tOut ≥ i + deltaT := by omega
  simp [pedBody, overlapTest, h1, h2]

/-- C4 (the code at the failing inputs; `fps = 16`, `deltaT = 10`): a
pedestrian present from frame 0 to frame 20 passes the guard of window
`[0, 10)`, but no branch assigns `tmpTime` and no distance is added; a
pedestrian who entered at frame 5 and whose exit is unset (`tOut = 0`) is
rejected by the guard of window `[10, 20)` and adds nothing. -/
theorem C4_whole_window_failing_inputs (E : Extern) (xCor yCor : Table) (j : Nat)
    (s : WindowSums) :
    overlapTest 0 20 0 10 = true ∧
      (branch 16 0 20 0 10).tmpTime = none ∧
      (branch 16 0 20 0 10).frames = none ∧
      pedBody E 16 xCor yCor 0 10 j 0 20 s =
        { sumTime := s.sumTime.add (E.unassigned 0 j), sumDistance := s.sumDistance } ∧
      overlapTest 5 0 10 10 = false ∧
      pedBody E 16 xCor yCor 10 10 j 5 0 s = s := by
  refine ⟨by decide, by decide, by decide, ?_, by decide, ?_⟩
  · exact pedBody_exit_after_window E 16 xCor yCor 0 10 j 0 20 s (by decide) (by decide)
      (by decide)
  · exact pedBody_interval_before E 16 xCor yCor 10 10 j 5 0 s (by decide) (by decide)

/-- C5 (the code at the failing input; `fps = 16`, window `[0, 10)`): for a
pedestrian with `tIn = 0` and `tOut = 5` the second branch is taken, so the
time added is `deltaT / fps = 10/16`, not `(tOut - i) / fps = 5/16`, and the
distance added is the one between the frames 0 and 10, not 0 and 5. -/
theorem C5_only_exit_failing_input (E : Extern) (xCor yCor : Table) (j : Nat)
    (s : WindowSums) :
    pedBody E 16 xCor yCor 0 10 j 0 5 s =
        { sumTime := s.sumTime.add (Dbl.fin (10 / 16)),
          sumDistance := s.sumDistance.add (E.GetExactDistance j 0 10 xCor yCor) } ∧
      Dbl.fin (10 / 16) ≠ Dbl.fin (((5 - 0 : Int) : ℚ) / 16) := by
  constructor
  · rw [pedBody_second_branch E 16 xCor yCor 0 10 j 0 5 s (by decide) (by decide) (by decide)]
    simp [Dbl.ofInt, Dbl.div]
  · simp
    norm_num

/-- C6: when entrance and exit both lie strictly inside the window
(`i < tIn < i + deltaT` and `i < tOut < i + deltaT`) the pedestrian adds
`(tOut - tIn) / fps` to `sumTime` and the distance between the frames `tIn`
and `tOut` to `sumDistance`. -/
theorem C6_both_inside (E : Extern) (fps : ℚ) (xCor yCor : Table) (i deltaT : Int) (j : Nat)
    (tIn tOut : Int) (s : WindowSums)
    (hIn1 : i < tIn) (hIn2 : tIn < i + deltaT) (hOut1 : i < tOut) (hOut2 : tOut < i + deltaT) :
    pedBody E fps xCor yCor i deltaT j tIn tOut s =
      { sumTime := s.sumTime.add ((Dbl.ofInt (tOut - tIn)).div (Dbl.fin fps)),
        sumDistance := s.sumDistance.add (E.GetExactDistance j tIn tOut xCor yCor) } := by
  have h1 : ¬ tIn > i + deltaT := by omega
  have h2 : ¬ tIn ≤ i := by omega
  simp [pedBody, overlapTest, branch, h1, h2, hIn1, hIn2, hOut1, hOut2]

/-- C6, instance: window `[0, 10)`, entrance at frame 2, exit at frame 7. -/
theorem C6_both_inside_witness :
    (0 : Int) < 2 ∧ (2 : Int) < 0 + 10 ∧ (0 : Int) < 7 ∧ (7 : Int) < 0 + 10 ∧
    pedBody exampleExtern 16 (fun _ _ => 0) (fun _ _ => 0) 0 10 0 2 7
        { sumTime := Dbl.fin 0, sumDistance := Dbl.fin 0 } =
      { sumTime := (Dbl.fin 0).add ((Dbl.ofInt (7 - 2)).div (Dbl.fin 16)),
        sumDistance := (Dbl.fin 0).add
          (exampleExtern.GetExactDistance 0 2 7 (fun _ _ => 0) (fun _ _ => 0)) } :=
  ⟨by decide, by decide, by decide, by decide,
    C6_both_inside exampleExtern 16 _ _ 0 10 0 2 7 _ (by decide) (by decide) (by decide)
      (by decide)⟩

/-- C7: in a window starting at a frame `i ≥ 0`, when only the entrance lies
inside the window (`i < tIn < i + deltaT`, and `tOut ≥ i + deltaT` or the exit
is unset, `tOut = 0`) the pedestrian adds `(i + deltaT - tIn) / fps` to
`sumTime` and the distance between the frames `tIn` and `i + deltaT` to
`sumDistance`. -/
theorem C7_only_entrance (E : Extern) (fps : ℚ) (xCor yCor : Table) (i deltaT : Int) (j : Nat)
    (tIn tOut : Int) (s : WindowSums)
    (hi : 0 ≤ i) (hIn1 : i < tIn) (hIn2 : tIn < i + deltaT)
    (hOut : tOut ≥ i + deltaT ∨ tOut = 0) :
    pedBody E fps xCor yCor i deltaT j tIn tOut s =
      { sumTime := s.sumTime.add ((Dbl.ofInt (i + deltaT - tIn)).div (Dbl.fin fps)),
        sumDistance := s.sumDistance.add (E.GetExactDistance j tIn (i + deltaT) xCor yCor) } := by
  have h1 : ¬ tIn > i + deltaT := by omega
  have h2 : ¬ tIn ≤ i := by omega
  have h3 : ¬ (i < tOut ∧ tOut < i + deltaT) := by omega
  simp [pedBody, overlapTest, branch, h1, h2, h3, hIn1, hIn2]

/-- C7, instance: window `[10, 20)`, entrance at frame 12, exit unset. -/
theorem C7_only_entrance_witness :
    (0 : Int) ≤ 10 ∧ (10 : Int) < 12 ∧ (12 : Int) < 10 + 10 ∧
    ((0 : Int) ≥ 10 + 10 ∨ (0 : Int) = 0) ∧
    pedBody exampleExtern 16 (fun _ _ => 0) (fun _ _ => 0) 10 10 0 12 0
        { sumTime := Dbl.fin 0, sumDistance := Dbl.fin 0 } =
      { sumTime := (Dbl.fin 0).add ((Dbl.ofInt (10 + 10 - 12)).div (Dbl.fin 16)),
        sumDistance := (Dbl.fin 0).add
          (exampleExtern.GetExactDistance 0 12 (10 + 10) (fun _ _ => 0) (fun _ _ => 0)) } :=
  ⟨by decide, by decide, by decide, by decide,
    C7_only_entrance exampleExtern 16 _ _ 10 10 0 12 0 _ (by decide) (by decide) (by decide)
      (by decide)⟩

/-- C8 (the code at the failing input; window `[0, 10)`): a pedestrian whose
interval starts at the window end (`tIn = 10 = i + deltaT`, `tOut = 15`)
passes the guard of line 121, which asks for `tIn > i + deltaT`; no branch
assigns `tmpTime`, and its unassigned value is added to `sumTime`. -/
theorem C8_starts_at_window_end (E : Extern) (xCor yCor : Table) (j : Nat) (s : WindowSums) :
    overlapTest 10 15 0 10 = true ∧
      (branch 16 10 15 0 10).tmpTime = none ∧
      pedBody E 16 xCor yCor 0 10 j 10 15 s =
        { sumTime := s.sumTime.add (E.unassigned 0 j), sumDistance := s.sumDistance } := by
  refine ⟨by decide, by decide, ?_⟩
  simp [pedBody, overlapTest, branch]

/-! ## C9: a pedestrian who never enters -/

theorem untouched_init (numPeds ID : Nat) : untouched (Detector.init numPeds) ID := by
  unfold untouched Detector.init
  simp only [List.getD_eq_getElem?_getD, List.getElem?_replicate]
  refine ⟨?_, ?_, ?_⟩ <;> split <;> rfl

/-- A step for another pedestrian leaves the record of `ID` as it is. -/
theorem untouched_detectStep_other (E : Extern) (xCor yCor : Table) (frameNr : Nat)
    (d : Detector) (ID other : Nat) (hne : other ≠ ID) (h : untouched d ID) :
    untouched (detectStep E xCor yCor frameNr d other) ID := by
  obtain ⟨h1, h2, h3⟩ := h
  simp only [List.getD_eq_getElem?_getD] at h1 h2 h3
  unfold detectStep
  simp only
  split_ifs <;>
    simp [untouched, List.getD_eq_getElem?_getD, List.getElem?_set_ne hne, h1, h2, h3]

/-- A step for `ID` itself at a sample that is neither inside nor on the
area leaves the record as it is. -/
theorem untouched_detectStep_outside (E : Extern) (xCor yCor : Table) (frameNr : Nat)
    (d : Detector) (ID : Nat)
    (hw : E.within (truncate (xCor ID frameNr)) (truncate (yCor ID frameNr)) = false)
    (hc : E.covered_by (truncate (xCor ID frameNr)) (truncate (yCor ID frameNr)) = false)
    (h : untouched d ID) :
    untouched (detectStep E xCor yCor frameNr d ID) ID := by
  have h3 := h.2.2
  simp only [List.getD_eq_getElem?_getD] at h3
  unfold detectStep
  simp [hw, hc, h3, h]

/-- A pedestrian none of whose samples is inside or on the area ends the scan
with `tIn = 0` and `tOut = 0`. -/
theorem GetTinToutEntExt_never_inside (E : Extern) (numPeds : Nat) (peds_t : Nat → List Nat)
    (xCor yCor : Table) (numFrames : Int) (ID : Nat)
    (hout : ∀ frameNr : Nat, ID ∈ peds_t frameNr →
      E.within (truncate (xCor ID frameNr)) (truncate (yCor ID frameNr)) = false ∧
      E.covered_by (truncate (xCor ID frameNr)) (truncate (yCor ID frameNr)) = false) :
    untouched (GetTinToutEntExt E numPeds peds_t xCor yCor numFrames) ID := by
  have hframe : ∀ (frameNr : Nat) (ids : List Nat) (d : Detector),
      (∀ other ∈ ids, other = ID → ID ∈ peds_t frameNr) → untouched d ID →
      untouched (ids.foldl (detectStep E xCor yCor frameNr) d) ID := by
    intro frameNr ids
    induction ids with
    | nil => intro d _ h; exact h
    | cons a rest ih =>
        intro d hmem h
        simp only [List.foldl_cons]
        apply ih
        · intro other ho
          exact hmem other (List.mem_cons_of_mem _ ho)
        · by_cases ha : a = ID
          · have hin := hmem a (List.mem_cons_self _ _) ha
            subst ha
            exact untouched_detectStep_outside E xCor yCor frameNr d a (hout frameNr hin).1
              (hout frameNr hin).2 h
          · exact untouched_detectStep_other E xCor yCor frameNr d ID a ha h
  have hfold : ∀ (frames : List Nat) (d : Detector), untouched d ID →
      untouched (frames.foldl (detectFrame E peds_t xCor yCor) d) ID := by
    intro frames
    induction frames with
    | nil => intro d h; exact h
    | cons f rest ih =>
        intro d h
        simp only [List.foldl_cons]
        apply ih
        unfold detectFrame
        apply hframe f (peds_t f) d _ h
        intro other ho heq
        rw [← heq]
        exact ho
  exact hfold _ _ (untouched_init numPeds ID)

/-- C9 (the code at the failing input): for the trajectory `examplePedData`
(3 frames, one pedestrian, no sample inside or on the area) the detector
leaves `tIn = 0`, `tOut = 0`; with `deltaT = 2` the pedestrian passes the guard
of window 0 and is counted for the whole window: `sumTime = deltaT / fps = 1/8`
and the distance between the frames 0 and 2 is added, and the row written by
`Process` (area length 8) has density `1/8` instead of 0. -/
theorem C9_never_entered_counted_in_window_0 :
    (GetTinToutEntExt exampleExtern 1 examplePedData.GetPedIDsByFrameNr examplePedData.GetXCor
        examplePedData.GetYCor 3)._tIn = [0] ∧
      (GetTinToutEntExt exampleExtern 1 examplePedData.GetPedIDsByFrameNr examplePedData.GetXCor
        examplePedData.GetYCor 3)._tOut = [0] ∧
      overlapTest 0 0 0 2 = true ∧
      pedBody exampleExtern 16 examplePedData.GetXCor examplePedData.GetYCor 0 2 0 0 0
          { sumTime := Dbl.fin 0, sumDistance := Dbl.fin 0 } =
        { sumTime := Dbl.fin (1 / 8), sumDistance := Dbl.fin (1 / 4) } ∧
      Process exampleExtern true 8 2 examplePedData 1 =
        ProcessResult.returned true
          [{ flow := Dbl.fin (1 / 4), density := Dbl.fin (1 / 8), velocity := Dbl.fin 2 }] := by
  have hd : GetTinToutEntExt exampleExtern 1 examplePedData.GetPedIDsByFrameNr
      examplePedData.GetXCor examplePedData.GetYCor 3 = Detector.init 1 := by
    simp [GetTinToutEntExt, detectFrame, detectStep, examplePedData, exampleExtern, List.range,
      List.range.loop, Detector.init]
  have hb : pedBody exampleExtern 16 examplePedData.GetXCor examplePedData.GetYCor 0 2 0 0 0
      { sumTime := Dbl.fin 0, sumDistance := Dbl.fin 0 } =
      { sumTime := Dbl.fin (1 / 8), sumDistance := Dbl.fin (1 / 4) } := by
    simp [pedBody, overlapTest, branch, exampleExtern, Dbl.add, Dbl.div, Dbl.ofInt]
    norm_num
  refine ⟨by rw [hd]; rfl, by rw [hd]; rfl, by decide, hb, ?_⟩
  have hd2 : GetTinToutEntExt exampleExtern examplePedData.GetNumPeds
      examplePedData.GetPedIDsByFrameNr examplePedData.GetXCor examplePedData.GetYCor
      examplePedData.GetNumFrames = Detector.init 1 := hd
  have hw : ∀ xCor yCor, windowSums exampleExtern
      { _numPeds := 1, _deltaT := 2, _fps := 16, _dx := 8, _tIn := [0], _tOut := [0],
        _xCor := fun _ frameNr => 1000 + 25 * (frameNr : ℚ) / 2, _yCor := fun _ _ => 0 }
        xCor yCor 0 =
      { sumTime := Dbl.fin (1 / 8), sumDistance := Dbl.fin (1 / 4) } := by
    intro xCor yCor
    simp [windowSums, List.range, List.range.loop, pedBody, overlapTest, branch, exampleExtern,
      Dbl.add, Dbl.div, Dbl.ofInt]
    norm_num
  simp only [Process, hd2]
  simp only [Detector.init, examplePedData, OutputRhoVFlow, windowLoop, windowRow,
    List.replicate, hw]
  simp [rowOf, Dbl.div, Dbl.mul, Dbl.ofInt]
  norm_num

/-! ## C11: one unbroken stay in the area (Method H) -/

theorem Rat.floor_intCast_eq (n : Int) : Rat.floor (n : ℚ) = n := by
  rw [Rat.floor_def']
  simp

theorem truncate_intCast (n : Int) : truncate (n : ℚ) = n := by
  unfold truncate
  split
  · exact Rat.floor_intCast_eq n
  · rw [← Int.cast_neg, Rat.floor_intCast_eq]
    omega

theorem detector_sized_init (numPeds : Nat) : (Detector.init numPeds).sized numPeds := by
  simp [Detector.sized, Detector.init]

theorem detectStep_sized (E : Extern) (xCor yCor : Table) (frameNr : Nat) (d : Detector)
    (ID n : Nat) (h : d.sized n) : (detectStep E xCor yCor frameNr d ID).sized n := by
  unfold detectStep
  simp only
  split_ifs <;> simpa [Detector.sized] using h

/-- An iteration for another pedestrian leaves the record of `ID` as it is. -/
theorem detectStep_record_other (E : Extern) (xCor yCor : Table) (frameNr : Nat)
    (d : Detector) (ID other : Nat) (hne : other ≠ ID) :
    (detectStep E xCor yCor frameNr d other).record ID = d.record ID := by
  unfold detectStep
  simp only
  split_ifs <;>
    simp [Detector.record, List.getD_eq_getElem?_getD, List.getElem?_set_ne hne]

/-- An iteration for `ID` changes its record as `recordStep` says. -/
theorem detectStep_record_self (E : Extern) (xCor yCor : Table) (frameNr : Nat)
    (d : Detector) (ID n : Nat) (hs : d.sized n) (hID : ID < n) :
    (detectStep E xCor yCor frameNr d ID).record ID =
      recordStep (E.within (truncate (xCor ID frameNr)) (truncate (yCor ID frameNr)))
        (E.covered_by (truncate (xCor ID frameNr)) (truncate (yCor ID frameNr))) frameNr
        (d.record ID) := by
  obtain ⟨h1, h2, h3⟩ := hs
  have l1 : ID < d.IsinMeasurezone.length := by omega
  have l2 : ID < d._tIn.length := by omega
  have l3 : ID < d._tOut.length := by omega
  unfold detectStep recordStep
  simp only [Detector.record, List.getD_eq_getElem?_getD]
  split_ifs <;>
    simp_all [List.getElem?_set_self l1, List.getElem?_set_self l2, List.getElem?_set_self l3]

/-- For a sample that is strictly inside or strictly outside, a second
iteration in the same frame changes nothing. -/
theorem recordStep_idem (w c : Bool) (frameNr : Nat) (r : PedRecord)
    (h : w = true ∨ c = false) :
    recordStep w c frameNr (recordStep w c frameNr r) = recordStep w c frameNr r := by
  obtain ⟨tIn, tOut, inside⟩ := r
  cases w <;> cases c <;> cases inside <;> simp [recordStep] at h ⊢

/-- The iterations of one frame: the vectors keep their size, and the record
of `ID` changes as `recordStep` says when `ID` is listed in the frame (with a
sample strictly inside or strictly outside) and stays as it is otherwise. -/
theorem detectFrame_fold (E : Extern) (xCor yCor : Table) (frameNr ID n : Nat) (hID : ID < n)
    (h : E.within (truncate (xCor ID frameNr)) (truncate (yCor ID frameNr)) = true ∨
      E.covered_by (truncate (xCor ID frameNr)) (truncate (yCor ID frameNr)) = false)
    (ids : List Nat) :
    ∀ d : Detector, d.sized n →
      (ids.foldl (detectStep E xCor yCor frameNr) d).sized n ∧
      (ids.foldl (detectStep E xCor yCor frameNr) d).record ID =
        if ID ∈ ids then
          recordStep (E.within (truncate (xCor ID frameNr)) (truncate (yCor ID frameNr)))
            (E.covered_by (truncate (xCor ID frameNr)) (truncate (yCor ID frameNr))) frameNr
            (d.record ID)
        else d.record ID := by
  induction ids with
  | nil => intro d hs; exact ⟨hs, by simp⟩
  | cons a rest ih =>
      intro d hs
      simp only [List.foldl_cons]
      have hs2 := detectStep_sized E xCor yCor frameNr d a n hs
      obtain ⟨ih1, ih2⟩ := ih _ hs2
      refine ⟨ih1, ?_⟩
      rw [ih2]
      by_cases ha : a = ID
      · subst ha
        rw [detectStep_record_self E xCor yCor frameNr d a n hs hID]
        simp only [List.mem_cons, true_or, if_true]
        split
        · exact recordStep_idem _ _ _ _ h
        · rfl
      · rw [detectStep_record_other E xCor yCor frameNr d ID a ha]
        have hne : ¬ ID = a := fun h => ha h.symm
        simp [List.mem_cons, hne]

theorem detectorAfter_succ (E : Extern) (numPeds : Nat) (peds_t : Nat → List Nat)
    (xCor yCor : Table) (n : Nat) :
    detectorAfter E numPeds peds_t xCor yCor (n + 1) =
      detectFrame E peds_t xCor yCor (detectorAfter E numPeds peds_t xCor yCor n) n := by
  simp [detectorAfter, List.range_succ, List.foldl_append]

theorem detectFrame_sized (E : Extern) (peds_t : Nat → List Nat) (xCor yCor : Table)
    (frameNr n : Nat) (d : Detector) (hs : d.sized n) :
    (detectFrame E peds_t xCor yCor d frameNr).sized n := by
  unfold detectFrame
  generalize peds_t frameNr = ids
  induction ids generalizing d with
  | nil => exact hs
  | cons a rest ih =>
      simp only [List.foldl_cons]
      exact ih _ (detectStep_sized E xCor yCor frameNr d a n hs)

theorem detectorAfter_sized (E : Extern) (numPeds : Nat) (peds_t : Nat → List Nat)
    (xCor yCor : Table) (n : Nat) :
    (detectorAfter E numPeds peds_t xCor yCor n).sized numPeds := by
  induction n with
  | zero => exact detector_sized_init numPeds
  | succ n ih =>
      rw [detectorAfter_succ]
      exact detectFrame_sized E peds_t xCor yCor n numPeds _ ih

/-- The record of a pedestrian who is listed in every frame and is strictly
inside the area exactly on the frames `f0 .. f1`, after the frames
`0 .. n - 1`. -/
theorem detectorAfter_single_stay (E : Extern) (numPeds : Nat) (peds_t : Nat → List Nat)
    (xCor yCor : Table) (numFrames : Int) (ID f0 f1 : Nat)
    (hID : ID < numPeds)
    (hlisted : ∀ f : Nat, (f : Int) < numFrames → ID ∈ peds_t f)
    (h01 : f0 ≤ f1)
    (hin : ∀ f : Nat, f0 ≤ f → f ≤ f1 →
      E.within (truncate (xCor ID f)) (truncate (yCor ID f)) = true)
    (hout : ∀ f : Nat, (f : Int) < numFrames → (f < f0 ∨ f1 < f) →
      E.within (truncate (xCor ID f)) (truncate (yCor ID f)) = false ∧
      E.covered_by (truncate (xCor ID f)) (truncate (yCor ID f)) = false)
    (n : Nat) (hn : (n : Int) ≤ numFrames) :
    (detectorAfter E numPeds peds_t xCor yCor n).record ID =
      if n ≤ f0 then { tIn := 0, tOut := 0, inside := false }
      else if n ≤ f1 + 1 then { tIn := f0, tOut := 0, inside := true }
      else { tIn := f0, tOut := (f1 : Int) + 1, inside := false } := by
  induction n with
  | zero =>
      simp [detectorAfter, Detector.record, Detector.init, List.getD_eq_getElem?_getD,
        List.getElem?_replicate, hID]
  | succ n ih =>
      have hn1 : (n : Int) < numFrames := by omega
      have ih := ih (by omega)
      have hs := detectorAfter_sized E numPeds peds_t xCor yCor n
      rw [detectorAfter_succ]
      unfold detectFrame
      by_cases hmid : f0 ≤ n ∧ n ≤ f1
      · have hw := hin n hmid.1 hmid.2
        rw [(detectFrame_fold E xCor yCor n ID numPeds hID (Or.inl hw) (peds_t n) _ hs).2,
          if_pos (hlisted n hn1), ih, hw]
        by_cases h0 : n ≤ f0
        · have : n = f0 := by omega
          subst this
          simp [recordStep, hmid.2]
        · have h1 : n ≤ f1 + 1 := by omega
          have h2 : ¬ n + 1 ≤ f0 := by omega
          have h3 : n + 1 ≤ f1 + 1 := by omega
          simp [recordStep, h0, h1, h2, h3]
      · have ho := hout n hn1 (by omega)
        rw [(detectFrame_fold E xCor yCor n ID numPeds hID (Or.inr ho.2) (peds_t n) _ hs).2,
          if_pos (hlisted n hn1), ih, ho.1, ho.2]
        by_cases h0 : n < f0
        · have h1 : n ≤ f0 := by omega
          have h2 : n + 1 ≤ f0 := by omega
          simp [recordStep, h1, h2]
        · have h1 : ¬ n ≤ f0 := by omega
          have h2 : ¬ n + 1 ≤ f0 := by omega
          have h3 : ¬ n + 1 ≤ f1 + 1 := by omega
          by_cases h4 : n ≤ f1 + 1
          · have : n = f1 + 1 := by omega
            subst this
            simp [recordStep, h1, h2]
          · simp [recordStep, h1, h2, h3, h4]

/-- C11: in `GetTinToutEntExt`, a pedestrian (`ID < numPeds`) who is listed in
every frame and whose truncated sample is strictly inside the area exactly on
the frames `f0 .. f1` (`f0 ≤ f1 < numFrames - 1`) and strictly outside on every
other frame ends with `tIn = f0`, `tOut = f1 + 1` and the flag cleared; after
the frames `0 .. n - 1` the record is the initial one for `n ≤ f0`, is
`(f0, 0, inside)` for `f0 < n ≤ f1 + 1` and is `(f0, f1 + 1, not inside)` from
then on, so the flag is set once, at `f0`, and cleared once, at `f1 + 1`. -/
theorem C11_single_stay (E : Extern) (numPeds : Nat) (peds_t : Nat → List Nat)
    (xCor yCor : Table) (numFrames : Int) (ID f0 f1 : Nat)
    (hID : ID < numPeds)
    (hlisted : ∀ f : Nat, (f : Int) < numFrames → ID ∈ peds_t f)
    (h01 : f0 ≤ f1) (h1 : (f1 : Int) < numFrames - 1)
    (hin : ∀ f : Nat, f0 ≤ f → f ≤ f1 →
      E.within (truncate (xCor ID f)) (truncate (yCor ID f)) = true)
    (hout : ∀ f : Nat, (f : Int) < numFrames → (f < f0 ∨ f1 < f) →
      E.within (truncate (xCor ID f)) (truncate (yCor ID f)) = false ∧
      E.covered_by (truncate (xCor ID f)) (truncate (yCor ID f)) = false) :
    (GetTinToutEntExt E numPeds peds_t xCor yCor numFrames).record ID =
        { tIn := f0, tOut := (f1 : Int) + 1, inside := false } ∧
      ∀ n : Nat, (n : Int) ≤ numFrames →
        (n ≤ f0 → (detectorAfter E numPeds peds_t xCor yCor n).record ID =
          { tIn := 0, tOut := 0, inside := false }) ∧
        (f0 < n → n ≤ f1 + 1 → (detectorAfter E numPeds peds_t xCor yCor n).record ID =
          { tIn := f0, tOut := 0, inside := true }) ∧
        (f1 + 1 < n → (detectorAfter E numPeds peds_t xCor yCor n).record ID =
          { tIn := f0, tOut := (f1 : Int) + 1, inside := false }) := by
  have key := detectorAfter_single_stay E numPeds peds_t xCor yCor numFrames ID f0 f1 hID
    hlisted h01 hin hout
  constructor
  · have hfin : GetTinToutEntExt E numPeds peds_t xCor yCor numFrames =
        detectorAfter E numPeds peds_t xCor yCor numFrames.toNat := rfl
    rw [hfin, key numFrames.toNat (by omega)]
    have h2 : ¬ numFrames.toNat ≤ f0 := by omega
    have h3 : ¬ numFrames.toNat ≤ f1 + 1 := by omega
    simp [h2, h3]
  · intro n hn
    rw [key n hn]
    refine ⟨?_, ?_, ?_⟩
    · intro h; simp [h]
    · intro h h'
      have : ¬ n ≤ f0 := by omega
      simp [this, h']
    · intro h
      have h2 : ¬ n ≤ f0 := by omega
      have h3 : ¬ n ≤ f1 + 1 := by omega
      simp [h2, h3]

theorem truncate_tableOf (c : Nat → Int) (ID frameNr : Nat) :
    truncate (tableOf c ID frameNr) = c frameNr :=
  truncate_intCast _

/-- C11, instance: the unit square and the walk x = -75, -25, 25, 75, 125, 175
along y = 50 (6 frames): strictly inside exactly on the frames 2 and 3. -/
theorem C11_single_stay_witness :
    (0 : Nat) < 1 ∧ (2 : Nat) ≤ 3 ∧ ((3 : Nat) : Int) < 6 - 1 ∧
    (GetTinToutEntExt squareExtern 1 (fun _ => [0]) (tableOf walkX) (tableOf midY) 6).record 0 =
      { tIn := ((2 : Nat) : Int), tOut := ((3 : Nat) : Int) + 1, inside := false } :=
  ⟨by decide, by decide, by decide,
    (C11_single_stay squareExtern 1 (fun _ => [0]) (tableOf walkX) (tableOf midY) 6 0 2 3
      (by decide) (by intro f _; simp) (by decide) (by decide)
      (by
        intro f h1 h2
        simp only [tableOf, truncate_intCast, squareExtern, walkX, midY, decide_eq_true_eq]
        omega)
      (by
        intro f _ h2
        simp only [tableOf, truncate_intCast, squareExtern, walkX, midY, decide_eq_false_iff_not]
        omega)).1⟩

/-! ## C12: a pedestrian first observed inside the area -/

theorem foldl_flatMap_eq {α β γ : Type} (f : α → List β) (g : γ → β → γ) (l : List α) :
    ∀ init : γ, (l.flatMap f).foldl g init = l.foldl (fun acc a => (f a).foldl g acc) init := by
  induction l with
  | nil => intro init; rfl
  | cons a rest ih =>
      intro init
      simp only [List.flatMap_cons, List.foldl_append, List.foldl_cons, ih]

/-- A run of `GetTinToutEntExt` is the sequence of its loop iterations. -/
theorem GetTinToutEntExt_eq_detectSteps (E : Extern) (numPeds : Nat) (peds_t : Nat → List Nat)
    (xCor yCor : Table) (numFrames : Int) :
    GetTinToutEntExt E numPeds peds_t xCor yCor numFrames =
      detectSteps E xCor yCor (Detector.init numPeds) (frameSteps peds_t numFrames) := by
  unfold GetTinToutEntExt detectSteps frameSteps
  rw [foldl_flatMap_eq]
  congr 1
  funext d frameNr
  simp [detectFrame, List.foldl_map]

/-- A run of `GetTinTout` is the sequence of its loop iterations. -/
theorem runVariant_eq_variantSteps (G : VariantEnv) (peds_t : Nat → List Nat)
    (xCor yCor : Table) (numFrames : Int) (numPeds variant : Nat) :
    runVariant G peds_t xCor yCor numFrames numPeds variant =
      variantSteps G xCor yCor numFrames variant (Variants.init G numPeds)
        (frameSteps peds_t numFrames) := by
  unfold runVariant variantSteps frameSteps
  rw [foldl_flatMap_eq]
  congr 1
  funext s frameNr
  simp [variantFrame, List.foldl_map]

theorem variants_sized_init (G : VariantEnv) (numPeds : Nat) :
    (Variants.init G numPeds).sized numPeds := by
  simp [Variants.sized, Variants.init]

theorem variants_record_init (G : VariantEnv) (numPeds ID : Nat) :
    (Variants.init G numPeds).record ID = { tIn := 0, tOut := 0, inside := false } := by
  simp only [Variants.record, Variants.init, List.getD_eq_getElem?_getD, List.getElem?_replicate]
  split <;> rfl

theorem detector_record_init (numPeds ID : Nat) :
    (Detector.init numPeds).record ID = { tIn := 0, tOut := 0, inside := false } := by
  simp only [Detector.record, Detector.init, List.getD_eq_getElem?_getD, List.getElem?_replicate]
  split <;> rfl

theorem variantSwitch_sized (G : VariantEnv) (numFrames : Int) (variant frameNr : Nat)
    (s : Variants) (ID : Nat) (x y nextX nextY : Int) (n : Nat) (h : s.sized n) :
    (variantSwitch G numFrames variant frameNr s ID x y nextX nextY).sized n := by
  unfold variantSwitch
  simp only
  split <;> (try split_ifs) <;>
    simpa [Variants.sized, Variants.enter, Variants.leave] using h

/-- In every variant an iteration for another pedestrian leaves the record of
`ID` as it is. -/
theorem variantSwitch_record_other (G : VariantEnv) (numFrames : Int) (variant frameNr : Nat)
    (s : Variants) (ID other : Nat) (x y nextX nextY : Int) (hne : other ≠ ID) :
    (variantSwitch G numFrames variant frameNr s other x y nextX nextY).record ID =
      s.record ID := by
  unfold variantSwitch
  simp only
  split <;> (try split_ifs) <;>
    simp [Variants.record, Variants.enter, Variants.leave, List.getD_eq_getElem?_getD,
      List.getElem?_set_ne hne]

/-- Iterations for other pedestrians leave the record of `ID` as it is. -/
theorem variantSteps_record_of_not_mem (G : VariantEnv) (xCor yCor : Table) (numFrames : Int)
    (variant ID n : Nat) (steps : List (Nat × Nat)) (hpre : ∀ st ∈ steps, st.2 ≠ ID) :
    ∀ s : Variants, s.sized n →
      (variantSteps G xCor yCor numFrames variant s steps).sized n ∧
      (variantSteps G xCor yCor numFrames variant s steps).record ID = s.record ID := by
  induction steps with
  | nil => intro s hs; exact ⟨hs, rfl⟩
  | cons st rest ih =>
      intro s hs
      have h1 := ih (fun q hq => hpre q (List.mem_cons_of_mem _ hq))
        (variantStep G xCor yCor numFrames variant st.1 s st.2)
        (variantSwitch_sized G numFrames variant st.1 s st.2 _ _ _ _ n hs)
      refine ⟨h1.1, ?_⟩
      have h2 := h1.2
      simp only [variantSteps, List.foldl_cons] at h2 ⊢
      rw [h2]
      exact variantSwitch_record_other G numFrames variant st.1 s ID st.2 _ _ _ _
        (hpre st (List.mem_cons_self _ _))

/-- Iterations for other pedestrians leave the record of `ID` as it is. -/
theorem detectSteps_record_of_not_mem (E : Extern) (xCor yCor : Table)
    (ID n : Nat) (steps : List (Nat × Nat)) (hpre : ∀ st ∈ steps, st.2 ≠ ID) :
    ∀ d : Detector, d.sized n →
      (detectSteps E xCor yCor d steps).sized n ∧
      (detectSteps E xCor yCor d steps).record ID = d.record ID := by
  induction steps with
  | nil => intro d hs; exact ⟨hs, rfl⟩
  | cons st rest ih =>
      intro d hs
      have h1 := ih (fun q hq => hpre q (List.mem_cons_of_mem _ hq))
        (detectStep E xCor yCor st.1 d st.2) (detectStep_sized E xCor yCor st.1 d st.2 n hs)
      refine ⟨h1.1, ?_⟩
      have h2 := h1.2
      simp only [detectSteps, List.foldl_cons] at h2 ⊢
      rw [h2]
      exact detectStep_record_other E xCor yCor st.1 d ID st.2 (hpre st (List.mem_cons_self _ _))

/-- In the variants 1 to 6, an iteration for a pedestrian who is not flagged,
whose sample is strictly inside and whose next sample exists, is strictly
inside and is not `(0, 0)`, records the entrance at this frame. -/
theorem variantSwitch_enter (G : VariantEnv) (numFrames : Int) (variant frameNr : Nat)
    (s : Variants) (ID : Nat) (x y nextX nextY : Int) (n : Nat)
    (hs : s.sized n) (hID : ID < n) (hv1 : 1 ≤ variant) (hv6 : variant ≤ 6)
    (hflag : (s.record ID).inside = false) (hnext : (frameNr : Int) + 1 < numFrames)
    (hw : G.within x y = true) (hc : G.covered_by x y = true)
    (hw2 : G.within nextX nextY = true) (hc2 : G.covered_by nextX nextY = true)
    (hnz : ¬ (nextX = 0 ∧ nextY = 0)) :
    ((variantSwitch G numFrames variant frameNr s ID x y nextX nextY).record ID).tIn = frameNr ∧
      ((variantSwitch G numFrames variant frameNr s ID x y nextX nextY).record ID).inside
        = true := by
  obtain ⟨h1, h2, h3⟩ := hs
  have l1 : ID < s.IsinMeasurezone.length := by omega
  have l2 : ID < s.tIn.length := by omega
  simp only [Variants.record, List.getD_eq_getElem?_getD] at hflag
  have hz : (decide (nextX = 0) && decide (nextY = 0)) = false := by
    simpa using hnz
  interval_cases variant <;>
    simp [variantSwitch, Variants.record, Variants.enter, List.getD_eq_getElem?_getD, hflag,
      hnext, hw, hc, hw2, hc2, hz, List.getElem?_set_self l1, List.getElem?_set_self l2]

/-- From frame 2 on the samples of `halfX` are read as `frameNr - 2`. -/
theorem truncate_halfX (ID frameNr : Nat) (h : 2 ≤ frameNr) :
    truncate (halfX ID frameNr) = (frameNr : Int) - 2 := by
  have h2 : (2 : ℚ) ≤ (frameNr : ℚ) := by exact_mod_cast h
  have h0 : (0 : ℚ) ≤ (frameNr : ℚ) - 3 / 2 := by linarith
  simp only [truncate, halfX, h0, if_true]
  show ⌊(frameNr : ℚ) - 3 / 2⌋ = (frameNr : Int) - 2
  rw [Int.floor_eq_iff]
  push_cast
  constructor <;> linarith

/-- C12 (as stated, refuted): on the unit square, a pedestrian who is first
listed in frame 2, strictly inside (x = 25), and is still strictly inside in
frame 3 (x = 75), ends the run of the variants 7 and 8 with `tIn = 0` and is
never flagged as inside.  And the code tests the coordinates after their
conversion to `int`: a pedestrian first listed in frame 2 at x = 0.5 and
still strictly inside in frame 3 at x = 1.5 (y = 50) is read at x = 0, on the
boundary, in frame 2, and the variants 3 and 5 set `tIn = 3`. -/
theorem C12_crossing_variants_miss_start_inside :
    squareRing.length = 5 ∧
    (squareGeometry squareRing).within (truncate (tableOf walkX 0 2))
      (truncate (tableOf midY 0 2)) = true ∧
    (squareGeometry squareRing).within (truncate (tableOf walkX 0 3))
      (truncate (tableOf midY 0 3)) = true ∧
    GetTinTout (squareGeometry squareRing) (fun frameNr => if 2 ≤ frameNr then [0] else [])
      (tableOf walkX) (tableOf midY) 4 1 7 = ([0], [0]) ∧
    (runVariant (squareGeometry squareRing) (fun frameNr => if 2 ≤ frameNr then [0] else [])
      (tableOf walkX) (tableOf midY) 4 1 7).IsinMeasurezone = [false] ∧
    GetTinTout (squareGeometry squareRing) (fun frameNr => if 2 ≤ frameNr then [0] else [])
      (tableOf walkX) (tableOf midY) 4 1 8 = ([0], [0]) ∧
    (runVariant (squareGeometry squareRing) (fun frameNr => if 2 ≤ frameNr then [0] else [])
      (tableOf walkX) (tableOf midY) 4 1 8).IsinMeasurezone = [false] ∧
    ((0 : ℚ) < halfX 0 2 ∧ halfX 0 2 < 100 ∧ 0 < halfX 0 3 ∧ halfX 0 3 < 100) ∧
    GetTinTout (squareGeometry squareRing) (fun frameNr => if 2 ≤ frameNr then [0] else [])
      halfX (tableOf midY) 5 1 3 = ([3], [0]) ∧
    GetTinTout (squareGeometry squareRing) (fun frameNr => if 2 ≤ frameNr then [0] else [])
      halfX (tableOf midY) 5 1 5 = ([3], [0]) := by
  have e7 : runVariant (squareGeometry squareRing)
      (fun frameNr => if 2 ≤ frameNr then [0] else []) (tableOf walkX) (tableOf midY) 4 1 7 =
      Variants.init (squareGeometry squareRing) 1 := by
    simp [runVariant, variantFrame, variantStep, variantSwitch, List.range, List.range.loop,
      truncate_tableOf, walkX, midY, squareGeometry, Variants.init]
  have e8 : runVariant (squareGeometry squareRing)
      (fun frameNr => if 2 ≤ frameNr then [0] else []) (tableOf walkX) (tableOf midY) 4 1 8 =
      Variants.init (squareGeometry squareRing) 1 := by
    simp [runVariant, variantFrame, variantStep, variantSwitch, List.range, List.range.loop,
      truncate_tableOf, walkX, midY, squareGeometry, Variants.init]
  refine ⟨rfl, ?_, ?_, ?_, ?_, ?_, ?_, ?_, ?_, ?_⟩
  · simp [truncate_tableOf, walkX, midY, squareGeometry]
  · simp [truncate_tableOf, walkX, midY, squareGeometry]
  · simp [GetTinTout, e7, Variants.init]
  · simp [e7, Variants.init]
  · simp [GetTinTout, e8, Variants.init]
  · simp [e8, Variants.init]
  · simp only [halfX]
    norm_num
  · simp [GetTinTout, runVariant, variantFrame, variantStep, variantSwitch, List.range,
      List.range.loop, truncate_tableOf, truncate_halfX, midY, squareGeometry, Variants.init,
      Variants.enter, Variants.leave]
  · simp [GetTinTout, runVariant, variantFrame, variantStep, variantSwitch, List.range,
      List.range.loop, truncate_tableOf, truncate_halfX, midY, squareGeometry, Variants.init,
      Variants.enter, Variants.leave]

/-- C12 (amended): the detector of Method H and the variants 1 to 6 of
`GetTinTout` test the coordinates of a sample after their conversion to `int`
(truncation towards zero).  When the first loop iteration made for a
pedestrian (`ID < numPeds`) is the one of frame `f`, its truncated sample at
`f` is strictly inside the area and its truncated sample at `f + 1` exists, is
strictly inside and is not `(0, 0)`, then after that iteration `tIn[ID] = f`
and the pedestrian is flagged as inside.  (The variants 7 and 8 record an
entrance only between a sample outside and a sample inside or on the area.) -/
theorem C12_first_observed_inside (E : Extern) (G : VariantEnv) (xCor yCor : Table)
    (numFrames : Int) (numPeds ID f : Nat) (pre : List (Nat × Nat))
    (hID : ID < numPeds) (hpre : ∀ st ∈ pre, st.2 ≠ ID)
    (hnext : (f : Int) + 1 < numFrames)
    (hwE : E.within (truncate (xCor ID f)) (truncate (yCor ID f)) = true)
    (hw : G.within (truncate (xCor ID f)) (truncate (yCor ID f)) = true)
    (hc : G.covered_by (truncate (xCor ID f)) (truncate (yCor ID f)) = true)
    (hw2 : G.within (truncate (xCor ID (f + 1))) (truncate (yCor ID (f + 1))) = true)
    (hc2 : G.covered_by (truncate (xCor ID (f + 1))) (truncate (yCor ID (f + 1))) = true)
    (hnz : ¬ (truncate (xCor ID (f + 1)) = 0 ∧ truncate (yCor ID (f + 1)) = 0)) :
    (((detectSteps E xCor yCor (Detector.init numPeds) (pre ++ [(f, ID)])).record ID).tIn = f ∧
      ((detectSteps E xCor yCor (Detector.init numPeds) (pre ++ [(f, ID)])).record ID).inside
        = true) ∧
    ∀ variant : Nat, 1 ≤ variant → variant ≤ 6 →
      ((variantSteps G xCor yCor numFrames variant (Variants.init G numPeds)
          (pre ++ [(f, ID)])).record ID).tIn = f ∧
      ((variantSteps G xCor yCor numFrames variant (Variants.init G numPeds)
          (pre ++ [(f, ID)])).record ID).inside = true := by
  constructor
  · obtain ⟨hs, hr⟩ := detectSteps_record_of_not_mem E xCor yCor ID numPeds pre hpre
      (Detector.init numPeds) (detector_sized_init numPeds)
    have hstep : detectSteps E xCor yCor (Detector.init numPeds) (pre ++ [(f, ID)]) =
        detectStep E xCor yCor f (detectSteps E xCor yCor (Detector.init numPeds) pre) ID := by
      simp [detectSteps, List.foldl_append]
    rw [hstep, detectStep_record_self E xCor yCor f _ ID numPeds hs hID, hr,
      detector_record_init, hwE]
    simp [recordStep]
  · intro variant hv1 hv6
    obtain ⟨hs, hr⟩ := variantSteps_record_of_not_mem G xCor yCor numFrames variant ID numPeds
      pre hpre (Variants.init G numPeds) (variants_sized_init G numPeds)
    have hstep : variantSteps G xCor yCor numFrames variant (Variants.init G numPeds)
        (pre ++ [(f, ID)]) =
        variantStep G xCor yCor numFrames variant f
          (variantSteps G xCor yCor numFrames variant (Variants.init G numPeds) pre) ID := by
      simp [variantSteps, List.foldl_append]
    rw [hstep]
    unfold variantStep
    simp only [hnext, if_true]
    apply variantSwitch_enter G numFrames variant f _ ID _ _ _ _ numPeds hs hID hv1 hv6 _ hnext
      hw hc hw2 hc2 hnz
    rw [hr, variants_record_init]

/-- C12 (amended), instance: the unit square and the walk x = -75, -25, 25,
75, ... along y = 50; the first iteration for pedestrian 0 is the one of
frame 2. -/
theorem C12_first_observed_inside_witness :
    (0 : Nat) < 1 ∧ (((2 : Nat) : Int) + 1 < 6) ∧
    squareExtern.within (truncate (tableOf walkX 0 2)) (truncate (tableOf midY 0 2)) = true ∧
    (((detectSteps squareExtern (tableOf walkX) (tableOf midY) (Detector.init 1)
        ([] ++ [(2, 0)])).record 0).tIn = ((2 : Nat) : Int) ∧
      ((detectSteps squareExtern (tableOf walkX) (tableOf midY) (Detector.init 1)
        ([] ++ [(2, 0)])).record 0).inside = true) ∧
    ∀ variant : Nat, 1 ≤ variant → variant ≤ 6 →
      ((variantSteps (squareGeometry squareRing) (tableOf walkX) (tableOf midY) 6 variant
          (Variants.init (squareGeometry squareRing) 1) ([] ++ [(2, 0)])).record 0).tIn
        = ((2 : Nat) : Int) ∧
      ((variantSteps (squareGeometry squareRing) (tableOf walkX) (tableOf midY) 6 variant
          (Variants.init (squareGeometry squareRing) 1) ([] ++ [(2, 0)])).record 0).inside
        = true :=
  ⟨by decide, by decide, by simp [truncate_tableOf, walkX, midY, squareExtern],
    C12_first_observed_inside squareExtern (squareGeometry squareRing) (tableOf walkX)
      (tableOf midY) 6 1 0 2 [] (by decide) (by simp) (by decide)
      (by simp [truncate_tableOf, walkX, midY, squareExtern])
      (by simp [truncate_tableOf, walkX, midY, squareGeometry])
      (by simp [truncate_tableOf, walkX, midY, squareGeometry])
      (by simp [truncate_tableOf, walkX, midY, squareGeometry])
      (by simp [truncate_tableOf, walkX, midY, squareGeometry])
      (by simp [truncate_tableOf, walkX, midY])⟩

/-! ## C13, C14: the geometric variants 7 and 8 -/

/-- The edge loop: when edge `p` is the last of the edges 0 .. 3 that
intersects the connecting segment, the entrance is edge `p` and the exit is
the segment chosen for `p` (for a closed ring: edge `(p + 2) mod 4`). -/
theorem edgeLoop_last (G : VariantEnv) (edge1 : Segment) (se : Segment × Segment) (p : Nat)
    (hclosed : G.outer 4 = G.outer 0) (hp : p < 4)
    (hint : G.intersects (edge G p) edge1 = true)
    (hlast : ∀ q : Nat, p < q → q < 4 → G.intersects (edge G q) edge1 = false) :
    edgeLoop G edge1 se = (edge G p, (G.outer ((p + 2) % 4), G.outer ((p + 2) % 4 + 1))) := by
  have h1 := hlast 1
  have h2 := hlast 2
  have h3 := hlast 3
  simp only [edgeLoop, List.range, List.range.loop, List.foldl_cons, List.foldl_nil]
  interval_cases p
  · simp [edgeBody, hint, h1, h2, h3]
  · simp [edgeBody, hint, h2, h3]
  · simp [edgeBody, hint, h3, hclosed]
  · simp [edgeBody, hint]

/-- C14: in the variants 7 and 8, for an area whose outer ring is closed
(`outer()[4] = outer()[0]`): when the entrance branch is taken and the
entrance edge found by the loop is edge `p` (the last of the edges 0 .. 3
that intersects the connecting segment), the entrance stored is the segment
from vertex `p` to vertex `p + 1` and the exit stored is the segment from
vertex `(p + 2) mod 4` to vertex `(p + 2) mod 4 + 1`. -/
theorem C14_exit_is_opposite_edge (G : VariantEnv) (numFrames : Int) (variant frameNr : Nat)
    (s : Variants) (ID : Nat) (x y nextX nextY : Int) (p : Nat)
    (hv : variant = 7 ∨ variant = 8) (hclosed : G.outer 4 = G.outer 0)
    (hnext : (frameNr : Int) + 1 < numFrames)
    (hout : G.covered_by x y = false) (hflag : s.IsinMeasurezone.getD ID false = false)
    (hin : G.covered_by nextX nextY = true) (hnz : ¬ (nextX = 0 ∧ nextY = 0))
    (hp : p < 4)
    (hint : G.intersects (edge G p) (point x y, point nextX nextY) = true)
    (hlast : ∀ q : Nat, p < q → q < 4 →
      G.intersects (edge G q) (point x y, point nextX nextY) = false) :
    (variantSwitch G numFrames variant frameNr s ID x y nextX nextY).entrance =
        (G.outer p, G.outer (p + 1)) ∧
      (variantSwitch G numFrames variant frameNr s ID x y nextX nextY).exit =
        (G.outer ((p + 2) % 4), G.outer ((p + 2) % 4 + 1)) := by
  have hz : (decide (nextX = 0) && decide (nextY = 0)) = false := by
    simpa using hnz
  simp only [List.getD_eq_getElem?_getD] at hflag
  have hl := edgeLoop_last G (point x y, point nextX nextY) (s.entrance, s.exit) p hclosed hp
    hint hlast
  rcases hv with hv | hv <;> subst hv <;>
    simp [variantSwitch, hnext, hout, hflag, hin, hz, hl, edge, Variants.enter,
      List.getD_eq_getElem?_getD]

theorem squareRing_intersects_left :
    (squareGeometry squareRing).intersects (edge (squareGeometry squareRing) 0)
      (point (-50) 50, point 50 50) = true := by
  simp [squareGeometry, squareRing, edge, point, segmentsIntersect, orient, inBox]
  norm_num

theorem squareRing_intersects_others (q : Nat) (h0 : 0 < q) (h4 : q < 4) :
    (squareGeometry squareRing).intersects (edge (squareGeometry squareRing) q)
      (point (-50) 50, point 50 50) = false := by
  interval_cases q <;>
    simp [squareGeometry, squareRing, edge, point, segmentsIntersect, orient, inBox] <;>
    norm_num

/-- C14, instance: the unit square, entered through its left edge (edge 0)
between the samples (-50, 50) and (50, 50); the exit stored is edge 2. -/
theorem C14_exit_is_opposite_edge_witness :
    (squareGeometry squareRing).outer 4 = (squareGeometry squareRing).outer 0 ∧
    (((10 : Nat) : Int) + 1 < 12) ∧
    (variantSwitch (squareGeometry squareRing) 12 7 10
        (Variants.init (squareGeometry squareRing) 1) 0 (-50) 50 50 50).entrance =
      ((squareGeometry squareRing).outer 0, (squareGeometry squareRing).outer (0 + 1)) ∧
    (variantSwitch (squareGeometry squareRing) 12 7 10
        (Variants.init (squareGeometry squareRing) 1) 0 (-50) 50 50 50).exit =
      ((squareGeometry squareRing).outer ((0 + 2) % 4),
        (squareGeometry squareRing).outer ((0 + 2) % 4 + 1)) :=
  ⟨by simp [squareGeometry, squareRing], by decide,
    C14_exit_is_opposite_edge (squareGeometry squareRing) 12 7 10
      (Variants.init (squareGeometry squareRing) 1) 0 (-50) 50 50 50 0 (Or.inl rfl)
      (by simp [squareGeometry, squareRing]) (by decide)
      (by simp [squareGeometry]) (by simp [Variants.init]) (by simp [squareGeometry])
      (by decide) (by decide) squareRing_intersects_left
      (fun q h0 h4 => squareRing_intersects_others q h0 h4)⟩

/-- C13 (the code departs from the claim and from its own table of variants):
the scenario of the claim on the unit square whose ring starts at the origin.  The connecting segment from
(-100, 50) in frame 10 to (100, 50) in frame 11 crosses the left edge (edge 0)
at its midpoint, and both samples are 100 cm from that edge; but it also
touches the right edge (edge 2) in (100, 50), the loop keeps the last edge
that intersects, and variant 8 compares the distances 200 and 0 to the right
edge: it sets `tIn = 11`, not 10, the frame the claim gives on equal
distances. -/
theorem C13_touching_edge_failing_input :
    (squareGeometry squareRing).intersects (edge (squareGeometry squareRing) 0)
      (point (crossX 10) (midY 10), point (crossX 11) (midY 11)) = true ∧
    (squareGeometry squareRing).distance (point (crossX 10) (midY 10))
        (edge (squareGeometry squareRing) 0) =
      (squareGeometry squareRing).distance (point (crossX 11) (midY 11))
        (edge (squareGeometry squareRing) 0) ∧
    (squareGeometry squareRing).covered_by (crossX 10) (midY 10) = false ∧
    (squareGeometry squareRing).covered_by (crossX 11) (midY 11) = true ∧
    (variantStep (squareGeometry squareRing) (tableOf crossX) (tableOf midY) 12 8 10
        (Variants.init (squareGeometry squareRing) 1) 0).tIn = [11] ∧
    (variantStep (squareGeometry squareRing) (tableOf crossX) (tableOf midY) 12 8 10
        (Variants.init (squareGeometry squareRing) 1) 0).entrance =
      edge (squareGeometry squareRing) 2 := by
  refine ⟨?_, ?_, ?_, ?_, ?_, ?_⟩
  · simp [squareGeometry, squareRing, edge, point, segmentsIntersect, orient, inBox, crossX,
      midY]
    norm_num
  · simp [squareGeometry, squareRing, edge, point, axisDistance, crossX, midY]
  · simp [squareGeometry, crossX, midY]
  · simp [squareGeometry, crossX, midY]
  · simp [variantStep, variantSwitch, truncate_tableOf, crossX, midY, squareGeometry,
      squareRing, edgeLoop, List.range, List.range.loop, edgeBody, edge, point,
      segmentsIntersect, orient, inBox, axisDistance, Variants.init, Variants.enter]
    norm_num
  · simp [variantStep, variantSwitch, truncate_tableOf, crossX, midY, squareGeometry,
      squareRing, edgeLoop, List.range, List.range.loop, edgeBody, edge, point,
      segmentsIntersect, orient, inBox, axisDistance, Variants.init, Variants.enter]
    norm_num

/-- The rule of the variants 7 and 8 on the `int` coordinates that the code
reads, when a single edge is intersected: at a frame `f` with a successor,
for a pedestrian (`ID` in range) who is not flagged as inside, whose sample at
`f` is outside the area and whose sample at `f + 1` is inside or on it and is
not `(0, 0)`: when exactly one of the edges 0 .. 3 intersects the connecting
segment, edge `p`, then `tIn` is `f` if the sample at `f` is strictly nearer
to that edge than the sample at `f + 1`, is `f + 1` if it is strictly farther,
and on equal distances is `f + 1` in variant 7 and `f` in variant 8.  For a
pedestrian who is flagged as inside, whose sample at `f` is inside or on the
area and whose sample at `f + 1` is outside, `tOut` is chosen by the same rule
with respect to the stored exit edge. -/
theorem nearer_sample_rule (G : VariantEnv) (numFrames : Int) (variant frameNr : Nat)
    (s : Variants) (ID n : Nat) (x y nextX nextY : Int)
    (hs : s.sized n) (hID : ID < n) (hv : variant = 7 ∨ variant = 8)
    (hnext : (frameNr : Int) + 1 < numFrames) :
    (∀ p : Nat, G.covered_by x y = false → s.IsinMeasurezone.getD ID false = false →
      G.covered_by nextX nextY = true → ¬ (nextX = 0 ∧ nextY = 0) → p < 4 →
      G.intersects (edge G p) (point x y, point nextX nextY) = true →
      (∀ q : Nat, q < 4 → q ≠ p →
        G.intersects (edge G q) (point x y, point nextX nextY) = false) →
      (variantSwitch G numFrames variant frameNr s ID x y nextX nextY).tIn.getD ID 0 =
        if G.distance (point x y) (edge G p) < G.distance (point nextX nextY) (edge G p) then
          (frameNr : Int)
        else if G.distance (point nextX nextY) (edge G p) < G.distance (point x y) (edge G p)
          then (frameNr : Int) + 1
        else if variant = 7 then (frameNr : Int) + 1 else (frameNr : Int)) ∧
    (G.covered_by x y = true → s.IsinMeasurezone.getD ID false = true →
      G.covered_by nextX nextY = false →
      (variantSwitch G numFrames variant frameNr s ID x y nextX nextY).tOut.getD ID 0 =
        if G.distance (point x y) s.exit < G.distance (point nextX nextY) s.exit then
          (frameNr : Int)
        else if G.distance (point nextX nextY) s.exit < G.distance (point x y) s.exit
          then (frameNr : Int) + 1
        else if variant = 7 then (frameNr : Int) + 1 else (frameNr : Int)) := by
  obtain ⟨h1, h2, h3⟩ := hs
  have l2 : ID < s.tIn.length := by omega
  have l3 : ID < s.tOut.length := by omega
  constructor
  · intro p hout hflag hin hnz hp hint honly
    have hz : (decide (nextX = 0) && decide (nextY = 0)) = false := by
      simpa using hnz
    simp only [List.getD_eq_getElem?_getD] at hflag
    have hl : (edgeLoop G (point x y, point nextX nextY) (s.entrance, s.exit)).1 = edge G p := by
      have h0 := honly 0
      have h1 := honly 1
      have h2 := honly 2
      have h3 := honly 3
      simp only [edgeLoop, List.range, List.range.loop, List.foldl_cons, List.foldl_nil]
      interval_cases p
      · simp [edgeBody, hint, h1, h2, h3]
      · simp [edgeBody, hint, h2, h3]
      · simp [edgeBody, hint, h3]
      · simp [edgeBody, hint]
    rcases hv with hv | hv <;> subst hv
    · simp [variantSwitch, hnext, hout, hflag, hin, hz, hl, Variants.enter,
        List.getD_eq_getElem?_getD, List.getElem?_set_self l2]
    · simp [variantSwitch, hnext, hout, hflag, hin, hz, hl, Variants.enter,
        List.getD_eq_getElem?_getD, List.getElem?_set_self l2]
      split_ifs <;> first | rfl | (exfalso; linarith)
  · intro hin hflag hout
    simp only [List.getD_eq_getElem?_getD] at hflag
    rcases hv with hv | hv <;> subst hv
    · simp [variantSwitch, hnext, hout, hflag, hin, Variants.leave,
        List.getD_eq_getElem?_getD, List.getElem?_set_self l3]
    · simp [variantSwitch, hnext, hout, hflag, hin, Variants.leave,
        List.getD_eq_getElem?_getD, List.getElem?_set_self l3]
      split_ifs <;> first | rfl | (exfalso; linarith)

/-- The rule on an instance: the unit square, entered through its left edge
between frame 10 (x = -50) and frame 11 (x = 50), both samples 50 cm from
that edge: `tIn = 11` in variant 7 and `tIn = 10` in variant 8.  Leaving
through the right edge between frame 11 (x = 50) and frame 12 (x = 150):
`tOut = 12` in variant 7 and `tOut = 11` in variant 8. -/
theorem nearer_sample_rule_example :
    (Variants.init (squareGeometry squareRing) 1).sized 1 ∧
    (((10 : Nat) : Int) + 1 < 13) ∧ (((11 : Nat) : Int) + 1 < 13) ∧
    (variantSwitch (squareGeometry squareRing) 13 7 10
      (Variants.init (squareGeometry squareRing) 1) 0 (-50) 50 50 50).tIn.getD 0 0 = 11 ∧
    (variantSwitch (squareGeometry squareRing) 13 8 10
      (Variants.init (squareGeometry squareRing) 1) 0 (-50) 50 50 50).tIn.getD 0 0 = 10 ∧
    (variantSwitch (squareGeometry squareRing) 13 7 11
      { IsinMeasurezone := [true], tIn := [10], tOut := [0],
        entrance := edge (squareGeometry squareRing) 0,
        exit := edge (squareGeometry squareRing) 2 } 0 50 50 150 50).tOut.getD 0 0 = 12 ∧
    (variantSwitch (squareGeometry squareRing) 13 8 11
      { IsinMeasurezone := [true], tIn := [10], tOut := [0],
        entrance := edge (squareGeometry squareRing) 0,
        exit := edge (squareGeometry squareRing) 2 } 0 50 50 150 50).tOut.getD 0 0 = 11 := by
  have hs := variants_sized_init (squareGeometry squareRing) 1
  have hs2 : Variants.sized
      { IsinMeasurezone := [true], tIn := [10], tOut := [0],
        entrance := edge (squareGeometry squareRing) 0,
        exit := edge (squareGeometry squareRing) 2 } 1 := by
    simp [Variants.sized]
  have e7 := (nearer_sample_rule (squareGeometry squareRing) 13 7 10
    (Variants.init (squareGeometry squareRing) 1) 0 1 (-50) 50 50 50 hs (by decide)
    (Or.inl rfl) (by decide)).1 0 (by simp [squareGeometry]) (by simp [Variants.init])
    (by simp [squareGeometry]) (by decide) (by decide) squareRing_intersects_left
    (fun q h4 hne => squareRing_intersects_others q (by omega) h4)
  have e8 := (nearer_sample_rule (squareGeometry squareRing) 13 8 10
    (Variants.init (squareGeometry squareRing) 1) 0 1 (-50) 50 50 50 hs (by decide)
    (Or.inr rfl) (by decide)).1 0 (by simp [squareGeometry]) (by simp [Variants.init])
    (by simp [squareGeometry]) (by decide) (by decide) squareRing_intersects_left
    (fun q h4 hne => squareRing_intersects_others q (by omega) h4)
  have x7 := (nearer_sample_rule (squareGeometry squareRing) 13 7 11 _ 0 1 50 50 150 50
    hs2 (by decide) (Or.inl rfl) (by decide)).2 (by simp [squareGeometry]) (by simp)
    (by simp [squareGeometry])
  have x8 := (nearer_sample_rule (squareGeometry squareRing) 13 8 11 _ 0 1 50 50 150 50
    hs2 (by decide) (Or.inr rfl) (by decide)).2 (by simp [squareGeometry]) (by simp)
    (by simp [squareGeometry])
  have dl1 : (squareGeometry squareRing).distance (point (-50) 50)
      (edge (squareGeometry squareRing) 0) = 50 := by
    simp [squareGeometry, squareRing, edge, point, axisDistance]
    norm_num
  have dl2 : (squareGeometry squareRing).distance (point 50 50)
      (edge (squareGeometry squareRing) 0) = 50 := by
    simp [squareGeometry, squareRing, edge, point, axisDistance]
    norm_num
  have dr1 : (squareGeometry squareRing).distance (point 50 50)
      (edge (squareGeometry squareRing) 2) = 50 := by
    simp [squareGeometry, squareRing, edge, point, axisDistance]
    norm_num
  have dr2 : (squareGeometry squareRing).distance (point 150 50)
      (edge (squareGeometry squareRing) 2) = 50 := by
    simp [squareGeometry, squareRing, edge, point, axisDistance]
    norm_num
  refine ⟨hs, by decide, by decide, ?_, ?_, ?_, ?_⟩
  · rw [e7, dl1, dl2]; simp
  · rw [e8, dl1, dl2]; simp
  · rw [x7, dr1, dr2]; simp
  · rw [x8, dr1, dr2]; simp

/-! ## C15: the look-ahead variants skip a missing successor -/

/-- C15: in the variants 1, 2, 5 and 6, an iteration at a frame that has no
successor (`frameNr + 1 < numFrames` fails: the last frame) or whose
successor sample is `(0, 0)` leaves all locals as they are: `tIn`, `tOut`
and the flag of the pedestrian (and of everybody else) are unchanged. -/
theorem C15_lookahead_skips (G : VariantEnv) (xCor yCor : Table) (numFrames : Int)
    (variant frameNr : Nat) (s : Variants) (ID : Nat)
    (hv : variant = 1 ∨ variant = 2 ∨ variant = 5 ∨ variant = 6)
    (h : ¬ ((frameNr : Int) + 1 < numFrames) ∨
      (truncate (xCor ID (frameNr + 1)) = 0 ∧ truncate (yCor ID (frameNr + 1)) = 0)) :
    variantStep G xCor yCor numFrames variant frameNr s ID = s := by
  unfold variantStep
  by_cases hn : (frameNr : Int) + 1 < numFrames
  · rcases h with h | ⟨hx, hy⟩
    · exact absurd hn h
    · rcases hv with hv | hv | hv | hv <;> subst hv <;>
        simp [variantSwitch, hn, hx, hy]
  · rcases hv with hv | hv | hv | hv <;> subst hv <;>
      simp [variantSwitch, hn]

/-- C15, instance: variant 1 on the walk x = -75, -25, ... of 6 frames, at the
last frame (frame 5). -/
theorem C15_lookahead_skips_witness :
    ((1 : Nat) = 1 ∨ (1 : Nat) = 2 ∨ (1 : Nat) = 5 ∨ (1 : Nat) = 6) ∧
    ¬ (((5 : Nat) : Int) + 1 < 6) ∧
    variantStep (squareGeometry squareRing) (tableOf walkX) (tableOf midY) 6 1 5
      (Variants.init (squareGeometry squareRing) 1) 0 =
      Variants.init (squareGeometry squareRing) 1 :=
  ⟨Or.inl rfl, by decide,
    C15_lookahead_skips (squareGeometry squareRing) (tableOf walkX) (tableOf midY) 6 1 5
      (Variants.init (squareGeometry squareRing) 1) 0 (Or.inl rfl) (Or.inl (by decide))⟩


/-! ## C16: the unit conversion -/

theorem convertTable_apply (E : Extern) (numPeds : Nat) (numFrames : Int) (t : Table)
    (i frameNr : Nat) (hi : i < numPeds) (hf : (frameNr : Int) < numFrames) :
    convertTable E numPeds numFrames t i frameNr = t i frameNr * E.CMtoM := by
  simp [convertTable, hi, hf]

/-- A number other than zero changes when it is scaled once more by a factor
other than 0 and 1. -/
theorem scaled_twice_ne (c v : ℚ) (hc0 : c ≠ 0) (hc1 : c ≠ 1) (hv : v ≠ 0) :
    v * c * c ≠ v * c := by
  intro heq
  have h1 : v * c * (c - 1) = 0 := by linear_combination heq
  rcases mul_eq_zero.1 h1 with h2 | h2
  · rcases mul_eq_zero.1 h2 with h3 | h3
    · exact hv h3
    · exact hc0 h3
  · exact hc1 (by linarith)

/-- C16: the conversion at the start of `OutputRhoVFlow` (run with
`deltaT ≥ 1`) multiplies every stored coordinate (pedestrian `i < _numPeds`,
frame `frameNr < numFrames`, x and y) by `CMtoM`; a second run on the
converted tables scales them by `CMtoM` twice, and for a factor `CMtoM` other
than 0 and 1 (it is 1/100) the result differs from the once-converted value
wherever the coordinate is not zero: the conversion is not idempotent. -/
theorem C16_conversion_not_idempotent (E : Extern) (m : MethodH) (numFrames : Int)
    (fuel : Nat) (hc0 : E.CMtoM ≠ 0) (hc1 : E.CMtoM ≠ 1)
    (hd : 1 ≤ m._deltaT) (hf : ((numFrames - 1) / m._deltaT).toNat ≤ fuel) :
    ∃ xCor yCor rows xCor2 yCor2 rows2,
      OutputRhoVFlow E m numFrames fuel = some (xCor, yCor, rows) ∧
      OutputRhoVFlow E { m with _xCor := xCor, _yCor := yCor } numFrames fuel =
        some (xCor2, yCor2, rows2) ∧
      (∀ i frameNr : Nat, i < m._numPeds → (frameNr : Int) < numFrames →
        (xCor i frameNr = m._xCor i frameNr * E.CMtoM ∧
          yCor i frameNr = m._yCor i frameNr * E.CMtoM) ∧
        (xCor2 i frameNr = m._xCor i frameNr * E.CMtoM * E.CMtoM ∧
          yCor2 i frameNr = m._yCor i frameNr * E.CMtoM * E.CMtoM) ∧
        (m._xCor i frameNr ≠ 0 → xCor2 i frameNr ≠ xCor i frameNr) ∧
        (m._yCor i frameNr ≠ 0 → yCor2 i frameNr ≠ yCor i frameNr)) ∧
      ((∃ i frameNr : Nat, i < m._numPeds ∧ (frameNr : Int) < numFrames ∧
        m._xCor i frameNr ≠ 0) → xCor2 ≠ xCor) := by
  have hc : windowCount numFrames m._deltaT 0 ≤ fuel := by
    simpa [windowCount] using hf
  have key : ∀ i frameNr : Nat, i < m._numPeds → (frameNr : Int) < numFrames →
      ∀ t : Table, t i frameNr ≠ 0 →
        convertTable E m._numPeds numFrames (convertTable E m._numPeds numFrames t) i frameNr ≠
          convertTable E m._numPeds numFrames t i frameNr := by
    intro i frameNr hi hfr t ht
    rw [convertTable_apply E _ _ _ i frameNr hi hfr, convertTable_apply E _ _ _ i frameNr hi hfr]
    exact scaled_twice_ne _ _ hc0 hc1 ht
  refine ⟨_, _, _, _, _, _, OutputRhoVFlow_eq E m numFrames fuel hd hc,
    OutputRhoVFlow_eq E { m with
      _xCor := convertTable E m._numPeds numFrames m._xCor,
      _yCor := convertTable E m._numPeds numFrames m._yCor } numFrames fuel hd hc, ?_, ?_⟩
  · intro i frameNr hi hfr
    refine ⟨⟨convertTable_apply E _ _ _ i frameNr hi hfr,
      convertTable_apply E _ _ _ i frameNr hi hfr⟩, ⟨?_, ?_⟩, key i frameNr hi hfr _,
      key i frameNr hi hfr _⟩
    · simp only
      rw [convertTable_apply E _ _ _ i frameNr hi hfr, convertTable_apply E _ _ _ i frameNr hi hfr]
    · simp only
      rw [convertTable_apply E _ _ _ i frameNr hi hfr, convertTable_apply E _ _ _ i frameNr hi hfr]
  · rintro ⟨i, frameNr, hi, hfr, hne⟩ heq
    exact key i frameNr hi hfr _ hne (congrFun (congrFun heq i) frameNr)

/-- C16, instance: the scenario of the specification, 17 frames, `CMtoM = 1/100`. -/
theorem C16_conversion_not_idempotent_witness :
    exampleExtern.CMtoM ≠ 0 ∧ exampleExtern.CMtoM ≠ 1 ∧ 1 ≤ exampleMethodH._deltaT ∧
    (((17 : Int) - 1) / exampleMethodH._deltaT).toNat ≤ 1 ∧
    ∃ xCor yCor rows xCor2 yCor2 rows2,
      OutputRhoVFlow exampleExtern exampleMethodH 17 1 = some (xCor, yCor, rows) ∧
      OutputRhoVFlow exampleExtern { exampleMethodH with _xCor := xCor, _yCor := yCor } 17 1 =
        some (xCor2, yCor2, rows2) ∧
      (∀ i frameNr : Nat, i < exampleMethodH._numPeds → (frameNr : Int) < 17 →
        (xCor i frameNr = exampleMethodH._xCor i frameNr * exampleExtern.CMtoM ∧
          yCor i frameNr = exampleMethodH._yCor i frameNr * exampleExtern.CMtoM) ∧
        (xCor2 i frameNr =
            exampleMethodH._xCor i frameNr * exampleExtern.CMtoM * exampleExtern.CMtoM ∧
          yCor2 i frameNr =
            exampleMethodH._yCor i frameNr * exampleExtern.CMtoM * exampleExtern.CMtoM) ∧
        (exampleMethodH._xCor i frameNr ≠ 0 → xCor2 i frameNr ≠ xCor i frameNr) ∧
        (exampleMethodH._yCor i frameNr ≠ 0 → yCor2 i frameNr ≠ yCor i frameNr)) ∧
      ((∃ i frameNr : Nat, i < exampleMethodH._numPeds ∧ (frameNr : Int) < 17 ∧
        exampleMethodH._xCor i frameNr ≠ 0) → xCor2 ≠ xCor) :=
  ⟨by simp [exampleExtern], by simp [exampleExtern], by decide, by decide,
    C16_conversion_not_idempotent exampleExtern exampleMethodH 17 1 (by simp [exampleExtern])
      (by simp [exampleExtern]) (by decide) (by decide)⟩

/-! ## C17: the bounding box -/

/-- The loop of `GetBoundingBox` from the multi-polygon `acc` on: the result
has the points of `acc` and those of the polygons still to be united. -/
theorem unionLoop_points (B : BoostGeometry) (region : Polygon → Point → Prop)
    (polygons : List Polygon) (hB : BoostContract B region polygons) (p : Point)
    (l : List Polygon) :
    (∀ poly ∈ l, poly ∈ polygons) → ∀ acc : List Polygon,
      (multiRegion region (l.foldl (fun border poly => B.union_ border poly) acc) p ↔
        multiRegion region acc p ∨ ∃ poly ∈ l, region poly p) := by
  induction l with
  | nil => intro _ acc; simp
  | cons a rest ih =>
      intro hl acc
      rw [List.foldl_cons,
        ih (fun poly h => hl poly (List.mem_cons_of_mem _ h)) (B.union_ acc a),
        hB.union_points acc a (hl a (List.mem_cons_self _ _)) p]
      simp only [List.mem_cons, exists_eq_or_imp]
      tauto

/-- C17: for every list of polygons and every margin `extension`,
`GetBoundingBox` returns the envelope of the multi-polygon built by the union
loop with the minimum corner lowered and the maximum corner raised by
`extension * M2CM` in x and in y.  Under the contract of Boost's `union_` and
`envelope`, that multi-polygon has exactly the points of the input polygons
(it is their union), and hence, for `extension ≥ 0` (and `M2CM ≥ 0`, it is
100), the box returned holds every vertex of every input polygon. -/
theorem C17_bounding_box (B : BoostGeometry) (polygons : List Polygon) (extension : ℚ) :
    (GetBoundingBox B polygons extension).min_corner =
        ((B.envelope (unionAll B polygons)).min_corner.1 - extension * B.M2CM,
          (B.envelope (unionAll B polygons)).min_corner.2 - extension * B.M2CM) ∧
      (GetBoundingBox B polygons extension).max_corner =
        ((B.envelope (unionAll B polygons)).max_corner.1 + extension * B.M2CM,
          (B.envelope (unionAll B polygons)).max_corner.2 + extension * B.M2CM) ∧
      ∀ region : Polygon → Point → Prop, BoostContract B region polygons →
        (∀ p : Point, multiRegion region (unionAll B polygons) p ↔
          ∃ poly ∈ polygons, region poly p) ∧
        (0 ≤ extension → 0 ≤ B.M2CM →
          ∀ poly ∈ polygons, ∀ v ∈ poly, (GetBoundingBox B polygons extension).contains v) := by
  refine ⟨rfl, rfl, ?_⟩
  intro region hB
  have hunion : ∀ p : Point, multiRegion region (unionAll B polygons) p ↔
      ∃ poly ∈ polygons, region poly p := by
    intro p
    unfold unionAll
    rw [unionLoop_points B region polygons hB p polygons (fun _ h => h) []]
    simp [multiRegion]
  refine ⟨hunion, ?_⟩
  intro he hM poly hp v hv
  have hin : multiRegion region (unionAll B polygons) v :=
    (hunion v).2 ⟨poly, hp, hB.vertex poly hp v hv⟩
  obtain ⟨h1, h2, h3, h4⟩ := hB.envelope_holds (unionAll B polygons) v hin
  have hpos : 0 ≤ extension * B.M2CM := mul_nonneg he hM
  simp only [GetBoundingBox, Box.contains]
  refine ⟨by linarith, by linarith, by linarith, by linarith⟩

/-- The example envelope grows with every point folded in, and holds it. -/
theorem boxOfPoints_fold_contains (rest : List Point) :
    ∀ b : Box,
      (∀ v : Point, b.contains v →
        (rest.foldl
          (fun b q =>
            { min_corner := (min b.min_corner.1 q.1, min b.min_corner.2 q.2),
              max_corner := (max b.max_corner.1 q.1, max b.max_corner.2 q.2) })
          b).contains v) ∧
      (∀ v ∈ rest,
        (rest.foldl
          (fun b q =>
            { min_corner := (min b.min_corner.1 q.1, min b.min_corner.2 q.2),
              max_corner := (max b.max_corner.1 q.1, max b.max_corner.2 q.2) })
          b).contains v) := by
  induction rest with
  | nil => intro b; exact ⟨fun v h => h, fun v h => absurd h (List.not_mem_nil v)⟩
  | cons q rest ih =>
      intro b
      obtain ⟨ih1, ih2⟩ := ih
        { min_corner := (min b.min_corner.1 q.1, min b.min_corner.2 q.2),
          max_corner := (max b.max_corner.1 q.1, max b.max_corner.2 q.2) }
      simp only [List.foldl_cons]
      constructor
      · intro v hv
        apply ih1
        obtain ⟨h1, h2, h3, h4⟩ := hv
        exact ⟨le_trans (min_le_left _ _) h1, le_trans h2 (le_max_left _ _),
          le_trans (min_le_left _ _) h3, le_trans h4 (le_max_left _ _)⟩
      · intro v hv
        rcases List.mem_cons.1 hv with h | h
        · subst h
          apply ih1
          exact ⟨min_le_right _ _, le_max_right _ _, min_le_right _ _, le_max_right _ _⟩
        · exact ih2 v h

/-- The example envelope holds every point it is computed from. -/
theorem boxOfPoints_contains (pts : List Point) (v : Point) (hv : v ∈ pts) :
    (boxOfPoints pts).contains v := by
  cases pts with
  | nil => exact absurd hv (List.not_mem_nil v)
  | cons p rest =>
      obtain ⟨h1, h2⟩ := boxOfPoints_fold_contains rest { min_corner := p, max_corner := p }
      rcases List.mem_cons.1 hv with h | h
      · subst h
        exact h1 v ⟨le_refl _, le_refl _, le_refl _, le_refl _⟩
      · exact h2 v h

theorem unionAll_exampleBoost (polygons : List Polygon) :
    unionAll exampleBoost polygons = polygons := by
  have h : ∀ (l acc : List Polygon),
      l.foldl (fun border poly => exampleBoost.union_ border poly) acc = acc ++ l := by
    intro l
    induction l with
    | nil => intro acc; simp
    | cons a rest ih =>
        intro acc
        rw [List.foldl_cons, ih]
        simp [exampleBoost]
  simpa [unionAll] using h polygons []

/-- In the example instance the envelope of the union holds every vertex of
every polygon. -/
theorem exampleBoost_envelope_contains (polygons : List Polygon) :
    ∀ poly ∈ polygons, ∀ v ∈ poly,
      (exampleBoost.envelope (unionAll exampleBoost polygons)).contains v := by
  intro poly hp v hv
  rw [unionAll_exampleBoost]
  exact boxOfPoints_contains _ v (List.mem_flatten.2 ⟨poly, hp, hv⟩)

/-- The example instance keeps Boost's contract, a polygon being read as the
set of its vertices. -/
theorem exampleBoost_contract (polygons : List Polygon) :
    BoostContract exampleBoost (fun poly p => p ∈ poly) polygons where
  vertex := fun _ _ _ hv => hv
  union_points := by
    intro border poly _ p
    simp only [multiRegion, exampleBoost, List.mem_append, List.mem_singleton]
    constructor
    · rintro ⟨q, hq | hq, hp⟩
      · exact Or.inl ⟨q, hq, hp⟩
      · subst hq
        exact Or.inr hp
    · rintro (⟨q, hq, hp⟩ | hp)
      · exact ⟨q, Or.inl hq, hp⟩
      · exact ⟨poly, Or.inr rfl, hp⟩
  envelope_holds := by
    rintro border p ⟨q, hq, hp⟩
    exact boxOfPoints_contains _ p (List.mem_flatten.2 ⟨q, hq, hp⟩)

/-- C17, instance: the unit square and the square next to it, with a margin
of 10 m: the envelope of their union has the corners (0, 0) and (200, 100),
the box returned the corners (-1000, -1000) and (1200, 1100), and it holds
the vertices of both squares. -/
theorem C17_bounding_box_witness :
    BoostContract exampleBoost (fun poly p => p ∈ poly) [squareRing, farRing] ∧
    (0 : ℚ) ≤ 10 ∧ 0 ≤ exampleBoost.M2CM ∧
    (GetBoundingBox exampleBoost [squareRing, farRing] 10).min_corner = (-1000, -1000) ∧
    (GetBoundingBox exampleBoost [squareRing, farRing] 10).max_corner = (1200, 1100) ∧
    (∀ p : Point, multiRegion (fun poly p => p ∈ poly)
        (unionAll exampleBoost [squareRing, farRing]) p ↔
      ∃ poly ∈ [squareRing, farRing], p ∈ poly) ∧
    ∀ poly ∈ [squareRing, farRing], ∀ v ∈ poly,
      (GetBoundingBox exampleBoost [squareRing, farRing] 10).contains v := by
  have henv : exampleBoost.envelope (unionAll exampleBoost [squareRing, farRing]) =
      { min_corner := (0, 0), max_corner := (200, 100) } := by
    simp [exampleBoost, unionAll, boxOfPoints, squareRing, farRing]
    norm_num
  have h := C17_bounding_box exampleBoost [squareRing, farRing] 10
  have hc := exampleBoost_contract [squareRing, farRing]
  have h3 := h.2.2 (fun poly p => p ∈ poly) hc
  refine ⟨hc, by norm_num, by simp [exampleBoost], ?_, ?_, h3.1,
    h3.2 (by norm_num) (by simp [exampleBoost])⟩
  · rw [h.1, henv]
    simp [exampleBoost]
    norm_num
  · rw [h.2.1, henv]
    simp [exampleBoost]
    norm_num

/-! ## C18: lookups of an id that is not registered -/

theorem GetMeasurementArea_absent (reg : Registry) (id : Int) (h : reg id = none) :
    GetMeasurementArea reg id = Outcome.exitFailure := by
  simp [GetMeasurementArea, h]

theorem GetMeasurementArea_present (reg : Registry) (id : Int) (area : MeasurementArea)
    (h : reg id = some area) : GetMeasurementArea reg id = Outcome.value area := by
  simp [GetMeasurementArea, h]

/-- An unregistered id in the first `measurement_area` element of method H or
of method A ends the parsing in the dereference of a null pointer. -/
theorem parse_unregistered (reg : Registry) (el : MethodAreaElement)
    (rest : List MethodAreaElement) (acc : MethodAreas) (h : reg el.id = none) :
    parseMethodH reg (el :: rest) acc = Outcome.undefinedBehaviour ∧
      parseMethodA reg (el :: rest) acc = Outcome.undefinedBehaviour := by
  simp [parseMethodH, parseMethodA, registeredType, h]

/-- C18 (the code at the failing input): with the areas 1 and 2 registered,
`GetMeasurementArea(7)` ends in `exit(EXIT_FAILURE)` and `GetMeasurementArea(1)`
returns the registered area, but a `measurement_area` element with `id = 7` in
`method_H` (or `method_A`) makes `ParseInifile` evaluate
`_measurementAreasByIDs[7]->_type`: no error is reported and a null pointer is
dereferenced. -/
theorem C18_unregistered_id_in_ParseInifile :
    exampleRegistry 7 = none ∧
      GetMeasurementArea exampleRegistry 7 = Outcome.exitFailure ∧
      GetMeasurementArea exampleRegistry 1 =
        Outcome.value (parseAreaB exampleBoost (-1) twoVertexElement).1 ∧
      parseMethodH exampleRegistry [{ id := 7, frame_interval := FrameInterval.absent }]
        { areaIDs := [], timeIntervals := [] } = Outcome.undefinedBehaviour ∧
      parseMethodA exampleRegistry [{ id := 7, frame_interval := FrameInterval.absent }]
        { areaIDs := [], timeIntervals := [] } = Outcome.undefinedBehaviour := by
  have h7 : exampleRegistry 7 = none := by
    simp [exampleRegistry, Registry.insert, parseAreaB, twoVertexElement, noVertexElement]
  have h1 : exampleRegistry 1 = some (parseAreaB exampleBoost (-1) twoVertexElement).1 := by
    simp [exampleRegistry, Registry.insert, parseAreaB, twoVertexElement, noVertexElement]
  exact ⟨h7, GetMeasurementArea_absent _ _ h7, GetMeasurementArea_present _ _ _ h1,
    (parse_unregistered exampleRegistry _ [] _ h7).1,
    (parse_unregistered exampleRegistry _ [] _ h7).2⟩

/-! ## C19: areas with fewer than three vertices -/

theorem InitArgs_methodH_acc (reg : Registry) (ids : List Int) (areas : List MeasurementArea)
    (h : List.Forall₂ (fun id a => reg id = some a) ids areas) :
    ∀ acc, InitArgs_methodH reg ids acc = Outcome.value (acc ++ areas.map castB) := by
  induction h with
  | nil => intro acc; simp [InitArgs_methodH]
  | cons hreg _ ih =>
      intro acc
      simp [InitArgs_methodH, GetMeasurementArea, hreg, ih]

theorem InitArgs_methodB_acc (reg : Registry) (ids : List Int) (areas : List MeasurementArea)
    (h : List.Forall₂ (fun id a => reg id = some a) ids areas)
    (hB : ∀ a ∈ areas, a.cls = AreaClass.B) :
    ∀ acc, InitArgs_methodB reg ids acc =
      Outcome.value (acc ++ areas.filter (fun a => !a._poly.isEmpty)) := by
  induction h with
  | nil => intro acc; simp [InitArgs_methodB]
  | @cons id a ids areas hreg _ ih =>
      intro acc
      have ha : a.cls = AreaClass.B := hB a (List.mem_cons_self _ _)
      have ih2 := ih (fun b hb => hB b (List.mem_cons_of_mem _ hb))
      by_cases he : a._poly.isEmpty = true
      · simp [InitArgs_methodB, GetMeasurementArea, hreg, castB, ha, he, ih2, List.filter_cons]
      · simp [InitArgs_methodB, GetMeasurementArea, hreg, castB, ha, he, ih2, List.filter_cons]

/-- C19 (as stated, refuted): the area with id 1 has two vertices and the area
with id 2 has none.  Parsing them is not fatal (the first one logs the
warning), but `InitArgs` adds the two-vertex area to the list of method B, and
adds both areas to the list of method H. -/
theorem C19_small_polygons_are_added :
    (parseAreaB exampleBoost (-1) twoVertexElement).1._poly = [(0, 0), (100, 0)] ∧
      (parseAreaB exampleBoost (-1) twoVertexElement).2 = true ∧
      (parseAreaB exampleBoost (-1) noVertexElement).1._poly = [] ∧
      InitArgs_methodB exampleRegistry [1] [] =
        Outcome.value [(parseAreaB exampleBoost (-1) twoVertexElement).1] ∧
      InitArgs_methodH exampleRegistry [1, 2] [] =
        Outcome.value [some (parseAreaB exampleBoost (-1) twoVertexElement).1,
          some (parseAreaB exampleBoost (-1) noVertexElement).1] := by
  have h1 : exampleRegistry 1 = some (parseAreaB exampleBoost (-1) twoVertexElement).1 := by
    simp [exampleRegistry, Registry.insert, parseAreaB, twoVertexElement, noVertexElement]
  have h2 : exampleRegistry 2 = some (parseAreaB exampleBoost (-1) noVertexElement).1 := by
    simp [exampleRegistry, Registry.insert, parseAreaB, twoVertexElement, noVertexElement]
  have p1 : (parseAreaB exampleBoost (-1) twoVertexElement).1._poly = [(0, 0), (100, 0)] := by
    simp [parseAreaB, twoVertexElement, exampleBoost, closeRing]
  have p2 : (parseAreaB exampleBoost (-1) noVertexElement).1._poly = [] := by
    simp [parseAreaB, noVertexElement, exampleBoost, closeRing]
  refine ⟨p1, by simp [parseAreaB, twoVertexElement], p2, ?_, ?_⟩
  · have h := InitArgs_methodB_acc exampleRegistry [1]
      [(parseAreaB exampleBoost (-1) twoVertexElement).1]
      (List.Forall₂.cons h1 List.Forall₂.nil) (by simp [parseAreaB]) []
    rw [h]
    simp [p1]
  · have h := InitArgs_methodH_acc exampleRegistry [1, 2]
      [(parseAreaB exampleBoost (-1) twoVertexElement).1,
        (parseAreaB exampleBoost (-1) noVertexElement).1]
      (List.Forall₂.cons h1 (List.Forall₂.cons h2 List.Forall₂.nil)) []
    rw [h]
    simp [castB, parseAreaB]

/-- C19 (amended): an `area_B` element with fewer than 3 vertices is not a
fatal error: the area is registered, and the warning is logged exactly for 1
or 2 valid vertices.  For registered ids, `InitArgs` adds every area to the
list of method H whatever its polygon, and leaves out of the lists of the
methods B and C exactly the areas whose stored outer ring is empty. -/
theorem C19_only_empty_rings_are_skipped (B : BoostGeometry) (defaultLength : ℚ)
    (el : AreaBElement) (reg : Registry) (ids : List Int) (areas : List MeasurementArea)
    (h : List.Forall₂ (fun id a => reg id = some a) ids areas)
    (hB : ∀ a ∈ areas, a.cls = AreaClass.B) :
    (reg.insert (parseAreaB B defaultLength el).1) el.id =
        some (parseAreaB B defaultLength el).1 ∧
      ((parseAreaB B defaultLength el).2 = true ↔
        0 < (el.vertices.filterMap id).length ∧ (el.vertices.filterMap id).length < 3) ∧
      InitArgs_methodH reg ids [] = Outcome.value (areas.map some) ∧
      InitArgs_methodB reg ids [] =
        Outcome.value (areas.filter (fun a => !a._poly.isEmpty)) ∧
      InitArgs_methodC reg ids [] =
        Outcome.value (areas.filter (fun a => !a._poly.isEmpty)) := by
  have hH := InitArgs_methodH_acc reg ids areas h []
  have hb := InitArgs_methodB_acc reg ids areas h hB []
  have hmap : areas.map castB = areas.map some := by
    apply List.map_congr_left
    intro a ha
    simp [castB, hB a ha]
  have hlen : (List.filterMap
      (fun v : Option Point => v.map (fun p => (p.1 * B.M2CM, p.2 * B.M2CM))) el.vertices).length =
      (el.vertices.filterMap id).length := by
    induction el.vertices with
    | nil => rfl
    | cons v rest ih => cases v <;> simp [List.filterMap_cons, ih]
  refine ⟨by simp [Registry.insert, parseAreaB], ?_, ?_, ?_, ?_⟩
  · simp only [parseAreaB, hlen, decide_eq_true_eq]
    constructor
    · intro h; exact ⟨h.2, h.1⟩
    · intro h; exact ⟨h.2, h.1⟩
  · simpa [hmap] using hH
  · simpa using hb
  · simpa [InitArgs_methodC] using hb

/-- C19 (amended), instance: the two areas of the example registry. -/
theorem C19_only_empty_rings_are_skipped_witness :
    InitArgs_methodH exampleRegistry [1, 2] [] =
        Outcome.value ([(parseAreaB exampleBoost (-1) twoVertexElement).1,
          (parseAreaB exampleBoost (-1) noVertexElement).1].map some) ∧
      InitArgs_methodB exampleRegistry [1, 2] [] =
        Outcome.value ([(parseAreaB exampleBoost (-1) twoVertexElement).1,
          (parseAreaB exampleBoost (-1) noVertexElement).1].filter
            (fun a => !a._poly.isEmpty)) := by
  have h1 : exampleRegistry 1 = some (parseAreaB exampleBoost (-1) twoVertexElement).1 := by
    simp [exampleRegistry, Registry.insert, parseAreaB, twoVertexElement, noVertexElement]
  have h2 : exampleRegistry 2 = some (parseAreaB exampleBoost (-1) noVertexElement).1 := by
    simp [exampleRegistry, Registry.insert, parseAreaB, twoVertexElement, noVertexElement]
  have h := C19_only_empty_rings_are_skipped exampleBoost (-1) twoVertexElement exampleRegistry
    [1, 2] [(parseAreaB exampleBoost (-1) twoVertexElement).1,
      (parseAreaB exampleBoost (-1) noVertexElement).1]
    (List.Forall₂.cons h1 (List.Forall₂.cons h2 List.Forall₂.nil)) (by simp [parseAreaB])
  exact ⟨h.2.2.1, h.2.2.2.1⟩

/-! ## C20: an area without a length in movement direction -/

/-- No call of `Process` returns `false`: it returns `true` or ends the program. -/
theorem Process_never_returns_false (E : Extern) (fileOpens : Bool) (_length : ℚ)
    (deltaT : Int) (peddata : PedData) (fuel : Nat) (rows : List Row) :
    Process E fileOpens _length deltaT peddata fuel ≠ ProcessResult.returned false rows := by
  unfold Process
  simp only
  split_ifs
  · simp
  · simp
  · split <;> simp

/-- For an area whose length is negative `Process` ends the program. -/
theorem Process_exits_without_length (E : Extern) (fileOpens : Bool) (_length : ℚ)
    (deltaT : Int) (peddata : PedData) (fuel : Nat) (h : _length < 0) :
    Process E fileOpens _length deltaT peddata fuel = ProcessResult.exitFailure := by
  unfold Process
  cases fileOpens <;> simp [h]

/-- The run of `Process` on the example trajectory for an area of length 8
and windows of 2 frames. -/
theorem Process_examplePedData :
    Process exampleExtern true 8 2 examplePedData 1 =
      ProcessResult.returned true
        [{ flow := Dbl.fin (1 / 4), density := Dbl.fin (1 / 8), velocity := Dbl.fin 2 }] := by
  have hd : GetTinToutEntExt exampleExtern examplePedData.GetNumPeds
      examplePedData.GetPedIDsByFrameNr examplePedData.GetXCor examplePedData.GetYCor
      examplePedData.GetNumFrames = Detector.init 1 := by
    simp [GetTinToutEntExt, detectFrame, detectStep, examplePedData, exampleExtern, List.range,
      List.range.loop, Detector.init]
  have hw : ∀ xCor yCor, windowSums exampleExtern
      { _numPeds := 1, _deltaT := 2, _fps := 16, _dx := 8, _tIn := [0], _tOut := [0],
        _xCor := fun _ frameNr => 1000 + 25 * (frameNr : ℚ) / 2, _yCor := fun _ _ => 0 }
        xCor yCor 0 =
      { sumTime := Dbl.fin (1 / 8), sumDistance := Dbl.fin (1 / 4) } := by
    intro xCor yCor
    simp [windowSums, List.range, List.range.loop, pedBody, overlapTest, branch, exampleExtern,
      Dbl.add, Dbl.div, Dbl.ofInt]
    norm_num
  simp only [Process, hd]
  simp only [Detector.init, examplePedData, OutputRhoVFlow, windowLoop, windowRow,
    List.replicate, hw]
  simp [rowOf, Dbl.div, Dbl.mul, Dbl.ofInt]
  norm_num

/-- C20 (as stated, refuted): Method H on three areas (unit squares with the
ids 1, 2, 3; every sample of the example trajectory lies outside them) of
which the second has no length assigned (`_length = -1`).  The first area is
processed, then `Process` ends the program with `exit(EXIT_FAILURE)`: it does
not return `false`, and the third area is never processed. -/
theorem C20_exit_ends_the_run :
    RunAnalysis_methodH (fun _ => exampleExtern) (fun _ => true) true
        [some (squareArea 1 8), some (squareArea 2 (-1)), some (squareArea 3 8)] [2, 2, 2]
        examplePedData 1 =
      RunResult.exitFailure
        [{ id := 1, result := true,
           rows := [{ flow := Dbl.fin (1 / 4), density := Dbl.fin (1 / 8),
                      velocity := Dbl.fin 2 }] }] := by
  have h2 := Process_exits_without_length exampleExtern true (-1) 2 examplePedData 1
    (by norm_num)
  simp [RunAnalysis_methodH, methodHLoop, squareArea, Process_examplePedData, h2]

/-- C20 (amended): when the loop over the areas of Method H reaches an area
that has no length in movement direction assigned (`_length < 0`), `Process`
ends the whole program with `exit(EXIT_FAILURE)`: the areas processed before
keep their results, that area and all the areas after it get none.  `Process`
never returns `false`. -/
theorem C20_missing_length_ends_program (env : MeasurementArea → Extern)
    (fileOpens : Int → Bool) (_deltaTMethodH : List Int) (data : PedData) (fuel i : Nat)
    (area : MeasurementArea) (rest : List (Option MeasurementArea)) (done : List AreaResult)
    (deltaT : Int) (hlen : area._length < 0) (hdt : _deltaTMethodH[i]? = some deltaT) :
    methodHLoop env fileOpens _deltaTMethodH data fuel i (some area :: rest) done =
        RunResult.exitFailure done ∧
      ∀ (E : Extern) (opens : Bool) (len : ℚ) (dT : Int) (rows : List Row),
        Process E opens len dT data fuel ≠ ProcessResult.returned false rows := by
  constructor
  · simp [methodHLoop, hdt,
      Process_exits_without_length (env area) (fileOpens area._id) area._length deltaT data fuel
        hlen]
  · intro E opens len dT rows
    exact Process_never_returns_false E opens len dT data fuel rows

/-- C20 (amended), instance: the loop at the second of three areas. -/
theorem C20_missing_length_ends_program_witness :
    (squareArea 2 (-1))._length < 0 ∧ ([2, 2, 2] : List Int)[1]? = some 2 ∧
    methodHLoop (fun _ => exampleExtern) (fun _ => true) [2, 2, 2] examplePedData 1 1
        (some (squareArea 2 (-1)) :: [some (squareArea 3 8)]) [] =
      RunResult.exitFailure [] :=
  ⟨by simp [squareArea], by decide,
    (C20_missing_length_ends_program (fun _ => exampleExtern) (fun _ => true) [2, 2, 2]
      examplePedData 1 1 (squareArea 2 (-1)) [some (squareArea 3 8)] [] 2
      (by simp [squareArea]) (by decide)).1⟩

/-! ## C21, C22: an enabled method without areas, and the exit status -/

/-- A block never makes `RunAnalysis` return: it is left, or the run ends with
`exit` or inside a loop. -/
theorem methodLoop_not_returned (b : MethodBlock) (is : List Nat) :
    ∀ (log : List LogLine) (status : ExitStatus) (log2 : List LogLine),
      methodLoop b is log ≠ Except.error (RunEnd.returned status log2) := by
  induction is with
  | nil => intro log status log2 h; simp [methodLoop] at h
  | cons i rest ih =>
      intro log status log2 h
      simp only [methodLoop] at h
      cases hp : b.Process i with
      | exitFailure => rw [hp] at h; simp at h
      | running => rw [hp] at h; simp at h
      | returned result rows =>
          rw [hp] at h
          exact ih _ status log2 h

theorem methodBlock_not_returned (b : MethodBlock) (log : List LogLine) (status : ExitStatus)
    (log2 : List LogLine) :
    methodBlock b log ≠ Except.error (RunEnd.returned status log2) := by
  intro hb
  unfold methodBlock at hb
  split_ifs at hb
  · simp at hb
  · exact methodLoop_not_returned b _ _ _ _ hb

/-- Blocks that have been left normally are followed by the next ones. -/
theorem runBlocks_append (pre rest : List MethodBlock) (status : ExitStatus)
    (log : List LogLine) :
    ∀ log0 : List LogLine, runBlocks pre log0 = RunEnd.returned status log →
      runBlocks (pre ++ rest) log0 = runBlocks rest log := by
  induction pre with
  | nil =>
      intro log0 h
      simp only [runBlocks, RunEnd.returned.injEq] at h
      simp [h.2]
  | cons b pre ih =>
      intro log0 h
      simp only [runBlocks, List.cons_append] at h ⊢
      cases hb : methodBlock b log0 with
      | ok log2 =>
          rw [hb] at h
          exact ih log2 h
      | error e =>
          rw [hb] at h
          simp only at h
          subst h
          exact absurd hb (methodBlock_not_returned b log0 status log)

/-- When the trajectory file has been read, `RunAnalysis` returns 0 if it
returns at all. -/
theorem runBlocks_status (blocks : List MethodBlock) :
    ∀ (log0 : List LogLine) (status : ExitStatus) (log : List LogLine),
      runBlocks blocks log0 = RunEnd.returned status log →
        status = ExitStatus.EXIT_SUCCESS := by
  induction blocks with
  | nil =>
      intro log0 status log h
      simp only [runBlocks, RunEnd.returned.injEq] at h
      exact h.1.symm
  | cons b rest ih =>
      intro log0 status log h
      simp only [runBlocks] at h
      cases hb : methodBlock b log0 with
      | ok log2 =>
          rw [hb] at h
          exact ih log2 status log h
      | error e =>
          rw [hb] at h
          simp only at h
          subst h
          exact absurd hb (methodBlock_not_returned b log0 status log)

/-- C21 (as stated, refuted): method A is enabled without a measurement area,
method H is enabled with one area.  `RunAnalysis` logs the error for method A
and ends the program with `exit(EXIT_FAILURE)`; method H, which succeeds when
it is the only method, is not run. -/
theorem C21_remaining_methods_are_not_run :
    RunAnalysis true [emptyBlock "A", exampleBlockH] =
        RunEnd.exited [LogLine.noMeasurementArea "A"] ∧
      RunAnalysis true [exampleBlockH] =
        RunEnd.returned ExitStatus.EXIT_SUCCESS [LogLine.success "H" 0] := by
  constructor
  · simp [RunAnalysis, runBlocks, methodBlock, emptyBlock]
  · simp [RunAnalysis, runBlocks, methodBlock, methodLoop, exampleBlockH, List.range,
      List.range.loop, Process_examplePedData]

/-- C21 (amended): when `RunAnalysis` reaches the block of an enabled method
whose list of measurement areas is empty (the blocks `pre` before it have been
left normally), it logs the error for that method and ends the program with
`exit(EXIT_FAILURE)`: nothing of the blocks `post` after it is run. -/
theorem C21_empty_area_list_ends_program (pre post : List MethodBlock) (b : MethodBlock)
    (status : ExitStatus) (log : List LogLine)
    (hpre : RunAnalysis true pre = RunEnd.returned status log)
    (hb : b._DoesUseMethod = true) (he : b.areas = 0) :
    RunAnalysis true (pre ++ b :: post) =
      RunEnd.exited (log ++ [LogLine.noMeasurementArea b.method]) := by
  simp only [RunAnalysis, Bool.true_eq_false, if_false] at hpre ⊢
  rw [runBlocks_append pre (b :: post) status log [] hpre]
  simp [runBlocks, methodBlock, hb, he]

theorem C21_empty_area_list_ends_program_witness :
    RunAnalysis true [failingBlockB] =
        RunEnd.returned ExitStatus.EXIT_SUCCESS [LogLine.failed "B" 0] ∧
      RunAnalysis true ([failingBlockB] ++ emptyBlock "C" :: [exampleBlockH]) =
        RunEnd.exited
          ([LogLine.failed "B" 0] ++ [LogLine.noMeasurementArea (emptyBlock "C").method]) :=
  ⟨by simp [RunAnalysis, runBlocks, methodBlock, methodLoop, failingBlockB, List.range,
      List.range.loop],
    C21_empty_area_list_ends_program [failingBlockB] [exampleBlockH] (emptyBlock "C")
      ExitStatus.EXIT_SUCCESS [LogLine.failed "B" 0]
      (by simp [RunAnalysis, runBlocks, methodBlock, methodLoop, failingBlockB, List.range,
        List.range.loop])
      rfl rfl⟩

theorem mainLoop_status (files : List FileRun) (status : ExitStatus)
    (h : mainLoop files = MainEnd.returned status) :
    status = ExitStatus.EXIT_FAILURE ↔ ∃ f ∈ files, f.InitArgs = InitEnd.throws := by
  induction files with
  | nil =>
      simp only [mainLoop, MainEnd.returned.injEq] at h
      subst h
      simp
  | cons f rest ih =>
      simp only [mainLoop] at h
      cases hi : f.InitArgs with
      | throws =>
          rw [hi] at h
          simp only [MainEnd.returned.injEq] at h
          subst h
          simp [hi]
      | exits => rw [hi] at h; simp at h
      | returns =>
          rw [hi] at h
          simp only at h
          cases hr : RunAnalysis f.readData f.blocks with
          | returned s l =>
              rw [hr] at h
              simp only at h
              rw [ih h]
              simp [hi]
          | exited l => rw [hr] at h; simp at h
          | running l => rw [hr] at h; simp at h

/-- C22 (as stated, refuted): one trajectory file, method B with one area for
which `Process` returns `false`: `RunAnalysis` logs the failure and returns 0,
and `main` returns `EXIT_SUCCESS`.  When the trajectory file cannot be read,
`RunAnalysis` returns `EXIT_FAILURE` and `main` still returns `EXIT_SUCCESS`. -/
theorem C22_failure_is_not_reported :
    RunAnalysis true [failingBlockB] =
        RunEnd.returned ExitStatus.EXIT_SUCCESS [LogLine.failed "B" 0] ∧
      main true [{ InitArgs := InitEnd.returns, readData := true, blocks := [failingBlockB] }] =
        MainEnd.returned ExitStatus.EXIT_SUCCESS ∧
      RunAnalysis false [exampleBlockH] =
        RunEnd.returned ExitStatus.EXIT_FAILURE [LogLine.couldNotParse] ∧
      main true [{ InitArgs := InitEnd.returns, readData := false, blocks := [exampleBlockH] }] =
        MainEnd.returned ExitStatus.EXIT_SUCCESS := by
  refine ⟨?_, ?_, ?_, ?_⟩
  · simp [RunAnalysis, runBlocks, methodBlock, methodLoop, failingBlockB, List.range,
      List.range.loop]
  · simp [main, mainLoop, RunAnalysis, runBlocks, methodBlock, methodLoop, failingBlockB,
      List.range, List.range.loop]
  · simp [RunAnalysis]
  · simp [main, mainLoop, RunAnalysis]

/-- C22 (amended): when `main` returns, it returns `EXIT_FAILURE` exactly when
`InitArgs` has thrown an exception for one of the files, and `EXIT_SUCCESS`
otherwise, whatever `RunAnalysis` returned and whatever `Process` reported for
the regions; and `RunAnalysis`, once the trajectory file has been read,
returns 0 whenever it returns. -/
theorem C22_status_of_main (ParseArgs : Bool) (files : List FileRun) (status : ExitStatus)
    (h : main ParseArgs files = MainEnd.returned status) :
    (status = ExitStatus.EXIT_FAILURE ↔
        ParseArgs = true ∧ ∃ f ∈ files, f.InitArgs = InitEnd.throws) ∧
      ∀ (blocks : List MethodBlock) (s : ExitStatus) (log : List LogLine),
        RunAnalysis true blocks = RunEnd.returned s log → s = ExitStatus.EXIT_SUCCESS := by
  constructor
  · unfold main at h
    cases ParseArgs with
    | false =>
        simp only [Bool.false_eq_true, if_false, MainEnd.returned.injEq] at h
        subst h
        simp
    | true =>
        simp only [if_true] at h
        rw [mainLoop_status files status h]
        simp
  · intro blocks s log hr
    simp only [RunAnalysis, Bool.true_eq_false, if_false] at hr
    exact runBlocks_status blocks [] s log hr

theorem C22_status_of_main_witness :
    main true [{ InitArgs := InitEnd.returns, readData := true, blocks := [failingBlockB] },
        { InitArgs := InitEnd.throws, readData := true, blocks := [exampleBlockH] }] =
        MainEnd.returned ExitStatus.EXIT_FAILURE ∧
      ((ExitStatus.EXIT_FAILURE = ExitStatus.EXIT_FAILURE ↔
          true = true ∧
            ∃ f ∈ [({ InitArgs := InitEnd.returns, readData := true,
                      blocks := [failingBlockB] } : FileRun),
                { InitArgs := InitEnd.throws, readData := true, blocks := [exampleBlockH] }],
              f.InitArgs = InitEnd.throws) ∧
        ∀ (blocks : List MethodBlock) (s : ExitStatus) (log : List LogLine),
          RunAnalysis true blocks = RunEnd.returned s log → s = ExitStatus.EXIT_SUCCESS) :=
  ⟨by simp [main, mainLoop, RunAnalysis, runBlocks, methodBlock, methodLoop, failingBlockB,
      List.range, List.range.loop],
    C22_status_of_main true _ ExitStatus.EXIT_FAILURE
      (by simp [main, mainLoop, RunAnalysis, runBlocks, methodBlock, methodLoop, failingBlockB,
        List.range, List.range.loop])⟩

/-! ## C23: samples on the boundary -/

/-- The record of `ID` after an iteration of variant 4 for `ID`. -/
theorem variantSwitch_four_record (G : VariantEnv) (numFrames : Int) (frameNr : Nat)
    (s : Variants) (ID : Nat) (x y nextX nextY : Int) (n : Nat)
    (hs : s.sized n) (hID : ID < n) :
    (variantSwitch G numFrames 4 frameNr s ID x y nextX nextY).record ID =
      if G.covered_by x y && !(s.record ID).inside &&
          !(decide (nextX = 0) && decide (nextY = 0)) then
        { s.record ID with tIn := frameNr, inside := true }
      else if !G.within x y && (s.record ID).inside then
        { s.record ID with tOut := frameNr, inside := false }
      else s.record ID := by
  obtain ⟨h1, h2, h3⟩ := hs
  have l1 : ID < s.IsinMeasurezone.length := by omega
  have l2 : ID < s.tIn.length := by omega
  have l3 : ID < s.tOut.length := by omega
  simp only [variantSwitch, Variants.record, List.getD_eq_getElem?_getD]
  split_ifs <;>
    simp [Variants.enter, Variants.leave, List.getElem?_set_self l1, List.getElem?_set_self l2,
      List.getElem?_set_self l3]

/-- C23 (as stated, refuted): the walk `boundaryX` along y = 50 is on the
boundary or in the interior of the unit square on the frames 1 to 4.  Both
Method H and variant 4 record an exit at frame 3, where the sample lies on the
right edge (after four frames `tOut = 3` and the flag is cleared), and a
second entrance at frame 4: the run ends with `tIn = 4`, `tOut = 5`. -/
theorem C23_boundary_sample_is_an_exit :
    (GetTinToutEntExt squareExtern 1 (fun _ => [0]) (tableOf boundaryX) (tableOf midY) 4).record 0
        = { tIn := 1, tOut := 3, inside := false } ∧
      (GetTinToutEntExt squareExtern 1 (fun _ => [0]) (tableOf boundaryX) (tableOf midY)
          6).record 0 = { tIn := 4, tOut := 5, inside := false } ∧
      (runVariant (squareGeometry squareRing) (fun _ => [0]) (tableOf boundaryX) (tableOf midY)
          4 1 4).record 0 = { tIn := 1, tOut := 3, inside := false } ∧
      GetTinTout (squareGeometry squareRing) (fun _ => [0]) (tableOf boundaryX) (tableOf midY)
          6 1 4 = ([4], [5]) := by
  refine ⟨?_, ?_, ?_, ?_⟩
  · simp [GetTinToutEntExt, detectFrame, detectStep, List.range, List.range.loop,
      truncate_tableOf, boundaryX, midY, squareExtern, Detector.init, Detector.record]
  · simp [GetTinToutEntExt, detectFrame, detectStep, List.range, List.range.loop,
      truncate_tableOf, boundaryX, midY, squareExtern, Detector.init, Detector.record]
  · simp [runVariant, variantFrame, variantStep, variantSwitch, List.range, List.range.loop,
      truncate_tableOf, boundaryX, midY, squareGeometry, Variants.init, Variants.record,
      Variants.enter, Variants.leave]
  · simp [GetTinTout, runVariant, variantFrame, variantStep, variantSwitch, List.range,
      List.range.loop, truncate_tableOf, boundaryX, midY, squareGeometry, Variants.init,
      Variants.enter, Variants.leave]

/-- C23 (amended): in `GetTinToutEntExt` and in variant 4 of `GetTinTout`, a
current sample on the boundary of the area (`covered_by` holds, `within` does
not) counts as inside for the entrance test only.  A pedestrian who is not
flagged is flagged with `tIn = frameNr` (in variant 4 when the next sample is
not `(0, 0)`); a pedestrian who is flagged as inside gets `tOut = frameNr` and
is no longer flagged. -/
theorem C23_boundary_sample_toggles (E : Extern) (G : VariantEnv) (xCor yCor : Table)
    (numFrames : Int) (frameNr ID n : Nat) (d : Detector) (s : Variants) (x y nextX nextY : Int)
    (hd : d.sized n) (hs : s.sized n) (hID : ID < n)
    (hx : truncate (xCor ID frameNr) = x) (hy : truncate (yCor ID frameNr) = y)
    (hE : E.within x y = false ∧ E.covered_by x y = true)
    (hG : G.within x y = false ∧ G.covered_by x y = true) :
    (detectStep E xCor yCor frameNr d ID).record ID =
        (if (d.record ID).inside then { d.record ID with tOut := frameNr, inside := false }
         else { d.record ID with tIn := frameNr, inside := true }) ∧
      ((s.record ID).inside = true →
        (variantSwitch G numFrames 4 frameNr s ID x y nextX nextY).record ID =
          { s.record ID with tOut := frameNr, inside := false }) ∧
      ((s.record ID).inside = false → ¬ (nextX = 0 ∧ nextY = 0) →
        (variantSwitch G numFrames 4 frameNr s ID x y nextX nextY).record ID =
          { s.record ID with tIn := frameNr, inside := true }) := by
  refine ⟨?_, ?_, ?_⟩
  · rw [detectStep_record_self E xCor yCor frameNr d ID n hd hID, hx, hy, hE.1, hE.2]
    cases hi : (d.record ID).inside <;> simp [recordStep, hi]
  · intro hi
    rw [variantSwitch_four_record G numFrames frameNr s ID x y nextX nextY n hs hID]
    simp [hG.1, hG.2, hi]
  · intro hi hnz
    have hz : (decide (nextX = 0) && decide (nextY = 0)) = false := by simpa using hnz
    rw [variantSwitch_four_record G numFrames frameNr s ID x y nextX nextY n hs hID]
    simp [hG.2, hi, hz]

theorem C23_boundary_sample_toggles_witness :
    flaggedDetector.sized 1 ∧ flaggedVariants.sized 1 ∧ 0 < 1 ∧
      truncate (tableOf boundaryX 0 3) = 100 ∧ truncate (tableOf midY 0 3) = 50 ∧
      (squareExtern.within 100 50 = false ∧ squareExtern.covered_by 100 50 = true) ∧
      ((squareGeometry squareRing).within 100 50 = false ∧
        (squareGeometry squareRing).covered_by 100 50 = true) ∧
      ((detectStep squareExtern (tableOf boundaryX) (tableOf midY) 3 flaggedDetector 0).record 0 =
          (if (flaggedDetector.record 0).inside then
            { flaggedDetector.record 0 with tOut := ((3 : Nat) : Int), inside := false }
           else { flaggedDetector.record 0 with tIn := ((3 : Nat) : Int), inside := true }) ∧
        ((flaggedVariants.record 0).inside = true →
          (variantSwitch (squareGeometry squareRing) 6 4 3 flaggedVariants 0 100 50 50 50).record 0
            = { flaggedVariants.record 0 with tOut := ((3 : Nat) : Int), inside := false }) ∧
        ((flaggedVariants.record 0).inside = false → ¬ ((50 : Int) = 0 ∧ (50 : Int) = 0) →
          (variantSwitch (squareGeometry squareRing) 6 4 3 flaggedVariants 0 100 50 50 50).record 0
            = { flaggedVariants.record 0 with tIn := ((3 : Nat) : Int), inside := true })) :=
  ⟨by simp [Detector.sized, flaggedDetector, Detector.init],
    by simp [Variants.sized, flaggedVariants, Variants.init, Variants.enter],
    by decide,
    by simp [truncate_tableOf, boundaryX], by simp [truncate_tableOf, midY],
    by simp [squareExtern], by simp [squareGeometry],
    C23_boundary_sample_toggles squareExtern (squareGeometry squareRing) (tableOf boundaryX)
      (tableOf midY) 6 3 0 1 flaggedDetector flaggedVariants 100 50 50 50
      (by simp [Detector.sized, flaggedDetector, Detector.init])
      (by simp [Variants.sized, flaggedVariants, Variants.init, Variants.enter])
      (by decide)
      (by simp [truncate_tableOf, boundaryX]) (by simp [truncate_tableOf, midY])
      (by simp [squareExtern]) (by simp [squareGeometry])⟩

/-! ## The record of one pedestrian in the variants 1 to 6 -/

/-- In the variants 1 to 6 an iteration for `ID` changes its record as
`variantRecordStep` says. -/
theorem variantSwitch_record_self (G : VariantEnv) (numFrames : Int) (variant frameNr : Nat)
    (s : Variants) (ID : Nat) (x y nextX nextY : Int) (n : Nat)
    (hs : s.sized n) (hID : ID < n) (hv : variant ≤ 6) :
    (variantSwitch G numFrames variant frameNr s ID x y nextX nextY).record ID =
      variantRecordStep variant (decide ((frameNr : Int) + 1 < numFrames))
        (decide (nextX = 0) && decide (nextY = 0))
        (G.within x y) (G.covered_by x y) (G.within nextX nextY) (G.covered_by nextX nextY)
        frameNr (s.record ID) := by
  obtain ⟨h1, h2, h3⟩ := hs
  have l1 : ID < s.IsinMeasurezone.length := by omega
  have l2 : ID < s.tIn.length := by omega
  have l3 : ID < s.tOut.length := by omega
  interval_cases variant <;>
    simp only [variantSwitch, variantRecordStep, Variants.record, List.getD_eq_getElem?_getD] <;>
    (try split_ifs) <;>
    simp [Variants.enter, Variants.leave, List.getElem?_set_self l1, List.getElem?_set_self l2,
      List.getElem?_set_self l3]

theorem variantStep_record_self (G : VariantEnv) (xCor yCor : Table) (numFrames : Int)
    (variant frameNr : Nat) (s : Variants) (ID n : Nat)
    (hs : s.sized n) (hID : ID < n) (hv : variant ≤ 6) :
    (variantStep G xCor yCor numFrames variant frameNr s ID).record ID =
      ownStep G xCor yCor numFrames variant ID frameNr (s.record ID) := by
  unfold variantStep ownStep samplesAt
  exact variantSwitch_record_self G numFrames variant frameNr s ID _ _ _ _ n hs hID hv

/-- The iterations of one frame of a variant 1 to 6 change the record of `ID`
by as many own steps as `ID` is listed in the frame. -/
theorem variantFrame_record (G : VariantEnv) (xCor yCor : Table) (numFrames : Int)
    (variant frameNr ID n : Nat) (hID : ID < n) (hv : variant ≤ 6) (ids : List Nat) :
    ∀ s : Variants, s.sized n →
      (ids.foldl (variantStep G xCor yCor numFrames variant frameNr) s).sized n ∧
      (ids.foldl (variantStep G xCor yCor numFrames variant frameNr) s).record ID =
        (ownStep G xCor yCor numFrames variant ID frameNr)^[ids.count ID] (s.record ID) := by
  induction ids with
  | nil => intro s hs; exact ⟨hs, rfl⟩
  | cons a rest ih =>
      intro s hs
      simp only [List.foldl_cons]
      have hs2 : (variantStep G xCor yCor numFrames variant frameNr s a).sized n :=
        variantSwitch_sized G numFrames variant frameNr s a _ _ _ _ n hs
      obtain ⟨ih1, ih2⟩ := ih _ hs2
      refine ⟨ih1, ?_⟩
      rw [ih2]
      by_cases ha : a = ID
      · subst ha
        rw [variantStep_record_self G xCor yCor numFrames variant frameNr s a n hs hID hv]
        simp [List.count_cons_self, Function.iterate_succ_apply]
      · have hne : (a == ID) = false := by simpa using ha
        have hr : (variantStep G xCor yCor numFrames variant frameNr s a).record ID =
            s.record ID :=
          variantSwitch_record_other G numFrames variant frameNr s ID a _ _ _ _ ha
        rw [hr, List.count_cons, hne]
        simp

/-- In the variants 1 to 6 the record of a pedestrian after the frames
`0 .. n - 1` is the one of `ownRun`, which reads only the samples of that
pedestrian and the number of times it is listed in each frame. -/
theorem runVariant_record (G : VariantEnv) (peds_t : Nat → List Nat) (xCor yCor : Table)
    (numFrames : Int) (numPeds variant ID : Nat) (hID : ID < numPeds) (hv : variant ≤ 6)
    (n : Nat) :
    ((List.range n).foldl (variantFrame G peds_t xCor yCor numFrames variant)
        (Variants.init G numPeds)).sized numPeds ∧
      ((List.range n).foldl (variantFrame G peds_t xCor yCor numFrames variant)
        (Variants.init G numPeds)).record ID =
        ownRun G xCor yCor numFrames variant ID (fun frameNr => (peds_t frameNr).count ID) n := by
  induction n with
  | zero =>
      exact ⟨variants_sized_init G numPeds, by
        simp [ownRun, variants_record_init]⟩
  | succ n ih =>
      obtain ⟨ih1, ih2⟩ := ih
      have h := variantFrame_record G xCor yCor numFrames variant n ID numPeds hID hv
        (peds_t n) _ ih1
      have e1 : (List.range (n + 1)).foldl (variantFrame G peds_t xCor yCor numFrames variant)
          (Variants.init G numPeds) =
          (peds_t n).foldl (variantStep G xCor yCor numFrames variant n)
            ((List.range n).foldl (variantFrame G peds_t xCor yCor numFrames variant)
              (Variants.init G numPeds)) := by
        simp [List.range_succ, List.foldl_append, variantFrame]
      have e2 : ownRun G xCor yCor numFrames variant ID
          (fun frameNr => (peds_t frameNr).count ID) (n + 1) =
          (ownStep G xCor yCor numFrames variant ID n)^[(peds_t n).count ID]
            (ownRun G xCor yCor numFrames variant ID
              (fun frameNr => (peds_t frameNr).count ID) n) := by
        simp [ownRun, List.range_succ, List.foldl_append]
      rw [e1, e2, ← ih2]
      exact h

theorem variantRecordStep_stay_one (f0 f1 n : Nat) (h0 : 1 ≤ f0) (h01 : f0 ≤ f1) :
    variantRecordStep 1 true false
        (decide (f0 ≤ n ∧ n ≤ f1)) (decide (f0 ≤ n ∧ n ≤ f1))
        (decide (f0 ≤ n + 1 ∧ n + 1 ≤ f1)) (decide (f0 ≤ n + 1 ∧ n + 1 ≤ f1)) n
        (stayRecord 1 f0 f1 n) = stayRecord 1 f0 f1 (n + 1) := by
  have hpos : n + 1 < f0 ∨ n + 1 = f0 ∨ (n = f0 ∧ n < f1) ∨ (f0 < n ∧ n < f1) ∨
      (n = f1 ∧ f0 < f1) ∨ (n = f1 ∧ f0 = f1) ∨ n = f1 + 1 ∨ f1 + 2 ≤ n := by
    omega
  have hb : f0 < f1 ∨ f0 = f1 := by omega
  rcases hb with b | b <;> rcases hpos with a | a | a | a | a | a | a | a <;>
    simp (disch := omega) only [variantRecordStep, stayRecord, enterAt, exitAt, if_pos, if_neg,
      decide_eq_true, decide_eq_false, Bool.and_true, Bool.and_false, Bool.not_true,
      Bool.not_false, Bool.true_and, Bool.false_and, Bool.false_eq_true, if_false, if_true] <;>
    (try simp only [PedRecord.mk.injEq, true_and, and_true]) <;>
    (try omega)

theorem variantRecordStep_stay_two (f0 f1 n : Nat) (h0 : 1 ≤ f0) (h01 : f0 ≤ f1) :
    variantRecordStep 2 true false
        (decide (f0 ≤ n ∧ n ≤ f1)) (decide (f0 ≤ n ∧ n ≤ f1))
        (decide (f0 ≤ n + 1 ∧ n + 1 ≤ f1)) (decide (f0 ≤ n + 1 ∧ n + 1 ≤ f1)) n
        (stayRecord 2 f0 f1 n) = stayRecord 2 f0 f1 (n + 1) := by
  have hpos : n + 1 < f0 ∨ n + 1 = f0 ∨ (n = f0 ∧ n < f1) ∨ (f0 < n ∧ n < f1) ∨
      (n = f1 ∧ f0 < f1) ∨ (n = f1 ∧ f0 = f1) ∨ n = f1 + 1 ∨ f1 + 2 ≤ n := by
    omega
  have hb : f0 < f1 ∨ f0 = f1 := by omega
  rcases hb with b | b <;> rcases hpos with a | a | a | a | a | a | a | a <;>
    simp (disch := omega) only [variantRecordStep, stayRecord, enterAt, exitAt, if_pos, if_neg,
      decide_eq_true, decide_eq_false, Bool.and_true, Bool.and_false, Bool.not_true,
      Bool.not_false, Bool.true_and, Bool.false_and, Bool.false_eq_true, if_false, if_true] <;>
    (try simp only [PedRecord.mk.injEq, true_and, and_true]) <;>
    (try omega)

theorem variantRecordStep_stay_three (f0 f1 n : Nat) (h01 : f0 ≤ f1) :
    variantRecordStep 3 true false
        (decide (f0 ≤ n ∧ n ≤ f1)) (decide (f0 ≤ n ∧ n ≤ f1))
        (decide (f0 ≤ n + 1 ∧ n + 1 ≤ f1)) (decide (f0 ≤ n + 1 ∧ n + 1 ≤ f1)) n
        (stayRecord 3 f0 f1 n) = stayRecord 3 f0 f1 (n + 1) := by
  have hpos : n + 1 < f0 ∨ n + 1 = f0 ∨ (n = f0 ∧ n < f1) ∨ (f0 < n ∧ n < f1) ∨
      (n = f1 ∧ f0 < f1) ∨ (n = f1 ∧ f0 = f1) ∨ n = f1 + 1 ∨ f1 + 2 ≤ n := by
    omega
  have hb : f0 < f1 ∨ f0 = f1 := by omega
  rcases hb with b | b <;> rcases hpos with a | a | a | a | a | a | a | a <;>
    simp (disch := omega) only [variantRecordStep, stayRecord, enterAt, exitAt, if_pos, if_neg,
      decide_eq_true, decide_eq_false, Bool.and_true, Bool.and_false, Bool.not_true,
      Bool.not_false, Bool.true_and, Bool.false_and, Bool.false_eq_true, if_false, if_true] <;>
    (try simp only [PedRecord.mk.injEq, true_and, and_true]) <;>
    (try omega)

theorem variantRecordStep_stay_four (f0 f1 n : Nat) (h01 : f0 ≤ f1) :
    variantRecordStep 4 true false
        (decide (f0 ≤ n ∧ n ≤ f1)) (decide (f0 ≤ n ∧ n ≤ f1))
        (decide (f0 ≤ n + 1 ∧ n + 1 ≤ f1)) (decide (f0 ≤ n + 1 ∧ n + 1 ≤ f1)) n
        (stayRecord 4 f0 f1 n) = stayRecord 4 f0 f1 (n + 1) := by
  have hpos : n + 1 < f0 ∨ n + 1 = f0 ∨ (n = f0 ∧ n < f1) ∨ (f0 < n ∧ n < f1) ∨
      (n = f1 ∧ f0 < f1) ∨ (n = f1 ∧ f0 = f1) ∨ n = f1 + 1 ∨ f1 + 2 ≤ n := by
    omega
  have hb : f0 < f1 ∨ f0 = f1 := by omega
  rcases hb with b | b <;> rcases hpos with a | a | a | a | a | a | a | a <;>
    simp (disch := omega) only [variantRecordStep, stayRecord, enterAt, exitAt, if_pos, if_neg,
      decide_eq_true, decide_eq_false, Bool.and_true, Bool.and_false, Bool.not_true,
      Bool.not_false, Bool.true_and, Bool.false_and, Bool.false_eq_true, if_false, if_true] <;>
    (try simp only [PedRecord.mk.injEq, true_and, and_true]) <;>
    (try omega)

theorem variantRecordStep_stay_five (f0 f1 n : Nat) (h01 : f0 ≤ f1) :
    variantRecordStep 5 true false
        (decide (f0 ≤ n ∧ n ≤ f1)) (decide (f0 ≤ n ∧ n ≤ f1))
        (decide (f0 ≤ n + 1 ∧ n + 1 ≤ f1)) (decide (f0 ≤ n + 1 ∧ n + 1 ≤ f1)) n
        (stayRecord 5 f0 f1 n) = stayRecord 5 f0 f1 (n + 1) := by
  have hpos : n + 1 < f0 ∨ n + 1 = f0 ∨ (n = f0 ∧ n < f1) ∨ (f0 < n ∧ n < f1) ∨
      (n = f1 ∧ f0 < f1) ∨ (n = f1 ∧ f0 = f1) ∨ n = f1 + 1 ∨ f1 + 2 ≤ n := by
    omega
  have hb : f0 < f1 ∨ f0 = f1 := by omega
  rcases hb with b | b <;> rcases hpos with a | a | a | a | a | a | a | a <;>
    simp (disch := omega) only [variantRecordStep, stayRecord, enterAt, exitAt, if_pos, if_neg,
      decide_eq_true, decide_eq_false, Bool.and_true, Bool.and_false, Bool.not_true,
      Bool.not_false, Bool.true_and, Bool.false_and, Bool.false_eq_true, if_false, if_true] <;>
    (try simp only [PedRecord.mk.injEq, true_and, and_true]) <;>
    (try omega)

theorem variantRecordStep_stay_six (f0 f1 n : Nat) (h01 : f0 ≤ f1) :
    variantRecordStep 6 true false
        (decide (f0 ≤ n ∧ n ≤ f1)) (decide (f0 ≤ n ∧ n ≤ f1))
        (decide (f0 ≤ n + 1 ∧ n + 1 ≤ f1)) (decide (f0 ≤ n + 1 ∧ n + 1 ≤ f1)) n
        (stayRecord 6 f0 f1 n) = stayRecord 6 f0 f1 (n + 1) := by
  have hpos : n + 1 < f0 ∨ n + 1 = f0 ∨ (n = f0 ∧ n < f1) ∨ (f0 < n ∧ n < f1) ∨
      (n = f1 ∧ f0 < f1) ∨ (n = f1 ∧ f0 = f1) ∨ n = f1 + 1 ∨ f1 + 2 ≤ n := by
    omega
  have hb : f0 < f1 ∨ f0 = f1 := by omega
  rcases hb with b | b <;> rcases hpos with a | a | a | a | a | a | a | a <;>
    simp (disch := omega) only [variantRecordStep, stayRecord, enterAt, exitAt, if_pos, if_neg,
      decide_eq_true, decide_eq_false, Bool.and_true, Bool.and_false, Bool.not_true,
      Bool.not_false, Bool.true_and, Bool.false_and, Bool.false_eq_true, if_false, if_true] <;>
    (try simp only [PedRecord.mk.injEq, true_and, and_true]) <;>
    (try omega)

/-- One step of a single stay, in a frame that has a successor which is not
`(0, 0)`: the record expected after `n` frames becomes the one expected after
`n + 1` frames. -/
theorem variantRecordStep_stay (variant f0 f1 n : Nat) (hv1 : 1 ≤ variant) (hv6 : variant ≤ 6)
    (h0 : 1 ≤ f0) (h01 : f0 ≤ f1) :
    variantRecordStep variant true false
        (decide (f0 ≤ n ∧ n ≤ f1)) (decide (f0 ≤ n ∧ n ≤ f1))
        (decide (f0 ≤ n + 1 ∧ n + 1 ≤ f1)) (decide (f0 ≤ n + 1 ∧ n + 1 ≤ f1)) n
        (stayRecord variant f0 f1 n) = stayRecord variant f0 f1 (n + 1) := by
  interval_cases variant
  · exact variantRecordStep_stay_one f0 f1 n h0 h01
  · exact variantRecordStep_stay_two f0 f1 n h0 h01
  · exact variantRecordStep_stay_three f0 f1 n h01
  · exact variantRecordStep_stay_four f0 f1 n h01
  · exact variantRecordStep_stay_five f0 f1 n h01
  · exact variantRecordStep_stay_six f0 f1 n h01

/-- In the last frame, which has no successor, a pedestrian who is outside
and not flagged keeps its record. -/
theorem variantRecordStep_last (variant : Nat) (nz w2 c2 : Bool) (n : Nat) (r : PedRecord)
    (hr : r.inside = false) :
    variantRecordStep variant false nz false false w2 c2 n r = r := by
  unfold variantRecordStep
  split <;> simp [hr]

/-- The record of a pedestrian who is listed once in every frame, whose
samples are strictly inside the area exactly on the frames `f0 .. f1` and are
never `(0, 0)`, after the frames `0 .. n - 1` of a variant 1 to 6. -/
theorem ownRun_single_stay (G : VariantEnv) (xCor yCor : Table) (numFrames : Int)
    (variant ID f0 f1 : Nat) (hv1 : 1 ≤ variant) (hv6 : variant ≤ 6)
    (h0 : 1 ≤ f0) (h01 : f0 ≤ f1) (hlast : (f1 : Int) + 2 < numFrames)
    (hin : ∀ f : Nat, f0 ≤ f → f ≤ f1 →
      G.within (truncate (xCor ID f)) (truncate (yCor ID f)) = true ∧
      G.covered_by (truncate (xCor ID f)) (truncate (yCor ID f)) = true)
    (hout : ∀ f : Nat, (f : Int) < numFrames → (f < f0 ∨ f1 < f) →
      G.within (truncate (xCor ID f)) (truncate (yCor ID f)) = false ∧
      G.covered_by (truncate (xCor ID f)) (truncate (yCor ID f)) = false)
    (hnz : ∀ f : Nat, (f : Int) < numFrames →
      ¬ (truncate (xCor ID f) = 0 ∧ truncate (yCor ID f) = 0))
    (count : Nat → Nat) (hcount : ∀ f : Nat, (f : Int) < numFrames → count f = 1)
    (n : Nat) (hn : (n : Int) ≤ numFrames) :
    ownRun G xCor yCor numFrames variant ID count n = stayRecord variant f0 f1 n := by
  have hsample : ∀ f : Nat, (f : Int) < numFrames →
      G.within (truncate (xCor ID f)) (truncate (yCor ID f)) = decide (f0 ≤ f ∧ f ≤ f1) ∧
      G.covered_by (truncate (xCor ID f)) (truncate (yCor ID f)) = decide (f0 ≤ f ∧ f ≤ f1) := by
    intro f hf
    by_cases hp : f0 ≤ f ∧ f ≤ f1
    · rw [(hin f hp.1 hp.2).1, (hin f hp.1 hp.2).2]
      simp [hp]
    · rw [(hout f hf (by omega)).1, (hout f hf (by omega)).2]
      simp [hp]
  induction n with
  | zero => simp [ownRun, stayRecord]
  | succ n ih =>
      have hn2 : (n : Int) < numFrames := by omega
      have e : ownRun G xCor yCor numFrames variant ID count (n + 1) =
          ownStep G xCor yCor numFrames variant ID n
            (ownRun G xCor yCor numFrames variant ID count n) := by
        simp [ownRun, List.range_succ, List.foldl_append, hcount n hn2]
      rw [e, ih (by omega)]
      by_cases hnext : (n : Int) + 1 < numFrames
      · have hz := hnz (n + 1) (by push_cast; omega)
        have hz2 : (decide (truncate (xCor ID (n + 1)) = 0) &&
            decide (truncate (yCor ID (n + 1)) = 0)) = false := by simpa using hz
        have s1 := hsample n hn2
        have s2 := hsample (n + 1) (by push_cast; omega)
        simp only [ownStep, samplesAt, hnext, if_true, decide_True, hz2, s1.1, s1.2, s2.1, s2.2]
        exact variantRecordStep_stay variant f0 f1 n hv1 hv6 h0 h01
      · have hbig : f1 + 2 ≤ n := by omega
        have s1 := hsample n hn2
        have hd : decide (f0 ≤ n ∧ n ≤ f1) = false := by
          simp only [decide_eq_false_iff_not]
          omega
        have hfinal : ∀ k : Nat, f1 + 2 ≤ k → stayRecord variant f0 f1 k =
            { tIn := enterAt variant f0, tOut := exitAt variant f0 f1, inside := false } := by
          intro k hk
          have h1 : ¬ k ≤ enterAt variant f0 := by
            unfold enterAt
            split_ifs <;> omega
          have h2 : ¬ k ≤ exitAt variant f0 f1 := by
            unfold exitAt
            split_ifs <;> omega
          simp [stayRecord, h1, h2]
        rw [hfinal n hbig, hfinal (n + 1) (by omega)]
        simp only [ownStep, samplesAt, hnext, if_false, decide_False, s1.1, s1.2, hd]
        exact variantRecordStep_last variant _ _ _ n _ rfl

/-- The variants 1 to 6 on a single stay: for a pedestrian (`ID < numPeds`)
who is listed once in every frame, is strictly outside the area before frame
`f0`, strictly inside on the frames `f0 .. f1` and strictly outside afterwards
(`1 ≤ f0 ≤ f1`, `f1 + 2 < numFrames`, no sample `(0, 0)`), `GetTinTout`
returns `tIn = enterAt variant f0` and `tOut = exitAt variant f0 f1`. -/
theorem GetTinTout_single_stay (G : VariantEnv) (peds_t : Nat → List Nat) (xCor yCor : Table)
    (numFrames : Int) (numPeds variant ID f0 f1 : Nat) (hID : ID < numPeds)
    (hv1 : 1 ≤ variant) (hv6 : variant ≤ 6)
    (h0 : 1 ≤ f0) (h01 : f0 ≤ f1) (hlast : (f1 : Int) + 2 < numFrames)
    (hlisted : ∀ f : Nat, (f : Int) < numFrames → (peds_t f).count ID = 1)
    (hin : ∀ f : Nat, f0 ≤ f → f ≤ f1 →
      G.within (truncate (xCor ID f)) (truncate (yCor ID f)) = true ∧
      G.covered_by (truncate (xCor ID f)) (truncate (yCor ID f)) = true)
    (hout : ∀ f : Nat, (f : Int) < numFrames → (f < f0 ∨ f1 < f) →
      G.within (truncate (xCor ID f)) (truncate (yCor ID f)) = false ∧
      G.covered_by (truncate (xCor ID f)) (truncate (yCor ID f)) = false)
    (hnz : ∀ f : Nat, (f : Int) < numFrames →
      ¬ (truncate (xCor ID f) = 0 ∧ truncate (yCor ID f) = 0)) :
    (GetTinTout G peds_t xCor yCor numFrames numPeds variant).1.getD ID 0 = enterAt variant f0 ∧
      (GetTinTout G peds_t xCor yCor numFrames numPeds variant).2.getD ID 0 =
        exitAt variant f0 f1 := by
  have h1 := (runVariant_record G peds_t xCor yCor numFrames numPeds variant ID hID hv6
    numFrames.toNat).2
  have h2 := ownRun_single_stay G xCor yCor numFrames variant ID f0 f1 hv1 hv6 h0 h01 hlast
    hin hout hnz (fun frameNr => (peds_t frameNr).count ID) hlisted numFrames.toNat (by omega)
  have h3 : ¬ numFrames.toNat ≤ enterAt variant f0 := by
    unfold enterAt
    split_ifs <;> omega
  have h4 : ¬ numFrames.toNat ≤ exitAt variant f0 f1 := by
    unfold exitAt
    split_ifs <;> omega
  have h : (runVariant G peds_t xCor yCor numFrames numPeds variant).record ID =
      { tIn := enterAt variant f0, tOut := exitAt variant f0 f1, inside := false } := by
    unfold runVariant
    rw [h1, h2]
    simp [stayRecord, h3, h4]
  simp only [Variants.record, PedRecord.mk.injEq] at h
  exact ⟨h.1, h.2.1⟩

/-- The single-stay theorem on the walk `walkX` through the unit square
(inside on the frames 2 and 3 of 6) and on the stay of one frame of
`singleFrameX` (inside in frame 1 of 5), for every variant 1 to 6. -/
theorem GetTinTout_single_stay_example (variant : Nat) (hv1 : 1 ≤ variant) (hv6 : variant ≤ 6) :
    ((GetTinTout (squareGeometry squareRing) (fun _ => [0]) (tableOf walkX) (tableOf midY)
          6 1 variant).1.getD 0 0 = enterAt variant 2 ∧
      (GetTinTout (squareGeometry squareRing) (fun _ => [0]) (tableOf walkX) (tableOf midY)
          6 1 variant).2.getD 0 0 = exitAt variant 2 3) ∧
    ((GetTinTout (squareGeometry squareRing) (fun _ => [0]) (tableOf singleFrameX)
          (tableOf midY) 5 1 variant).1.getD 0 0 = enterAt variant 1 ∧
      (GetTinTout (squareGeometry squareRing) (fun _ => [0]) (tableOf singleFrameX)
          (tableOf midY) 5 1 variant).2.getD 0 0 = exitAt variant 1 1) := by
  constructor
  · refine GetTinTout_single_stay (squareGeometry squareRing) (fun _ => [0]) (tableOf walkX)
      (tableOf midY) 6 1 variant 0 2 3 (by decide) hv1 hv6 (by decide) (by decide) (by decide)
      (by intro f _; simp) ?_ ?_ ?_
    · intro f h1 h2
      simp only [tableOf, truncate_intCast, squareGeometry, walkX, midY, decide_eq_true_eq]
      omega
    · intro f _ h2
      simp only [tableOf, truncate_intCast, squareGeometry, walkX, midY,
        decide_eq_false_iff_not]
      omega
    · intro f _
      simp only [truncate_tableOf]
      simp [midY]
  · refine GetTinTout_single_stay (squareGeometry squareRing) (fun _ => [0])
      (tableOf singleFrameX) (tableOf midY) 5 1 variant 0 1 1 (by decide) hv1 hv6 (by decide)
      (by decide) (by decide) (by intro f _; simp) ?_ ?_ ?_
    · intro f h1 h2
      have hf : f = 1 := by omega
      subst hf
      simp only [truncate_tableOf]
      simp [squareGeometry, singleFrameX, midY]
    · intro f _ h2
      have hf : f ≠ 1 := by omega
      simp only [truncate_tableOf]
      simp [squareGeometry, singleFrameX, midY, hf]
    · intro f _
      simp only [truncate_tableOf]
      simp [midY]

/-! ## C24: the frames recorded by the variants 1 to 6 -/

/-- C24 (the code departs from the claim and from its own table of variants):
a pedestrian who is strictly inside the unit square in frame 1 only
(`f0 = f1 = 1`, five frames, no sample `(0, 0)`).  The variants 1 to 4 return
what the claim says, `(0, 1)` and `(1, 2)`; the variants 5 and 6 return
`(1, 2)`, the first frame after the exit, and not `(1, 1)`.  For the stay on
the frames 2 and 3 of the walk `walkX` they return `(2, 3)`. -/
theorem C24_single_frame_stay :
    GetTinTout (squareGeometry squareRing) (fun _ => [0]) (tableOf singleFrameX) (tableOf midY)
        5 1 1 = ([0], [1]) ∧
      GetTinTout (squareGeometry squareRing) (fun _ => [0]) (tableOf singleFrameX) (tableOf midY)
        5 1 2 = ([0], [1]) ∧
      GetTinTout (squareGeometry squareRing) (fun _ => [0]) (tableOf singleFrameX) (tableOf midY)
        5 1 3 = ([1], [2]) ∧
      GetTinTout (squareGeometry squareRing) (fun _ => [0]) (tableOf singleFrameX) (tableOf midY)
        5 1 4 = ([1], [2]) ∧
      GetTinTout (squareGeometry squareRing) (fun _ => [0]) (tableOf singleFrameX) (tableOf midY)
        5 1 5 = ([1], [2]) ∧
      GetTinTout (squareGeometry squareRing) (fun _ => [0]) (tableOf singleFrameX) (tableOf midY)
        5 1 6 = ([1], [2]) ∧
      GetTinTout (squareGeometry squareRing) (fun _ => [0]) (tableOf walkX) (tableOf midY)
        6 1 5 = ([2], [3]) ∧
      GetTinTout (squareGeometry squareRing) (fun _ => [0]) (tableOf walkX) (tableOf midY)
        6 1 6 = ([2], [3]) := by
  refine ⟨?_, ?_, ?_, ?_, ?_, ?_, ?_, ?_⟩ <;>
    simp [GetTinTout, runVariant, variantFrame, variantStep, variantSwitch, List.range,
      List.range.loop, truncate_tableOf, singleFrameX, walkX, midY, squareGeometry,
      Variants.init, Variants.enter, Variants.leave]

/-! ## C25: the sentinel `(0, 0)` -/

/-- The loop of method H pushes an id and its interval together: the two
vectors grow by the same elements. -/
theorem parseMethodH_zip (reg : Registry) (els : List MethodAreaElement) :
    ∀ acc r : MethodAreas, parseMethodH reg els acc = Outcome.value r →
      acc.areaIDs.length = acc.timeIntervals.length →
      r.areaIDs.length = r.timeIntervals.length ∧
      ∃ accepted : List MethodAreaElement, accepted.Sublist els ∧
        r.areaIDs = acc.areaIDs ++ accepted.map (fun el => el.id) ∧
        r.timeIntervals =
          acc.timeIntervals ++ accepted.map (fun el => el.frame_interval.value (-1)) := by
  induction els with
  | nil =>
      intro acc r h hl
      simp only [parseMethodH, Outcome.value.injEq] at h
      subst h
      exact ⟨hl, [], List.Sublist.refl _, by simp, by simp⟩
  | cons el rest ih =>
      intro acc r h hl
      simp only [parseMethodH] at h
      cases ht : registeredType reg el.id with
      | exitFailure => rw [ht] at h; simp at h
      | undefinedBehaviour => rw [ht] at h; simp at h
      | value t =>
          rw [ht] at h
          simp only at h
          split_ifs at h with hb
          · obtain ⟨h1, accepted, hsub, h2, h3⟩ := ih _ r h (by simp [hl])
            refine ⟨h1, el :: accepted, hsub.cons₂ el, ?_, ?_⟩
            · simp [h2]
            · simp [h3]
          · obtain ⟨h1, accepted, hsub, h2, h3⟩ := ih _ r h hl
            exact ⟨h1, accepted, hsub.cons el, h2, h3⟩

/-- C26 (the code of method A departs from the claim and from the loops of
the methods E to H): the area 1 is a bounding box and is rejected by method A,
the area 2 is a line and is accepted.  The interval 50 of the rejected element
is pushed all the same, so that one id stands against two intervals and the
first (and only) area run, the area 2, is run with `_deltaT[0] = 50` and not
with its own `frame_interval` 200.  Method H, which rejects the line 2, keeps
the id 1 and its interval 50 together. -/
theorem C26_method_A_intervals_shift :
    parseMethodA mixedRegistry mixedElements { areaIDs := [], timeIntervals := [] } =
        Outcome.value { areaIDs := [2], timeIntervals := [50, 200] } ∧
      ([2] : List Int)[0]? = some 2 ∧ ([50, 200] : List Int)[0]? = some 50 ∧
      parseMethodH mixedRegistry mixedElements { areaIDs := [], timeIntervals := [] } =
        Outcome.value { areaIDs := [1], timeIntervals := [50] } := by
  refine ⟨?_, rfl, rfl, ?_⟩
  · simp [parseMethodA, mixedElements, registeredType, mixedRegistry, Registry.insert,
      lineArea, squareArea, FrameInterval.value]
  · simp [parseMethodH, mixedElements, registeredType, mixedRegistry, Registry.insert,
      lineArea, squareArea, FrameInterval.value]

/-! ## C27, C28: the time added for one pedestrian -/

/-- The detector on the long stay: entrance at frame 3, exit at frame 25. -/
theorem longStay_record (u : Int → Nat → Dbl) :
    (GetTinToutEntExt (squareExternWith u) 1 (fun _ => [0]) (tableOf longStayX) (tableOf midY)
      31).record 0 = { tIn := 3, tOut := 25, inside := false } := by
  have key := detectorAfter_single_stay (squareExternWith u) 1 (fun _ => [0])
    (tableOf longStayX) (tableOf midY) 31 0 3 24 (by decide) (by intro f _; simp) (by decide)
    (by
      intro f h1 h2
      simp only [truncate_tableOf, squareExternWith, squareExtern, longStayX, midY]
      simp [h1, h2])
    (by
      intro f _ h2
      have h3 : ¬ (3 ≤ f ∧ f ≤ 24) := by omega
      simp only [truncate_tableOf, squareExternWith, squareExtern, longStayX, midY]
      simp [h3])
    31 (by decide)
  have hfin : GetTinToutEntExt (squareExternWith u) 1 (fun _ => [0]) (tableOf longStayX)
      (tableOf midY) 31 =
      detectorAfter (squareExternWith u) 1 (fun _ => [0]) (tableOf longStayX) (tableOf midY)
        31 := rfl
  rw [hfin, key]
  simp

/-- C27 (the code departs from the claim): one pedestrian stays in the unit
square on the frames 3 to 24 of a trajectory of 31 frames, so that the
detector gives `tIn = 3`, `tOut = 25`; with `_deltaT = 10` the window loop
visits the starts 0, 10 and 20.  In the window that starts at frame 10 the
pedestrian passes the overlap test, but none of the four cases applies:
`tmpTime` is not assigned in this iteration, and the row written for the
window is computed from the value `u 10 0` found in the unassigned variable.
The same holds in that window for `tIn = 20`, the end of the window, with
`tOut = 0`. -/
theorem C27_no_case_applies :
    overlapTest 3 25 10 10 = true ∧ (branch 16 3 25 10 10).tmpTime = none ∧
      overlapTest 20 0 10 10 = true ∧ (branch 16 20 0 10 10).tmpTime = none ∧
      ∀ u : Int → Nat → Dbl,
        (GetTinToutEntExt (squareExternWith u) 1 (fun _ => [0]) (tableOf longStayX)
          (tableOf midY) 31).record 0 = { tIn := 3, tOut := 25, inside := false } ∧
        Process (squareExternWith u) true 1 10 longStayPedData 3 =
          ProcessResult.returned true
            [{ flow := Dbl.fin (7 / 5), density := Dbl.fin (7 / 10), velocity := Dbl.fin 2 },
             rowOf 1 16 10
               { sumTime := (Dbl.fin 0).add (u 10 0), sumDistance := Dbl.fin 0 },
             { flow := Dbl.fin 2, density := Dbl.fin 1, velocity := Dbl.fin 2 }] := by
  refine ⟨by decide, by simp [branch], by decide, by simp [branch], ?_⟩
  intro u
  refine ⟨longStay_record u, ?_⟩
  have hr : (GetTinToutEntExt (squareExternWith u) longStayPedData.GetNumPeds
      longStayPedData.GetPedIDsByFrameNr longStayPedData.GetXCor longStayPedData.GetYCor
      longStayPedData.GetNumFrames).record 0 = { tIn := 3, tOut := 25, inside := false } :=
    longStay_record u
  simp only [Process]
  generalize GetTinToutEntExt (squareExternWith u) longStayPedData.GetNumPeds
      longStayPedData.GetPedIDsByFrameNr longStayPedData.GetXCor longStayPedData.GetYCor
      longStayPedData.GetNumFrames = d at hr ⊢
  simp only [Detector.record, PedRecord.mk.injEq] at hr
  obtain ⟨hti, hto, _⟩ := hr
  have hw : ∀ (xCor yCor : Table) (i : Int), windowSums (squareExternWith u)
      { _numPeds := 1, _deltaT := 10, _fps := 16, _dx := 1, _tIn := d._tIn, _tOut := d._tOut,
        _xCor := tableOf longStayX, _yCor := tableOf midY } xCor yCor i =
      pedBody (squareExternWith u) 16 xCor yCor i 10 0 3 25
        { sumTime := Dbl.fin 0, sumDistance := Dbl.fin 0 } := by
    intro xCor yCor i
    simp only [windowSums, List.range, List.range.loop, List.foldl_cons, List.foldl_nil, hti, hto]
  have h0 : ∀ xCor yCor : Table, pedBody (squareExternWith u) 16 xCor yCor 0 10 0 3 25
      { sumTime := Dbl.fin 0, sumDistance := Dbl.fin 0 } =
      { sumTime := Dbl.fin (7 / 16), sumDistance := Dbl.fin (7 / 8) } := by
    intro xCor yCor
    simp [pedBody, overlapTest, branch, squareExternWith, squareExtern, exampleExtern, Dbl.add,
      Dbl.div, Dbl.ofInt]
    norm_num
  have h10 : ∀ xCor yCor : Table, pedBody (squareExternWith u) 16 xCor yCor 10 10 0 3 25
      { sumTime := Dbl.fin 0, sumDistance := Dbl.fin 0 } =
      { sumTime := (Dbl.fin 0).add (u 10 0), sumDistance := Dbl.fin 0 } := by
    intro xCor yCor
    simp [pedBody, overlapTest, branch, squareExternWith]
  have h20 : ∀ xCor yCor : Table, pedBody (squareExternWith u) 16 xCor yCor 20 10 0 3 25
      { sumTime := Dbl.fin 0, sumDistance := Dbl.fin 0 } =
      { sumTime := Dbl.fin (5 / 8), sumDistance := Dbl.fin (5 / 4) } := by
    intro xCor yCor
    simp [pedBody, overlapTest, branch, squareExternWith, squareExtern, exampleExtern, Dbl.add,
      Dbl.div, Dbl.ofInt]
    norm_num
  simp only [longStayPedData, OutputRhoVFlow, windowLoop, windowRow, hw]
  simp [h0, h10, h20, rowOf, Dbl.div, Dbl.mul, Dbl.ofInt]
  norm_num

/-- C28 (the code departs from the claim): a pedestrian who is inside the unit
square on the frames 2 and 3, leaves it and is inside again from frame 7 on.
`GetTinToutEntExt` ends with `tIn = 7` and `tOut = 4`; in the window of the
frames 0 to 10 the first case applies and the time added is (4 - 7) / 16 s, a
negative value, and the density written for the window is negative. -/
theorem C28_reentry_negative_time :
    (GetTinToutEntExt squareExtern 1 (fun _ => [0]) (tableOf reentryX) (tableOf midY) 12).record 0
        = { tIn := 7, tOut := 4, inside := true } ∧
      overlapTest 7 4 0 10 = true ∧
      (branch 16 7 4 0 10).tmpTime = some (Dbl.fin (-3 / 16)) ∧
      Process squareExtern true 1 10 reentryPedData 1 =
        ProcessResult.returned true
          [{ flow := Dbl.fin (-3 / 5), density := Dbl.fin (-3 / 10), velocity := Dbl.fin 2 }] := by
  have hd : GetTinToutEntExt squareExtern 1 (fun _ => [0]) (tableOf reentryX) (tableOf midY) 12 =
      { Detector.init 1 with
        IsinMeasurezone := [true], _tIn := [7], _tOut := [4],
        _entrancePoint := [(1 / 2, 1 / 2)], _exitPoint := [(-1 / 2, 1 / 2)] } := by
    simp [GetTinToutEntExt, detectFrame, detectStep, List.range, List.range.loop,
      truncate_tableOf, reentryX, midY, squareExtern, exampleExtern, Detector.init]
    norm_num
  refine ⟨?_, by decide, ?_, ?_⟩
  · simp [hd, Detector.record]
  · simp [branch, Dbl.div, Dbl.ofInt]
  · have hd2 : GetTinToutEntExt squareExtern reentryPedData.GetNumPeds
        reentryPedData.GetPedIDsByFrameNr reentryPedData.GetXCor reentryPedData.GetYCor
        reentryPedData.GetNumFrames =
        { Detector.init 1 with
          IsinMeasurezone := [true], _tIn := [7], _tOut := [4],
          _entrancePoint := [(1 / 2, 1 / 2)], _exitPoint := [(-1 / 2, 1 / 2)] } := hd
    have hw : ∀ xCor yCor, windowSums squareExtern
        { _numPeds := 1, _deltaT := 10, _fps := 16, _dx := 1, _tIn := [7], _tOut := [4],
          _xCor := tableOf reentryX, _yCor := tableOf midY } xCor yCor 0 =
        { sumTime := Dbl.fin (-3 / 16), sumDistance := Dbl.fin (-3 / 8) } := by
      intro xCor yCor
      simp [windowSums, List.range, List.range.loop, pedBody, overlapTest, branch, squareExtern,
        exampleExtern, Dbl.add, Dbl.div, Dbl.ofInt]
      norm_num
    simp only [Process, hd2]
    simp only [reentryPedData, OutputRhoVFlow, windowLoop, windowRow, hw]
    simp [rowOf, Dbl.div, Dbl.mul, Dbl.ofInt]
    norm_num

/-! ## C29: the other pedestrians -/

theorem truncate_pairX (ID frameNr : Nat) :
    truncate (pairX ID frameNr) = pairCoord ID frameNr := by
  simp [pairX, truncate_intCast]

theorem ownStep_congr (G : VariantEnv) (xCor yCor xCor2 yCor2 : Table) (numFrames : Int)
    (variant ID : Nat) (hx : ∀ f, xCor ID f = xCor2 ID f) (hy : ∀ f, yCor ID f = yCor2 ID f) :
    ownStep G xCor yCor numFrames variant ID = ownStep G xCor2 yCor2 numFrames variant ID := by
  funext frameNr r
  simp [ownStep, samplesAt, hx, hy]

/-- In the variants 1 to 6 the entries of a pedestrian depend on its own
samples and presence only: two runs that agree on the samples of `ID` and on
the number of times `ID` is listed in each frame give `ID` the same `tIn` and
`tOut`, whatever the other pedestrians do.  (Both runs share `G`: what the
variants 3 and 4 find in the unassigned `nextX`, `nextY` in the last frame is
the value `G.unassignedNext` of that frame and pedestrian in both.) -/
theorem GetTinTout_own_samples (G : VariantEnv) (peds_t peds_t2 : Nat → List Nat)
    (xCor yCor xCor2 yCor2 : Table) (numFrames : Int) (numPeds variant ID : Nat)
    (hID : ID < numPeds) (hv : variant ≤ 6)
    (hx : ∀ f, xCor ID f = xCor2 ID f) (hy : ∀ f, yCor ID f = yCor2 ID f)
    (hp : ∀ f, (peds_t f).count ID = (peds_t2 f).count ID) :
    (GetTinTout G peds_t xCor yCor numFrames numPeds variant).1.getD ID 0 =
        (GetTinTout G peds_t2 xCor2 yCor2 numFrames numPeds variant).1.getD ID 0 ∧
      (GetTinTout G peds_t xCor yCor numFrames numPeds variant).2.getD ID 0 =
        (GetTinTout G peds_t2 xCor2 yCor2 numFrames numPeds variant).2.getD ID 0 := by
  have h1 := (runVariant_record G peds_t xCor yCor numFrames numPeds variant ID hID hv
    numFrames.toNat).2
  have h2 := (runVariant_record G peds_t2 xCor2 yCor2 numFrames numPeds variant ID hID hv
    numFrames.toNat).2
  have hc : (fun frameNr => (peds_t frameNr).count ID) =
      (fun frameNr => (peds_t2 frameNr).count ID) := funext hp
  have h : (runVariant G peds_t xCor yCor numFrames numPeds variant).record ID =
      (runVariant G peds_t2 xCor2 yCor2 numFrames numPeds variant).record ID := by
    unfold runVariant
    rw [h1, h2, hc]
    unfold ownRun
    rw [ownStep_congr G xCor yCor xCor2 yCor2 numFrames variant ID hx hy]
  simp only [Variants.record, PedRecord.mk.injEq] at h
  exact ⟨h.1, h.2.1⟩

/-- The independence theorem on the two pedestrians of `pairX`: in the
variants 1 to 6 pedestrian 0 gets the same `tIn` and `tOut` whether or not
pedestrian 1 is listed. -/
theorem GetTinTout_own_samples_example (variant : Nat) (hv6 : variant ≤ 6) :
    (GetTinTout (squareGeometry squareRing) (fun _ => [0]) pairX (tableOf midY) 6 2
          variant).1.getD 0 0 =
        (GetTinTout (squareGeometry squareRing) (fun _ => [0, 1]) pairX (tableOf midY) 6 2
          variant).1.getD 0 0 ∧
      (GetTinTout (squareGeometry squareRing) (fun _ => [0]) pairX (tableOf midY) 6 2
          variant).2.getD 0 0 =
        (GetTinTout (squareGeometry squareRing) (fun _ => [0, 1]) pairX (tableOf midY) 6 2
          variant).2.getD 0 0 :=
  GetTinTout_own_samples (squareGeometry squareRing) (fun _ => [0]) (fun _ => [0, 1]) pairX
    (tableOf midY) pairX (tableOf midY) 6 2 variant 0 (by decide) hv6 (fun _ => rfl)
    (fun _ => rfl) (fun _ => by simp)

theorem GetTinTout_alone_7 :
    GetTinTout (squareGeometry squareRing) (fun _ => [0]) pairX (tableOf midY) 6 2 7
        = ([2, 0], [4, 0]) := by
  simp [GetTinTout, runVariant, variantFrame, variantStep, variantSwitch, List.range,
    List.range.loop, truncate_tableOf, truncate_pairX, pairCoord, midY, squareGeometry,
    squareRing, Variants.init, Variants.enter, Variants.leave, edgeLoop, edgeBody, edge, point,
    segmentsIntersect, orient, inBox, axisDistance]
  norm_num

theorem GetTinTout_pair_7 :
    GetTinTout (squareGeometry squareRing) (fun _ => [0, 1]) pairX (tableOf midY) 6 2 7
        = ([2, 3], [3, 0]) := by
  simp [GetTinTout, runVariant, variantFrame, variantStep, variantSwitch, List.range,
    List.range.loop, truncate_tableOf, truncate_pairX, pairCoord, midY, squareGeometry,
    squareRing, Variants.init, Variants.enter, Variants.leave, edgeLoop, edgeBody, edge, point,
    segmentsIntersect, orient, inBox, axisDistance]
  norm_num

theorem GetTinTout_alone_8 :
    GetTinTout (squareGeometry squareRing) (fun _ => [0]) pairX (tableOf midY) 6 2 8
        = ([2, 0], [4, 0]) := by
  simp [GetTinTout, runVariant, variantFrame, variantStep, variantSwitch, List.range,
    List.range.loop, truncate_tableOf, truncate_pairX, pairCoord, midY, squareGeometry,
    squareRing, Variants.init, Variants.enter, Variants.leave, edgeLoop, edgeBody, edge, point,
    segmentsIntersect, orient, inBox, axisDistance]
  norm_num

theorem GetTinTout_pair_8 :
    GetTinTout (squareGeometry squareRing) (fun _ => [0, 1]) pairX (tableOf midY) 6 2 8
        = ([2, 2], [3, 0]) := by
  simp [GetTinTout, runVariant, variantFrame, variantStep, variantSwitch, List.range,
    List.range.loop, truncate_tableOf, truncate_pairX, pairCoord, midY, squareGeometry,
    squareRing, Variants.init, Variants.enter, Variants.leave, edgeLoop, edgeBody, edge, point,
    segmentsIntersect, orient, inBox, axisDistance]
  norm_num

/-- C29 (the code of the variants 7 and 8 departs from the claim): pedestrian
0 walks along y = 50 through the unit square, entering through the left edge
between the frames 1 and 2 and leaving through the right edge between the
frames 3 and 4 (x = 60, then x = 110).  When it is the only pedestrian listed,
the variants 7 and 8 give it `tIn = 2`, `tOut = 4`.  When pedestrian 1 is
listed as well and enters through the right edge between the frames 2 and 3,
the shared segment `exit` is the left edge at the time pedestrian 0 leaves,
and pedestrian 0 is given `tOut = 3`, with the same samples. -/
theorem C29_exit_depends_on_other_pedestrian :
    GetTinTout (squareGeometry squareRing) (fun _ => [0]) pairX (tableOf midY) 6 2 7
        = ([2, 0], [4, 0]) ∧
      GetTinTout (squareGeometry squareRing) (fun _ => [0, 1]) pairX (tableOf midY) 6 2 7
        = ([2, 3], [3, 0]) ∧
      GetTinTout (squareGeometry squareRing) (fun _ => [0]) pairX (tableOf midY) 6 2 8
        = ([2, 0], [4, 0]) ∧
      GetTinTout (squareGeometry squareRing) (fun _ => [0, 1]) pairX (tableOf midY) 6 2 8
        = ([2, 2], [3, 0]) :=
  ⟨GetTinTout_alone_7, GetTinTout_pair_7, GetTinTout_alone_8, GetTinTout_pair_8⟩

/-! ## C30: the end of the window loop -/

/-- With a frame interval that is not positive, the window loop that has not
ended makes one more iteration, whatever the number of iterations made. -/
theorem windowLoop_never_ends (E : Extern) (m : MethodH) (xCor yCor : Table) (numFrames : Int)
    (hd : m._deltaT ≤ 0) :
    ∀ (fuel : Nat) (i : Int), i < numFrames - m._deltaT →
      windowLoop E m xCor yCor numFrames fuel i = none := by
  intro fuel
  induction fuel with
  | zero => intro i hi; simp [windowLoop, hi]
  | succ fuel ih =>
      intro i hi
      simp only [windowLoop, hi, if_true]
      rw [ih (i + m._deltaT) (by omega)]
      rfl

/-- A call of `Process` whose frame interval is not positive does not come
back once the window loop has been entered. -/
theorem Process_never_ends (E : Extern) (_length : ℚ) (deltaT : Int) (peddata : PedData)
    (fuel : Nat) (hlen : 0 ≤ _length) (hd : deltaT ≤ 0)
    (h0 : 0 < peddata.GetNumFrames - deltaT) :
    Process E true _length deltaT peddata fuel = ProcessResult.running := by
  have hl : ¬ _length < 0 := not_lt.mpr hlen
  simp only [Process, OutputRhoVFlow, Bool.not_true, Bool.false_eq_true, if_false, hl]
  rw [windowLoop_never_ends E _ _ _ peddata.GetNumFrames hd fuel 0 (by simpa using h0)]
  rfl

/-- C30 (the code departs from the claim): a `measurement_area` of method H
without `frame_interval`, or with the text `None`, is stored with the interval
-1.  With `_deltaT = -1` the window loop `for (i = 0; i < numFrames + 1; i += -1)`
has not ended after any number `fuel` of iterations: the call of `Process`
for the area does not come back.  The same holds for `frame_interval="0"`
on a trajectory with at least one frame. -/
theorem C30_window_loop_never_ends (fuel : Nat) :
    parseMethodH exampleRegistry
        [{ id := 1, frame_interval := FrameInterval.absent },
         { id := 2, frame_interval := FrameInterval.noneText }]
        { areaIDs := [], timeIntervals := [] } =
        Outcome.value { areaIDs := [1, 2], timeIntervals := [-1, -1] } ∧
      RunAnalysis_methodH (fun _ => exampleExtern) (fun _ => true) true [some (squareArea 1 8)]
        [-1] examplePedData fuel = RunResult.running [] ∧
      RunAnalysis_methodH (fun _ => exampleExtern) (fun _ => true) true [some (squareArea 1 8)]
        [0] examplePedData fuel = RunResult.running [] ∧
      ∀ (E : Extern) (m : MethodH) (numFrames : Int), 0 ≤ numFrames → m._deltaT = -1 →
        OutputRhoVFlow E m numFrames fuel = none := by
  refine ⟨?_, ?_, ?_, ?_⟩
  · simp [parseMethodH, registeredType, exampleRegistry, Registry.insert, parseAreaB,
      twoVertexElement, noVertexElement, FrameInterval.value]
  · have h := Process_never_ends exampleExtern 8 (-1) examplePedData fuel (by norm_num)
      (by norm_num) (by simp [examplePedData])
    simp [RunAnalysis_methodH, methodHLoop, squareArea, h]
  · have h := Process_never_ends exampleExtern 8 0 examplePedData fuel (by norm_num)
      (by norm_num) (by simp [examplePedData])
    simp [RunAnalysis_methodH, methodHLoop, squareArea, h]
  · intro E m numFrames hn hd
    simp only [OutputRhoVFlow]
    rw [windowLoop_never_ends E m _ _ numFrames (by omega) fuel 0 (by omega)]
    rfl

end JPSReport
